import Mathlib

/-!
# Self-limiting polygon trees: occupancy field, viability and the pending queue

A shallow embedding of `src/tree/tree.h` and `src/tree/SelfLimitingPolygonTree.h`.

Conventions of the embedding

* `float` and `double` values are exact rationals (`ℚ`): no rounding, no NaN, no infinity.
* C++ `int` values are unbounded integers (`Int`).
* an element of a `cv::Mat1b` (an `uchar`) is an 8-bit vector, so the bitwise operations of
  OpenCV (`bitwise_and`, `bitwise_or`, `bitwise_not`) are the operations of `BitVec 8`.
* a `cv::Mat1b` is its size together with a total function from cell coordinates `(x, y)`
  to cell values; operations on a region of interest `m(rect)` act on the cells of `rect`.
* the scan conversion done by OpenCV (`fillPoly`, `polylines`) is a parameter (`Raster`):
  which cells a polygon covers, which cells its outline covers, and how the anti-aliased
  outline blends a colour into the old value of a cell.
* functions of `util.h`, of `tree.cpp` and of the C maths library are parameters (`Util`,
  `Libm`) where only their result matters, and are modelled where a claim needs their value.
* `std::priority_queue` is the binary heap of the standard library over a sequence
  (`push_back` + `push_heap`, `pop_heap` + `pop_back`), written out below.
-/

set_option autoImplicit false

namespace QTree

/-! ## Geometry -/

/-- A `cv::Point2f`. -/
structure Point2f where
  x : ℚ
  y : ℚ

/-- A `cv::Point` (integer coordinates). -/
structure Point where
  x : Int
  y : Int
deriving DecidableEq

/-- A `cv::Rect` (integer rectangle: top-left corner, width, height). -/
structure Rect where
  x : Int
  y : Int
  width : Int
  height : Int
deriving DecidableEq

/-- A `Matx33` (`cv::Matx<float, 3, 3>`), row major. -/
structure Matx33 where
  m00 : ℚ
  m01 : ℚ
  m02 : ℚ
  m10 : ℚ
  m11 : ℚ
  m12 : ℚ
  m20 : ℚ
  m21 : ℚ
  m22 : ℚ

/-- A `cv::Scalar`: four components. -/
structure Scalar where
  v0 : ℚ
  v1 : ℚ
  v2 : ℚ
  v3 : ℚ

/-- A `Matx44` (`cv::Matx<float, 4, 4>`): entry `(r, c)`. -/
abbrev Matx44 := Fin 4 → Fin 4 → ℚ

/-- The identity `Matx33::eye()`. -/
def Matx33.eye : Matx33 :=
  { m00 := 1, m01 := 0, m02 := 0, m10 := 0, m11 := 1, m12 := 0, m20 := 0, m21 := 0, m22 := 1 }

/-- The identity `Matx44::eye()`. -/
def Matx44.eye : Matx44 := fun r c => if r = c then 1 else 0

/-- The product of two `Matx33` (`operator*`). -/
def Matx33.mul (a b : Matx33) : Matx33 :=
  { m00 := a.m00 * b.m00 + a.m01 * b.m10 + a.m02 * b.m20
    m01 := a.m00 * b.m01 + a.m01 * b.m11 + a.m02 * b.m21
    m02 := a.m00 * b.m02 + a.m01 * b.m12 + a.m02 * b.m22
    m10 := a.m10 * b.m00 + a.m11 * b.m10 + a.m12 * b.m20
    m11 := a.m10 * b.m01 + a.m11 * b.m11 + a.m12 * b.m21
    m12 := a.m10 * b.m02 + a.m11 * b.m12 + a.m12 * b.m22
    m20 := a.m20 * b.m00 + a.m21 * b.m10 + a.m22 * b.m20
    m21 := a.m20 * b.m01 + a.m21 * b.m11 + a.m22 * b.m21
    m22 := a.m20 * b.m02 + a.m21 * b.m12 + a.m22 * b.m22 }

/-- The product of a `Matx44` and a colour (`t.colorTransform*hls`). -/
def Matx44.mulVec (m : Matx44) (s : Scalar) : Scalar :=
  { v0 := m 0 0 * s.v0 + m 0 1 * s.v1 + m 0 2 * s.v2 + m 0 3 * s.v3
    v1 := m 1 0 * s.v0 + m 1 1 * s.v1 + m 1 2 * s.v2 + m 1 3 * s.v3
    v2 := m 2 0 * s.v0 + m 2 1 * s.v1 + m 2 2 * s.v2 + m 2 3 * s.v3
    v3 := m 3 0 * s.v0 + m 3 1 * s.v1 + m 3 2 * s.v2 + m 3 3 * s.v3 }

/-- One point through `cv::transform` with the 2x3 minor `m.get_minor<2, 3>(0, 0)`. -/
def transformPoint (m : Matx33) (p : Point2f) : Point2f :=
  { x := m.m00 * p.x + m.m01 * p.y + m.m02, y := m.m10 * p.x + m.m11 * p.y + m.m12 }

/-- The call `cv::transform(points, out, m.get_minor<2, 3>(0, 0))`. -/
def transform (points : List Point2f) (m : Matx33) : List Point2f :=
  points.map (transformPoint m)

/-- The product `p.dot(p)`. -/
def Point2f.dot (p q : Point2f) : ℚ := p.x * q.x + p.y * q.y

/-- OpenCV `cvRound`: the nearest integer, a tie going to the even one. -/
def cvRound (q : ℚ) : Int :=
  let f := ⌊q⌋
  if q - f < 1 / 2 then f
  else if 1 / 2 < q - f then f + 1
  else if f % 2 = 0 then f else f + 1

/-- The conversion `cv::Point2f` to `cv::Point` (`saturate_cast<int>` on both coordinates). -/
def Point2f.toPoint (p : Point2f) : Point := { x := cvRound p.x, y := cvRound p.y }

/-- The C++ cast `(int)d` of a `double`: truncation toward zero. -/
def truncToInt (q : ℚ) : Int := if 0 ≤ q then ⌊q⌋ else ⌈q⌉

/-- The outcome of a call that need not return: a value, a C++ exception that was thrown
(with what it says), or undefined behaviour. -/
inductive Outcome (α : Type) where
  | ok (a : α)
  | raised (what : String)
  | undefined

/-- Sequencing of calls: the first one that does not return ends the sequence. -/
def Outcome.bind {α β : Type} (x : Outcome α) (f : α → Outcome β) : Outcome β :=
  match x with
  | .ok a => f a
  | .raised w => .raised w
  | .undefined => .undefined

/-- The C++ cast `(int)d` of a `double` with its precondition: the behaviour is undefined
unless the truncated value can be represented in the 32-bit `int`. -/
def castInt (q : ℚ) : Outcome Int :=
  if -2147483648 ≤ truncToInt q ∧ truncToInt q ≤ 2147483647 then .ok (truncToInt q)
  else .undefined

/-- The empty rectangle `cv::Rect()`. -/
def Rect.zero : Rect := { x := 0, y := 0, width := 0, height := 0 }

/-- The intersection `a & b` of OpenCV: the common part, or `Rect()` when there is none. -/
def Rect.inter (a b : Rect) : Rect :=
  let x1 := max a.x b.x
  let y1 := max a.y b.y
  let w := min (a.x + a.width) (b.x + b.width) - x1
  let h := min (a.y + a.height) (b.y + b.height) - y1
  if w ≤ 0 ∨ h ≤ 0 then Rect.zero else { x := x1, y := y1, width := w, height := h }

/-- Whether the cell `(x, y)` lies in the rectangle. -/
def Rect.contains (r : Rect) (x y : Int) : Bool :=
  decide (r.x ≤ x ∧ x < r.x + r.width ∧ r.y ≤ y ∧ y < r.y + r.height)

/-- The cells of a rectangle, row by row. -/
def Rect.cells (r : Rect) : List (Int × Int) :=
  (List.range r.height.toNat).flatMap fun (dy : Nat) =>
    (List.range r.width.toNat).map fun (dx : Nat) => (r.x + Int.ofNat dx, r.y + Int.ofNat dy)

/-- OpenCV `cv::boundingRect` of integer points: `Rect()` for no point, else the smallest
rectangle holding every point (`xmax - xmin + 1` wide, `ymax - ymin + 1` high). -/
def boundingRect : List Point → Rect
  | [] => Rect.zero
  | p :: ps =>
    let xmin := ps.foldl (fun m q => min m q.x) p.x
    let xmax := ps.foldl (fun m q => max m q.x) p.x
    let ymin := ps.foldl (fun m q => min m q.y) p.y
    let ymax := ps.foldl (fun m q => max m q.y) p.y
    { x := xmin, y := ymin, width := xmax - xmin + 1, height := ymax - ymin + 1 }

/-- Modelled from the spec: `util::transform3x3::getScaleTranslate(scale, tx, ty)`, which is
defined in `util.h`: the uniform scaling by `scale` followed by the translation `(tx, ty)`. -/
def getScaleTranslate (scale tx ty : ℚ) : Matx33 :=
  { m00 := scale, m01 := 0, m02 := tx, m10 := 0, m11 := scale, m12 := ty,
    m20 := 0, m21 := 0, m22 := 1 }

/-! ## The raster grid -/

/-- A `cv::Mat1b`: `rows`, `cols` and the value of each cell `(x, y)`. -/
structure Mat1b where
  rows : Int
  cols : Int
  px : Int → Int → BitVec 8

/-- The grid `create(rows, cols)` followed by `= 0`. -/
def Mat1b.zeros (rows cols : Int) : Mat1b := { rows := rows, cols := cols, px := fun _ _ => 0 }

/-- The calls `m.create(rows, cols)` and `m = 0` on a `cv::Mat1b`: OpenCV asserts that no
size is negative and throws `cv::Exception` otherwise; the allocation itself is taken to
succeed. -/
def Mat1b.create (rows cols : Int) : Outcome Mat1b :=
  if 0 ≤ rows ∧ 0 ≤ cols then .ok (Mat1b.zeros rows cols) else .raised "cv::Exception"

/-- Whether `(x, y)` is a cell of the grid. -/
def Mat1b.inImage (m : Mat1b) (x y : Int) : Bool :=
  decide (0 ≤ x ∧ x < m.cols ∧ 0 ≤ y ∧ y < m.rows)

/-- The rectangle `cv::Rect(0, 0, m.cols, m.rows)` of the whole grid. -/
def Mat1b.rect (m : Mat1b) : Rect := { x := 0, y := 0, width := m.cols, height := m.rows }

/-- The assignment `m(r) = v`. -/
def Mat1b.setRegion (m : Mat1b) (r : Rect) (v : BitVec 8) : Mat1b :=
  { m with px := fun x y => if r.contains x y then v else m.px x y }

/-- The call `cv::bitwise_and(a(r), b(r), a(r))`: the result goes into the region of `a`. -/
def bitwise_and_into (a b : Mat1b) (r : Rect) : Mat1b :=
  { a with px := fun x y => if r.contains x y then a.px x y &&& b.px x y else a.px x y }

/-- The call `cv::bitwise_or(a(r), b(r), a(r))`. -/
def bitwise_or_into (a b : Mat1b) (r : Rect) : Mat1b :=
  { a with px := fun x y => if r.contains x y then a.px x y ||| b.px x y else a.px x y }

/-- The call `cv::bitwise_not(a(r), a(r))`. -/
def bitwise_not_into (a : Mat1b) (r : Rect) : Mat1b :=
  { a with px := fun x y => if r.contains x y then ~~~ (a.px x y) else a.px x y }

/-- The value of `cv::countNonZero` on `cv::bitwise_and(a(r), b(r), andmat)`. -/
def countNonZeroAnd (a b : Mat1b) (r : Rect) : Nat :=
  r.cells.countP fun c => decide (a.px c.1 c.2 &&& b.px c.1 c.2 ≠ 0)

/-- The value of `cv::countNonZero(m)`: the number of non-zero cells of the grid. -/
def countNonZero (m : Mat1b) : Nat :=
  m.rect.cells.countP fun c => decide (m.px c.1 c.2 ≠ 0)

/-- The scan conversion of OpenCV, taken as a parameter: `fill pts x y` says whether
`fillPoly` paints cell `(x, y)` for the polygon `pts`, `line8 pts x y` whether the closed
1-pixel `LINE_8` outline does, and `lineAA pts color x y old` is the value the anti-aliased
outline of colour `color` leaves in a cell that held `old`. -/
structure Raster where
  fill : List Point → Int → Int → Bool
  line8 : List Point → Int → Int → Bool
  lineAA : List Point → BitVec 8 → Int → Int → BitVec 8 → BitVec 8

/-- The call `cv::fillPoly(img, {pts}, color, LINE_8)`, clipped to the image. -/
def fillPoly (R : Raster) (img : Mat1b) (pts : List Point) (color : BitVec 8) : Mat1b :=
  { img with px := fun x y => if img.inImage x y && R.fill pts x y then color else img.px x y }

/-- The call `cv::polylines(img, {pts}, true, color, 1, LINE_8)`, clipped to the image. -/
def polylines8 (R : Raster) (img : Mat1b) (pts : List Point) (color : BitVec 8) : Mat1b :=
  { img with px := fun x y => if img.inImage x y && R.line8 pts x y then color else img.px x y }

/-- The call `cv::polylines(img, {pts}, true, color, 1, LINE_AA)`, clipped to the image. -/
def polylinesAA (R : Raster) (img : Mat1b) (pts : List Point) (color : BitVec 8) : Mat1b :=
  { img with px := fun x y =>
      if img.inImage x y then R.lineAA pts color x y (img.px x y) else img.px x y }

/-! ## Transforms and nodes (`tree.h`) -/

/-- A `qtransform`: a rule deriving a child from a parent. -/
structure QTransform where
  transformMatrixKey : String
  transformMatrix : Matx33
  colorTransform : Matx44
  gestation : ℚ

/-- The constructor `qtransform(transformMatrix_, colorTransform_, gestation_ = 1.0)`. -/
def QTransform.ctor (transformMatrix : Matx33) (colorTransform : Matx44) (gestation : ℚ) :
    QTransform :=
  { transformMatrixKey := "", transformMatrix := transformMatrix,
    colorTransform := colorTransform, gestation := gestation }

/-- A `qnode`, with the `id` and `parentId` members that `SelfLimitingPolygonTree.h` uses. -/
structure QNode where
  id : Int
  parentId : Int
  beginTime : ℚ
  generation : Int
  globalTransform : Matx33
  color : Scalar

/-- The constructor `qnode(beginTime_ = 0)`; `id` and `parentId`, which it does not set, are 0. -/
def QNode.ctor (beginTime : ℚ) : QNode :=
  { id := 0, parentId := 0, beginTime := beginTime, generation := 0,
    globalTransform := Matx33.eye, color := { v0 := 1, v1 := 1, v2 := 1, v3 := 1 } }

/-- The member `qnode::det`: the determinant of the upper-left 2x2 block. -/
def QNode.det (n : QNode) : ℚ :=
  n.globalTransform.m00 * n.globalTransform.m11 - n.globalTransform.m01 * n.globalTransform.m10

/-- The member `qnode::operator!`: `!(fabs(det()) > 1e-5)`. -/
def QNode.not (n : QNode) : Bool := !decide (|n.det| > 1 / 100000)

/-- The comparator `qnode::EarliestFirst`. -/
def EarliestFirst (a b : QNode) : Bool := decide (a.beginTime > b.beginTime)

/-! ## The binary heap of the standard library -/

/-- The loop of `std::__push_heap(first, holeIndex, topIndex, value, comp)`: while the hole is
below `topIndex` and its parent compares before `value`, the parent moves into the hole; then
`value` is stored in the hole. The first argument bounds the number of iterations; the hole
index itself is enough, because the hole moves to its parent at every iteration. -/
def pushHeapLoop {α : Type} (comp : α → α → Bool) (value : α) (topIndex : Nat) :
    Nat → List α → Nat → List α
  | 0, first, holeIndex => first.set holeIndex value
  | fuel + 1, first, holeIndex =>
    let parent := (holeIndex - 1) / 2
    if holeIndex > topIndex && comp (first.getD parent value) value then
      pushHeapLoop comp value topIndex fuel (first.set holeIndex (first.getD parent value)) parent
    else first.set holeIndex value

/-- The call `std::__push_heap(first, holeIndex, topIndex, value, comp)`. -/
def pushHeapAt {α : Type} (comp : α → α → Bool) (first : List α) (holeIndex topIndex : Nat)
    (value : α) : List α :=
  pushHeapLoop comp value topIndex holeIndex first holeIndex

/-- The call `std::push_heap(first, last, comp)` on the whole sequence: the last element is
the value to insert, the hole starts at its position. -/
def push_heap {α : Type} (comp : α → α → Bool) (c : List α) : List α :=
  match c.getLast? with
  | none => c
  | some value => pushHeapAt comp c (c.length - 1) 0 value

/-- The first loop of `std::__adjust_heap(first, holeIndex, len, value, comp)`: while the
hole has two children, the child that does not compare before its sibling (the second child
unless it compares before the first) moves into the hole. At the head of the loop
`secondChild` equals `holeIndex`, so one index is kept. The result is the sequence and the
final hole. The first argument bounds the number of iterations (`len` is enough). -/
def adjustHeapLoop {α : Type} (comp : α → α → Bool) (value : α) (len : Nat) :
    Nat → List α → Nat → List α × Nat
  | 0, first, holeIndex => (first, holeIndex)
  | fuel + 1, first, holeIndex =>
    if holeIndex < (len - 1) / 2 then
      let secondChild := 2 * (holeIndex + 1)
      let secondChild :=
        if comp (first.getD secondChild value) (first.getD (secondChild - 1) value)
        then secondChild - 1 else secondChild
      adjustHeapLoop comp value len fuel
        (first.set holeIndex (first.getD secondChild value)) secondChild
    else (first, holeIndex)

/-- The call `std::__adjust_heap(first, holeIndex, len, value, comp)`: the hole sinks to the
bottom, an only child at the end of an even-length range moves up too, and `value` is then
pushed up from the hole with `__push_heap`. -/
def adjustHeap {α : Type} (comp : α → α → Bool) (first : List α) (holeIndex len : Nat)
    (value : α) : List α :=
  let s := adjustHeapLoop comp value len len first holeIndex
  let s :=
    if len % 2 = 0 && s.2 = (len - 2) / 2 then
      (s.1.set s.2 (s.1.getD (2 * (s.2 + 1) - 1) value), 2 * (s.2 + 1) - 1)
    else s
  pushHeapAt comp s.1 s.2 holeIndex value

/-- The call `std::pop_heap(first, last, comp)` on the whole sequence: with more than one
element, the last element is taken out as the value, the first element goes to the last
position, and `__adjust_heap` fills the hole at 0 over the first `len - 1` positions. -/
def pop_heap {α : Type} (comp : α → α → Bool) (c : List α) : List α :=
  match c.head?, c.getLast? with
  | some top, some value =>
    if c.length > 1 then adjustHeap comp (c.set (c.length - 1) top) 0 (c.length - 1) value
    else c
  | _, _ => c

/-- The member `std::priority_queue::push`: `c.push_back(x)` then `push_heap`. -/
def pqPush {α : Type} (comp : α → α → Bool) (c : List α) (x : α) : List α :=
  push_heap comp (c ++ [x])

/-- The member `std::priority_queue::pop`: `pop_heap` then `c.pop_back()`. -/
def pqPop {α : Type} (comp : α → α → Bool) (c : List α) : List α :=
  (pop_heap comp c).dropLast

/-- The member `std::priority_queue::top`: `c.front()`, when there is one. -/
def pqTop {α : Type} (c : List α) : Option α := c.head?

/-- Popping the whole queue: `top()` then `pop()` until it is empty. The first argument
bounds the number of rounds; the length of the queue is enough. -/
def pqPopAllLoop {α : Type} (comp : α → α → Bool) : Nat → List α → List α
  | 0, _ => []
  | fuel + 1, c =>
    match pqTop c with
    | none => []
    | some x => x :: pqPopAllLoop comp fuel (pqPop comp c)

/-- The nodes in the order in which repeated `top()` / `pop()` hands them out. -/
def pqPopAll {α : Type} (comp : α → α → Bool) (c : List α) : List α :=
  pqPopAllLoop comp c.length c

/-- Pushing a list of elements one after the other. -/
def pqPushAll {α : Type} (comp : α → α → Bool) (c : List α) (xs : List α) : List α :=
  xs.foldl (pqPush comp) c

/-- One operation on the queue. -/
inductive QueueOp (α : Type) where
  | push (x : α)
  | pop

/-- The queue after one operation. -/
def QueueOp.apply {α : Type} (comp : α → α → Bool) (c : List α) : QueueOp α → List α
  | .push x => pqPush comp c x
  | .pop => pqPop comp c

/-- The queue after a sequence of operations. -/
def runQueueOps {α : Type} (comp : α → α → Bool) (c : List α) (ops : List (QueueOp α)) :
    List α :=
  ops.foldl (QueueOp.apply comp) c

/-! ## The tree (`qtree` and `SelfLimitingPolygonTree`) -/

/-- The `std::mt19937` of a tree, as the stream of canonical variates (values of
`generate_canonical`, each in `[0, 1)`) it will hand out next. -/
structure Prng where
  draws : Nat → ℚ

/-- The generator after one draw. -/
def Prng.next (p : Prng) : Prng := { draws := fun i => p.draws (i + 1) }

/-- The member `qtree::r(double maxVal)`: `uniform_real_distribution{0.0, maxVal}` on the
generator; the value drawn and the generator after the draw. -/
def Prng.r (p : Prng) (maxVal : ℚ) : ℚ × Prng := (maxVal * p.draws 0, p.next)

/-- The functions of `util.h` and `tree.cpp` that the embedded code calls and whose
definitions are outside the given sources, taken as parameters. -/
structure Util where
  /-- The function `util::polygon::centroid`. -/
  centroid : List Point2f → Point2f
  /-- The function `util::transform3x3::getEdgeMap`. -/
  getEdgeMap : Point2f → Point2f → Point2f → Point2f → Matx33
  /-- The function `util::transform3x3::getMirroredEdgeMap`. -/
  getMirroredEdgeMap : Point2f → Point2f → Point2f → Point2f → Matx33
  /-- The function `util::colorSink(color, a)`. -/
  colorSink : Scalar → ℚ → Matx44
  /-- The function `util::hsv2bgr`. -/
  hsv2bgr : ℚ → ℚ → ℚ → Scalar
  /-- The function `util::cvtColor(c, COLOR_BGR2HLS)`. -/
  bgr2hls : Scalar → Scalar
  /-- The function `util::cvtColor(c, COLOR_HLS2BGR)`. -/
  hls2bgr : Scalar → Scalar
  /-- The base member `qtree::beget(parent, t, child)` of `tree.cpp`: the child it leaves. -/
  begetBase : QNode → QTransform → QNode → QNode

/-- The functions of the C maths library used by `TrapezoidTree::create`. -/
structure Libm where
  pow : ℚ → ℚ → ℚ
  cos : ℚ → ℚ
  sin : ℚ → ℚ

/-- The members of a `SelfLimitingPolygonTree`, those inherited from `qtree` first. -/
structure SelfLimitingPolygonTree where
  maxRadius : ℚ
  randomSeed : Int
  polygon : List Point2f
  transforms : List QTransform
  gestationRandomness : ℚ
  lineColor : Scalar
  lineThickness : Int
  prng : Prng
  nodeQueue : List QNode
  polygonSides : Int
  starAngle : Int
  rootNodeColor : Scalar
  fieldResolution : Int
  minimumScale : ℚ
  colorTransformPalette : List Matx44
  m_field : Mat1b
  m_fieldTransform : Matx33
  m_fieldLayer : Mat1b
  m_fieldLayerBoundingRect : Rect
  m_nodeList : List QNode

/-- A `ScaledPolygonTree`: a `SelfLimitingPolygonTree` with a ratio and a flag. -/
structure ScaledPolygonTree extends SelfLimitingPolygonTree where
  m_ratio : ℚ
  m_ambidextrous : Bool

namespace SelfLimitingPolygonTree

/-- The member `qtree::randomColor`: `util::hsv2bgr(r(360.0), 1.0, 0.5)`. -/
def randomColor (U : Util) (t : SelfLimitingPolygonTree) : Scalar × SelfLimitingPolygonTree :=
  let d := t.prng.r 360
  (U.hsv2bgr d.1 1 (1 / 2), { t with prng := d.2 })

/-- The member `createRootNode(rootNode)`. -/
def createRootNode (U : Util) (t : SelfLimitingPolygonTree) (rootNode : QNode) : QNode :=
  let centroid := U.centroid t.polygon
  { rootNode with
    id := 0, parentId := 0, beginTime := 0, generation := 0, color := t.rootNodeColor,
    globalTransform := getScaleTranslate 1 (-centroid.x) (-centroid.y) }

/-- Modelled from the spec: `util::clear(nodeQueue)`, which is defined in `util.h`: it leaves
the queue empty ("clear and initialize the queue with the seed"). -/
def clearQueue (_ : List QNode) : List QNode := []

/-- The member `create()` as a call that need not return: the cast `(int)` of the side is
undefined outside the range of `int`, and `m_field.create` throws for a negative side, before
the queue and the accepted list are touched. Otherwise the field and the scratch layer are
allocated and zeroed, the queue is cleared and receives the root, and the accepted list is
cleared. -/
def createCall (U : Util) (t : SelfLimitingPolygonTree) : Outcome SelfLimitingPolygonTree :=
  (castInt (1 / 2 + t.maxRadius * 2 * t.fieldResolution)).bind fun size =>
  (Mat1b.create size size).bind fun field =>
    let rootNode := createRootNode U t (QNode.ctor 0)
    .ok { t with
      m_field := field
      m_fieldLayer := field
      m_fieldTransform :=
        getScaleTranslate t.fieldResolution (t.maxRadius * t.fieldResolution)
          (t.maxRadius * t.fieldResolution)
      nodeQueue := pqPush EarliestFirst (clearQueue t.nodeQueue) rootNode
      m_nodeList := [] }

/-- The member `create()` on the path on which it returns (`createCall` says when it does):
the field and the scratch layer are allocated and zeroed, the queue is cleared and receives
the root, the accepted list is cleared. -/
def create (U : Util) (t : SelfLimitingPolygonTree) : SelfLimitingPolygonTree :=
  let size := truncToInt (1 / 2 + t.maxRadius * 2 * t.fieldResolution)
  let rootNode := createRootNode U t (QNode.ctor 0)
  { t with
    m_field := Mat1b.zeros size size
    m_fieldLayer := Mat1b.zeros size size
    m_fieldTransform :=
      getScaleTranslate t.fieldResolution (t.maxRadius * t.fieldResolution)
        (t.maxRadius * t.fieldResolution)
    nodeQueue := pqPush EarliestFirst (clearQueue t.nodeQueue) rootNode
    m_nodeList := [] }

/-- The member `beget(parent, t, child)`: the base `qtree::beget`, then the colour of the
parent taken through the colour transform in HLS space. -/
def beget (U : Util) (parent : QNode) (t : QTransform) (child : QNode) : QNode :=
  let child := U.begetBase parent t child
  let hls := U.bgr2hls parent.color
  let hls := t.colorTransform.mulVec hls
  { child with color := U.hls2bgr hls }

/-- The integer points `pts[0]` that `drawField` hands to the drawing functions. -/
def fieldPoints (t : SelfLimitingPolygonTree) (node : QNode) : List Point :=
  (transform t.polygon (t.m_fieldTransform.mul node.globalTransform)).map Point2f.toPoint

/-- The member `drawField(node)`: the result and the tree after the call (the scratch layer
and the last bounding box are `mutable`). -/
def drawField (R : Raster) (t : SelfLimitingPolygonTree) (node : QNode) :
    Bool × SelfLimitingPolygonTree :=
  let v := transform t.polygon node.globalTransform
  if v.any (fun p => decide (p.dot p > t.maxRadius * t.maxRadius)) then (false, t)
  else
    let pts := fieldPoints t node
    let t := { t with m_fieldLayerBoundingRect := boundingRect pts }
    if t.m_field.rect.inter t.m_fieldLayerBoundingRect ≠ t.m_fieldLayerBoundingRect then
      (false, t)
    else
      let layer := t.m_fieldLayer.setRegion t.m_fieldLayerBoundingRect 0
      let layer := fillPoly R layer pts 255
      let layer := polylines8 R layer pts 0
      let layer := polylinesAA R layer pts 0
      (true, { t with m_fieldLayer := layer })

/-- The member `isViable(node)`: the result and the tree after the call. -/
def isViable (R : Raster) (t : SelfLimitingPolygonTree) (node : QNode) :
    Bool × SelfLimitingPolygonTree :=
  if node.not then (false, t)
  else if |node.det| < t.minimumScale * t.minimumScale then (false, t)
  else
    let d := drawField R t node
    if !d.1 then (false, d.2)
    else
      (countNonZeroAnd d.2.m_field d.2.m_fieldLayer d.2.m_fieldLayerBoundingRect == 0, d.2)

/-- The member `undrawNode(node)`. -/
def undrawNode (R : Raster) (t : SelfLimitingPolygonTree) (node : QNode) :
    SelfLimitingPolygonTree :=
  let t := (drawField R t node).2
  let t := { t with m_fieldLayer := bitwise_not_into t.m_fieldLayer t.m_fieldLayerBoundingRect }
  { t with m_field := bitwise_and_into t.m_field t.m_fieldLayer t.m_fieldLayerBoundingRect }

/-- The member `addNode(currentNode)`. -/
def addNode (t : SelfLimitingPolygonTree) (currentNode : QNode) : SelfLimitingPolygonTree :=
  { t with
    m_nodeList := t.m_nodeList ++ [currentNode]
    m_field := bitwise_or_into t.m_field t.m_fieldLayer t.m_fieldLayerBoundingRect }

/-- The search of `findNode(id)` over a list: the position of the first node with that id,
or the length of the list (the iterator `end()`) when there is none. -/
def findIn (id : Int) : List QNode → Nat
  | [] => 0
  | n :: rest => if n.id = id then 0 else findIn id rest + 1

/-- The member `findNode(id)`: an iterator into `m_nodeList`, as a position. -/
def findNode (t : SelfLimitingPolygonTree) (id : Int) : Nat := findIn id t.m_nodeList

/-- The member `removeNode(id)`: the value returned and the tree after the call. After
`it = m_nodeList.erase(it)` the iterator stands at the node that followed the erased one, and
the line that prints reads `it->id` and `it->parentId`: when the erased node was the last of
the list, `it` is `end()` and that read is undefined behaviour. -/
def removeNode (R : Raster) (t : SelfLimitingPolygonTree) (id : Int) :
    Outcome (Int × SelfLimitingPolygonTree) :=
  let it := if id ≥ 0 then findNode t id else 0
  if it = t.m_nodeList.length then .ok (0, t)
  else
    match t.m_nodeList[it]? with
    | none => .ok (0, t)
    | some node =>
      let t := undrawNode R t node
      let t := { t with m_nodeList := t.m_nodeList.eraseIdx it }
      match t.m_nodeList[it]? with
      | none => .undefined
      | some _ => .ok (1, t)

/-- The inner loop of `regrowAll`: one child per transform, each pushed on the queue. -/
def regrowNode (U : Util) (transforms : List QTransform) (queue : List QNode)
    (currentNode : QNode) : List QNode :=
  transforms.foldl (fun q tr => pqPush EarliestFirst q (beget U currentNode tr (QNode.ctor 0)))
    queue

/-- The member `regrowAll()`. -/
def regrowAll (U : Util) (t : SelfLimitingPolygonTree) : SelfLimitingPolygonTree :=
  { t with nodeQueue := t.m_nodeList.foldl (regrowNode U t.transforms) t.nodeQueue }

end SelfLimitingPolygonTree

/-- The member `ScaledPolygonTree::create()`: the create of the base class. -/
def ScaledPolygonTree.create (U : Util) (t : ScaledPolygonTree) : ScaledPolygonTree :=
  { t with toSelfLimitingPolygonTree := SelfLimitingPolygonTree.create U t.toSelfLimitingPolygonTree }

/-- The member `ThornTree::create()`: the create of the base class. -/
def ThornTree.create (U : Util) (t : SelfLimitingPolygonTree) : SelfLimitingPolygonTree :=
  SelfLimitingPolygonTree.create U t

/-- The polygon that `TrapezoidTree::create()` leaves in the tree. -/
def TrapezoidTree.polygon (L : Libm) : List Point2f :=
  let steps : ℚ := 24
  let angle : ℚ := 6283 / 1000 / steps
  let r0 : ℚ := 1 / 2
  let r1 : ℚ := 1
  let growthFactor := L.pow (r1 / r0) (2 / steps)
  [ { x := r0, y := 0 }, { x := r1, y := 0 },
    { x := r1 * growthFactor * L.cos angle, y := r1 * growthFactor * L.sin angle },
    { x := r0 * growthFactor * L.cos angle, y := r0 * growthFactor * L.sin angle } ]

/-- The member `TrapezoidTree::create()`: the create of the base class, then the polygon is
replaced (the first of its two assignments is overwritten by the second, which is kept
here), the three transforms are built and their gestations drawn. -/
def TrapezoidTree.create (U : Util) (L : Libm) (t : SelfLimitingPolygonTree) :
    SelfLimitingPolygonTree :=
  let t := SelfLimitingPolygonTree.create U t
  let t := { t with polygon := TrapezoidTree.polygon L }
  let p := fun i => t.polygon.getD i { x := 0, y := 0 }
  let c0 := SelfLimitingPolygonTree.randomColor U t
  let t0 := QTransform.ctor (U.getMirroredEdgeMap (p 0) (p 1) (p 1) (p 2))
    (U.colorSink c0.1 (1 / 2)) 1
  let c1 := SelfLimitingPolygonTree.randomColor U c0.2
  let t1 := QTransform.ctor (U.getEdgeMap (p 0) (p 1) (p 3) (p 2)) (U.colorSink c1.1 (1 / 2)) 1
  let c2 := SelfLimitingPolygonTree.randomColor U c1.2
  let t2 := QTransform.ctor (U.getMirroredEdgeMap (p 0) (p 1) (p 3) (p 0))
    (U.colorSink c2.1 (1 / 2)) 1
  let g0 := c2.2.prng.r 10
  let g1 := g0.2.r 10
  let g2 := g1.2.r 10
  { c2.2 with
    prng := g2.2
    transforms :=
      [ { t0 with gestation := g0.1 }, { t1 with gestation := g1.1 },
        { t2 with gestation := g2.1 } ] }

open SelfLimitingPolygonTree

/-! ## Heap invariants -/

/-- The key of the element at a position, 0 past the end. -/
def keyAt {α : Type} (key : α → ℚ) (l : List α) (i : Nat) : ℚ :=
  match l[i]? with
  | some a => key a
  | none => 0

/-- The first `n` positions form a heap: no key is below the key of its parent. -/
def IsHeapUpTo {α : Type} (key : α → ℚ) (l : List α) (n : Nat) : Prop :=
  ∀ i, 0 < i → i < n → keyAt key l ((i - 1) / 2) ≤ keyAt key l i

/-- The first `n` positions form a heap but for a hole at `k`. -/
def HoleInv {α : Type} (key : α → ℚ) (l : List α) (n k : Nat) : Prop :=
  (∀ i, 0 < i → i < n → i ≠ k → (i - 1) / 2 ≠ k → keyAt key l ((i - 1) / 2) ≤ keyAt key l i) ∧
  (∀ i, 0 < i → i < n → (i - 1) / 2 = k → 0 < k → keyAt key l ((k - 1) / 2) ≤ keyAt key l i)

/-- The whole sequence is a heap on the keys (the least key first). -/
def IsHeap {α : Type} (key : α → ℚ) (l : List α) : Prop := IsHeapUpTo key l l.length

/-- Four nodes with ids 1, 2, 3, 4, in that order, all with `beginTime` 0. -/
def tieNodes : List QNode :=
  [ { QNode.ctor 0 with id := 1 }, { QNode.ctor 0 with id := 2 },
    { QNode.ctor 0 with id := 3 }, { QNode.ctor 0 with id := 4 } ]

/-- The bounding box that `drawField` computes for a node. -/
def nodeRect (t : SelfLimitingPolygonTree) (node : QNode) : Rect :=
  boundingRect (fieldPoints t node)

/-- The radius test of `drawField`: no transformed vertex is farther than `maxRadius`. -/
def radiusOK (t : SelfLimitingPolygonTree) (node : QNode) : Prop :=
  ∀ p ∈ transform t.polygon node.globalTransform, p.dot p ≤ t.maxRadius * t.maxRadius

/-- A rectangle lies inside a grid: it is `Rect()`, or it is not empty and within the
columns and rows of the grid. -/
def insideGrid (m : Mat1b) (r : Rect) : Prop :=
  r = Rect.zero ∨
    (0 < r.width ∧ 0 < r.height ∧ 0 ≤ r.x ∧ 0 ≤ r.y ∧ r.x + r.width ≤ m.cols ∧
      r.y + r.height ≤ m.rows)

/-- The scratch layer after the drawing calls of `drawField` on the points `pts`. -/
def paint (R : Raster) (layer : Mat1b) (rect : Rect) (pts : List Point) : Mat1b :=
  polylinesAA R (polylines8 R (fillPoly R (layer.setRegion rect 0) pts 255) pts 0) pts 0

/-- The rasterized footprint of a node: what `drawField` leaves in the scratch layer inside
the bounding box of the node, and 0 elsewhere (also when `drawField` fails). -/
def footprint (R : Raster) (t : SelfLimitingPolygonTree) (node : QNode) (x y : Int) : BitVec 8 :=
  if (drawField R t node).1 && (drawField R t node).2.m_fieldLayerBoundingRect.contains x y then
    (drawField R t node).2.m_fieldLayer.px x y
  else 0

/-- Two trees with the same polygon, radius bound, field transform and grid sizes. -/
def SameGeom (t u : SelfLimitingPolygonTree) : Prop :=
  t.polygon = u.polygon ∧ t.maxRadius = u.maxRadius ∧ t.m_fieldTransform = u.m_fieldTransform ∧
  t.m_field.rows = u.m_field.rows ∧ t.m_field.cols = u.m_field.cols ∧
  t.m_fieldLayer.rows = u.m_fieldLayer.rows ∧ t.m_fieldLayer.cols = u.m_fieldLayer.cols

/-- One step of the scheduler on a candidate: `isViable`, then `addNode` when it is true. -/
def processNode (R : Raster) (t : SelfLimitingPolygonTree) (node : QNode) :
    SelfLimitingPolygonTree :=
  if (isViable R t node).1 then addNode (isViable R t node).2 node else (isViable R t node).2

/-- A step of a run: a viability test alone, a test followed by `addNode` when it is true,
or the removal of a node. -/
inductive Step where
  | test (node : QNode)
  | accept (node : QNode)
  | remove (id : Int)

/-- The tree after one step, when the step returns. -/
def Step.apply (R : Raster) (t : SelfLimitingPolygonTree) :
    Step → Outcome SelfLimitingPolygonTree
  | .test node => .ok (isViable R t node).2
  | .accept node => .ok (processNode R t node)
  | .remove id => (removeNode R t id).bind fun r => .ok r.2

/-- The tree after a sequence of steps, when every step returns. -/
def runSteps (R : Raster) (t : SelfLimitingPolygonTree) :
    List Step → Outcome SelfLimitingPolygonTree
  | [] => .ok t
  | s :: steps => (Step.apply R t s).bind fun u => runSteps R u steps

/-- The invariant of a run that started in `t0`: the geometry is that of `t0`, `drawField`
succeeds on every accepted node, the bits of every accepted footprint are set in the
committed field, and any two accepted footprints have no bit in common. -/
def FieldInv (R : Raster) (t0 t : SelfLimitingPolygonTree) : Prop :=
  SameGeom t0 t ∧
  (∀ n ∈ t.m_nodeList, (drawField R t0 n).1 = true) ∧
  (∀ n ∈ t.m_nodeList, ∀ x y, footprint R t0 n x y &&& t.m_field.px x y = footprint R t0 n x y) ∧
  List.Pairwise (fun a b => ∀ x y, footprint R t0 a x y &&& footprint R t0 b x y = 0)
    t.m_nodeList

/-- Modelled from the spec: `util::polygon::centroid`, which is defined in `util.h`, as the
mean of the vertices (the origin for no vertex). -/
def meanCentroid (polygon : List Point2f) : Point2f :=
  if polygon.length = 0 then { x := 0, y := 0 }
  else
    { x := (polygon.map Point2f.x).sum / polygon.length
      y := (polygon.map Point2f.y).sum / polygon.length }

/-- A concrete choice of the functions of `util.h` and `tree.cpp` for closed statements: the
centroid is `meanCentroid`; the functions whose values play no role in those statements
return the identity transform, the colour they are given, and the child they are given. -/
def plainUtil : Util :=
  { centroid := meanCentroid
    getEdgeMap := fun _ _ _ _ => Matx33.eye
    getMirroredEdgeMap := fun _ _ _ _ => Matx33.eye
    colorSink := fun _ _ => Matx44.eye
    hsv2bgr := fun h s v => { v0 := h, v1 := s, v2 := v, v3 := 1 }
    bgr2hls := fun c => c
    hls2bgr := fun c => c
    begetBase := fun _ _ child => child }

/-- A tree with the settings of a default-constructed `SelfLimitingPolygonTree`, but for the
polygon, `maxRadius` and `fieldResolution`, which are given; the grids are empty. -/
def plainTree (polygon : List Point2f) (maxRadius : ℚ) (fieldResolution : Int) :
    SelfLimitingPolygonTree :=
  { maxRadius := maxRadius, randomSeed := 0, polygon := polygon, transforms := [],
    gestationRandomness := 0, lineColor := { v0 := 0, v1 := 0, v2 := 0, v3 := 0 },
    lineThickness := 1, prng := { draws := fun _ => 0 }, nodeQueue := [],
    polygonSides := 5, starAngle := 0, rootNodeColor := { v0 := 0, v1 := 0, v2 := 1, v3 := 1 },
    fieldResolution := fieldResolution, minimumScale := 1 / 100, colorTransformPalette := [],
    m_field := Mat1b.zeros 0 0, m_fieldTransform := Matx33.eye, m_fieldLayer := Mat1b.zeros 0 0,
    m_fieldLayerBoundingRect := Rect.zero, m_nodeList := [] }

/-- One value of the raster parameter, for the closed examples (the theorems are stated for
every raster). It draws an axis-parallel rectangle with integer corners: `fillPoly` paints
the bounding box of the points, and both outlines paint the border of that box with the
colour of the stroke, without softening any other cell. -/
def boxRaster : Raster :=
  { fill := fun pts x y => (boundingRect pts).contains x y
    line8 := fun pts x y =>
      (boundingRect pts).contains x y &&
        (decide (x = (boundingRect pts).x) ||
         decide (x = (boundingRect pts).x + (boundingRect pts).width - 1) ||
         decide (y = (boundingRect pts).y) ||
         decide (y = (boundingRect pts).y + (boundingRect pts).height - 1))
    lineAA := fun pts color x y old =>
      if (boundingRect pts).contains x y &&
        (decide (x = (boundingRect pts).x) ||
         decide (x = (boundingRect pts).x + (boundingRect pts).width - 1) ||
         decide (y = (boundingRect pts).y) ||
         decide (y = (boundingRect pts).y + (boundingRect pts).height - 1))
      then color else old }

/-- The square with corners `(-2, -2)` and `(2, 2)`. -/
def squarePolygon : List Point2f :=
  [ { x := -2, y := -2 }, { x := 2, y := -2 }, { x := 2, y := 2 }, { x := -2, y := 2 } ]

/-- The node with the given id that places the template polygon shifted by `(dx, 0)`. -/
def shiftedNode (id : Int) (dx : ℚ) : QNode :=
  { QNode.ctor 0 with id := id, globalTransform := getScaleTranslate 1 dx 0 }

/-- The tree of the two squares: radius bound 4, one cell per unit, after `create()`. -/
def squareTree : SelfLimitingPolygonTree := create plainUtil (plainTree squarePolygon 4 1)

/-- The first square: the template moved one unit to the left. -/
def squareA : QNode := shiftedNode 1 (-1)

/-- The second square: the template moved one unit to the right. -/
def squareB : QNode := shiftedNode 2 1

/-- The values at the arguments that `TrapezoidTree::create` passes, to six decimals:
`pow(2, 1/12) = 1.059463`, `cos(6.283/24) = 0.965928`, `sin(6.283/24) = 0.258812`. -/
def trapezoidLibm : Libm :=
  { pow := fun _ _ => 1059463 / 1000000
    cos := fun _ => 965928 / 1000000
    sin := fun _ => 258812 / 1000000 }

/-- A node scaled by 1/200: `|det| = 1/40000`, between `1e-5` and `minimumScale²`. -/
def tinyNode : QNode := { QNode.ctor 0 with globalTransform := getScaleTranslate (1 / 200) 0 0 }

/-- The children that `regrowAll` synthesizes: for every accepted node, in order, one child
per transform, in order. -/
def regrowChildren (U : Util) (t : SelfLimitingPolygonTree) : List QNode :=
  t.m_nodeList.flatMap fun n => t.transforms.map fun tr => beget U n tr (QNode.ctor 0)

/-- The member `qtree::r(int maxVal)`: `uniform_int_distribution{0, maxVal-1}` on the
generator, as the canonical variate scaled to `maxVal` and rounded down. -/
def Prng.rInt (p : Prng) (maxVal : Int) : Int × Prng := (⌊(maxVal : ℚ) * p.draws 0⌋, p.next)

/-- The functions that `setRandomSeed` calls and whose definitions are outside the given
sources, taken as parameters. -/
structure Shapes where
  /-- The stream that `prng.seed(seed)` leaves in the generator. -/
  seed : Int → Prng
  /-- The function `util::polygon::createStar(polygon, sides, angle)`: the new polygon. -/
  createStar : List Point2f → Int → Int → List Point2f
  /-- The function `util::polygon::createRegularPolygon(polygon, sides)`: the new polygon. -/
  createRegularPolygon : List Point2f → Int → List Point2f
  /-- The member `createEdgeTransform(i, j, mirror, from, to)` on the polygon of the tree. -/
  createEdgeTransform : List Point2f → Int → Int → Bool → ℚ → ℚ → QTransform
  /-- The function `util::colorSink(hue, lightness, saturation, a)`. -/
  colorSink4 : ℚ → ℚ → ℚ → ℚ → Matx44
  /-- The function `util::polygon::headingStep(angle)`. -/
  headingStep : ℚ → Point2f
  /-- The function `sqrt` on `float`. -/
  sqrt : ℚ → ℚ

/-- One entry of the palette of `randomizeTransforms`:
`util::colorSink(r(720.0) - 360.0, 0.5 + r(0.5), sat, r(0.5))`, the three draws taken in the
order in which they are written. -/
def paletteEntry (S : Shapes) (p : Prng) : Matx44 × Prng :=
  let a := p.r 720
  let b := a.2.r (1 / 2)
  let c := b.2.r (1 / 2)
  (S.colorSink4 (a.1 - 360) (1 / 2 + b.1) 1 c.1, c.2)

/-- The loop of `randomizeTransforms(flags)` over the transforms: with bit 0 of the flags a
colour transform is drawn from the palette, with bit 1 the gestation becomes `1.0 + r(10.0)`. -/
def randomizeLoop (flags : Nat) (palette : List Matx44) :
    Prng → List QTransform → List QTransform × Prng
  | p, [] => ([], p)
  | p, t :: rest =>
    let s :=
      if flags.testBit 0 then
        let idx := p.rInt palette.length
        ({ t with colorTransform := palette.getD idx.1.toNat Matx44.eye }, idx.2)
      else (t, p)
    let s :=
      if flags.testBit 1 then
        let g := s.2.r 10
        ({ s.1 with gestation := 1 + g.1 }, g.2)
      else s
    let r := randomizeLoop flags palette s.2 rest
    (s.1 :: r.1, r.2)

/-- The member `randomizeTransforms(flags)`. -/
def SelfLimitingPolygonTree.randomizeTransforms (S : Shapes) (t : SelfLimitingPolygonTree) (flags : Nat) :
    SelfLimitingPolygonTree :=
  let t :=
    if flags.testBit 0 then
      let e0 := paletteEntry S t.prng
      let e1 := paletteEntry S e0.2
      let e2 := paletteEntry S e1.2
      { t with colorTransformPalette := [e0.1, e1.1, e2.1], prng := e2.2 }
    else t
  let r := randomizeLoop flags t.colorTransformPalette t.prng t.transforms
  { t with transforms := r.1, prng := r.2 }

/-- The member `SelfLimitingPolygonTree::setRandomSeed(randomize)`, without the final call of
`randomizeTransforms(3)`: the seed and the generator (`qtree::setRandomSeed`), the settings
derived from the seed (`%` of C++ truncates toward zero), the polygon, and one edge transform
per vertex. -/
def SelfLimitingPolygonTree.setRandomSeedCore (S : Shapes) (t : SelfLimitingPolygonTree) (randomize : Int) :
    SelfLimitingPolygonTree :=
  let t := { t with randomSeed := randomize, prng := S.seed randomize }
  let t := { t with maxRadius := 10, polygonSides := 5, starAngle := 36 }
  let t :=
    if randomize ≠ 0 then
      let d := t.prng.r 40
      { t with
        maxRadius := 5 + d.1, prng := d.2
        polygonSides := Int.tmod randomize 6 + 3
        starAngle := if Int.tmod randomize 12 < 6 then 36 else 0 }
    else t
  let t :=
    { t with
      polygon :=
        if t.starAngle ≠ 0 then S.createStar t.polygon t.polygonSides t.starAngle
        else S.createRegularPolygon t.polygon t.polygonSides }
  { t with
    transforms :=
      (List.range t.polygon.length).map fun i =>
        S.createEdgeTransform t.polygon (Int.ofNat i) 0 false 0 1 }

/-- The member `SelfLimitingPolygonTree::setRandomSeed(randomize)`. -/
def SelfLimitingPolygonTree.setRandomSeed (S : Shapes) (t : SelfLimitingPolygonTree) (randomize : Int) :
    SelfLimitingPolygonTree :=
  randomizeTransforms S (setRandomSeedCore S t randomize) 3

/-- The position at which `ScaledPolygonTree::setRandomSeed` reads `ratioPresets`:
`randomize % ratioPresets.size()`, where the `int` is converted to the unsigned 64-bit
`size_t` before the remainder by 5 is taken. -/
def ratioIndex (randomize : Int) : Nat := (randomize % 2 ^ 64).toNat % 5

/-- The array `ratioPresets` of `ScaledPolygonTree::setRandomSeed`. -/
def ratioPresets (S : Shapes) : List ℚ :=
  [ (S.sqrt 5 - 1) / 2, 1 / 2, 1 / 3, 1 / S.sqrt 2, (S.sqrt 3 - 1) / 2 ]

/-- The loop of `ScaledPolygonTree::setRandomSeed` that builds the transforms: for every
vertex the scaled map onto the last edge, and its mirrored complement when the tree is
ambidextrous. -/
def scaledTransforms (S : Shapes) (polygon : List Point2f) (ratio : ℚ) (ambidextrous : Bool) :
    List QTransform :=
  (List.range polygon.length).flatMap fun i =>
    S.createEdgeTransform polygon (Int.ofNat i) (Int.ofNat polygon.length - 1) false 0 ratio ::
      (if ambidextrous then
        [S.createEdgeTransform polygon (Int.ofNat i) (Int.ofNat polygon.length - 1) true
          (1 - ratio) 1]
      else [])

/-- The member `ScaledPolygonTree::setRandomSeed(randomize)`. -/
def ScaledPolygonTree.setRandomSeed (S : Shapes) (t : ScaledPolygonTree) (randomize : Int) :
    ScaledPolygonTree :=
  let b := SelfLimitingPolygonTree.setRandomSeed S t.toSelfLimitingPolygonTree randomize
  let b := { b with fieldResolution := 100, maxRadius := 4 }
  let ratio := (ratioPresets S).getD (ratioIndex randomize) 0
  let a := b.prng.rInt 2
  let ambidextrous : Bool := decide (a.1 ≠ 0)
  let b := { b with prng := a.2 }
  let b := { b with transforms := scaledTransforms S b.polygon ratio ambidextrous }
  { toSelfLimitingPolygonTree := randomizeTransforms S b 3
    m_ratio := ratio, m_ambidextrous := ambidextrous }

/-- The member `TrapezoidTree::setRandomSeed(randomize)`. -/
def TrapezoidTree.setRandomSeed (S : Shapes) (t : SelfLimitingPolygonTree) (randomize : Int) :
    SelfLimitingPolygonTree :=
  let t := SelfLimitingPolygonTree.setRandomSeed S t randomize
  { t with
    fieldResolution := 200, maxRadius := 10, gestationRandomness := 10
    rootNodeColor := { v0 := 1 / 5, v1 := 1 / 2, v2 := 0, v3 := 1 } }

/-- The polygon of `ThornTree::setRandomSeed`: the origin and eight unit steps. -/
def ThornTree.polygon (S : Shapes) : List Point2f :=
  let add := fun (p q : Point2f) => ({ x := p.x + q.x, y := p.y + q.y } : Point2f)
  let p0 : Point2f := { x := 0, y := 0 }
  let p1 := add p0 (S.headingStep 0)
  let p2 := add p1 (S.headingStep 120)
  let p3 := add p2 (S.headingStep 105)
  let p4 := add p3 (S.headingStep 90)
  let p5 := add p4 (S.headingStep 75)
  let p6 := add p5 (S.headingStep 240)
  let p7 := add p6 (S.headingStep 255)
  let p8 := add p7 (S.headingStep 270)
  [p0, p1, p2, p3, p4, p5, p6, p7, p8]

/-- The body of the double loop of `ThornTree::setRandomSeed` for the pair `(i, j)`: two
draws `r(20)`, each adding a transform when it is 0. -/
def thornStep (S : Shapes) (polygon : List Point2f) (acc : List QTransform × Prng)
    (ij : Nat × Nat) : List QTransform × Prng :=
  let a := acc.2.rInt 20
  let l :=
    if a.1 = 0 then
      acc.1 ++ [S.createEdgeTransform polygon (Int.ofNat ij.1) (Int.ofNat ij.2) false 0 1]
    else acc.1
  let b := a.2.rInt 20
  let l :=
    if b.1 = 0 then
      l ++ [S.createEdgeTransform polygon (Int.ofNat ij.1) (Int.ofNat ij.2) true 0 1]
    else l
  (l, b.2)

/-- The member `ThornTree::setRandomSeed(randomize)`. -/
def ThornTree.setRandomSeed (S : Shapes) (t : SelfLimitingPolygonTree) (randomize : Int) :
    SelfLimitingPolygonTree :=
  let t := SelfLimitingPolygonTree.setRandomSeed S t randomize
  let t :=
    { t with
      fieldResolution := 20, maxRadius := 50, gestationRandomness := 0
      rootNodeColor := { v0 := 1, v1 := 1, v2 := 0, v3 := 1 }
      polygon := ThornTree.polygon S }
  let pairs :=
    (List.range t.polygon.length).flatMap fun i =>
      (List.range t.polygon.length).map fun j => (i, j)
  let r := pairs.foldl (thornStep S t.polygon) ([], t.prng)
  randomizeTransforms S { t with transforms := r.1, prng := r.2 } 3

/-- Every variate that the generator will hand out satisfies `P`. -/
def AllDraws (P : ℚ → Prop) (p : Prng) : Prop := ∀ i, P (p.draws i)

/-- A concrete choice of the functions of `Shapes` for closed statements: every seed gives
the stream `draws`; the functions whose values play no role in those statements return the
square, the identity transform with gestation 1, a unit step to the right and their
argument. -/
def plainShapes (draws : Nat → ℚ) : Shapes :=
  { seed := fun _ => { draws := draws }
    createStar := fun _ _ _ => squarePolygon
    createRegularPolygon := fun _ _ => squarePolygon
    createEdgeTransform := fun _ _ _ _ _ _ => QTransform.ctor Matx33.eye Matx44.eye 1
    colorSink4 := fun _ _ _ _ => Matx44.eye
    headingStep := fun _ => { x := 1, y := 0 }
    sqrt := fun q => q }

/-- A value of `nlohmann::json`; the members of an object are kept in the order in which
they were first set. -/
inductive Json where
  | null
  | bool (b : Bool)
  | int (n : Int)
  | num (q : ℚ)
  | str (s : String)
  | arr (items : List Json)
  | obj (members : List (String × Json))

/-- The outcome of a load: a value, a C++ exception that was thrown (with what it says), or
a failed assertion of the library, which is undefined behaviour when assertions are off. -/
inductive Load (α : Type) where
  | ok (a : α)
  | raised (what : String)
  | undefined

/-- Sequencing of loads: the first failure ends the load. -/
def Load.bind {α β : Type} (x : Load α) (f : α → Load β) : Load β :=
  match x with
  | .ok a => f a
  | .raised w => .raised w
  | .undefined => .undefined

/-- The member `json::contains(key)`: false on a value that is not an object. -/
def Json.contains (j : Json) (key : String) : Bool :=
  match j with
  | .obj members => (members.lookup key).isSome
  | _ => false

/-- The member `json::at(key)`: it throws `out_of_range` for a missing key and `type_error`
on a value that is not an object. -/
def Json.at (j : Json) (key : String) : Load Json :=
  match j with
  | .obj members =>
    match members.lookup key with
    | some v => .ok v
    | none => .raised "out_of_range"
  | _ => .raised "type_error"

/-- The const member `json::operator[](key)`: the library asserts that the key is there; it
throws `type_error` on a value that is not an object. -/
def Json.index (j : Json) (key : String) : Load Json :=
  match j with
  | .obj members =>
    match members.lookup key with
    | some v => .ok v
    | none => .undefined
  | _ => .raised "type_error"

/-- The const member `json::operator[](idx)`: an unchecked access into an array; it throws
`type_error` on a value that is not an array. -/
def Json.item (j : Json) (idx : Nat) : Load Json :=
  match j with
  | .arr items =>
    match items[idx]? with
    | some v => .ok v
    | none => .undefined
  | _ => .raised "type_error"

/-- The member `json::size()`. -/
def Json.size : Json → Nat
  | .null => 0
  | .arr items => items.length
  | .obj members => members.length
  | _ => 1

/-- The assignment `j[key] = v` on a null value or an object. -/
def Json.set (j : Json) (key : String) (v : Json) : Json :=
  match j with
  | .null => .obj [(key, v)]
  | .obj members =>
    if (members.lookup key).isSome then
      .obj (members.map fun kv => if kv.1 = key then (key, v) else kv)
    else .obj (members ++ [(key, v)])
  | other => other

/-- The member `json::push_back(v)` on a null value or an array. -/
def Json.pushBack (j : Json) (v : Json) : Json :=
  match j with
  | .null => .arr [v]
  | .arr items => .arr (items ++ [v])
  | other => other

/-- The conversion of a value to `double` or `float`: numbers and booleans convert, any
other value throws `type_error`. -/
def Json.getNum : Json → Load ℚ
  | .int n => .ok n
  | .num q => .ok q
  | .bool b => .ok (if b then 1 else 0)
  | _ => .raised "type_error"

/-- The conversion of a value to `int`: a floating-point number is truncated. -/
def Json.getInt : Json → Load Int
  | .int n => .ok n
  | .num q => .ok (truncToInt q)
  | .bool b => .ok (if b then 1 else 0)
  | _ => .raised "type_error"

/-- The conversion of a value to `bool`: only a boolean converts. -/
def Json.getBool : Json → Load Bool
  | .bool b => .ok b
  | _ => .raised "type_error"

/-- The conversion of a value to `std::string`: only a string converts. -/
def Json.getString : Json → Load String
  | .str s => .ok s
  | _ => .raised "type_error"

/-- What serialization needs from outside the given sources: the colour functions of
`util.h`, the reader that `::from_json` resolves to for a `cv::Scalar` target, and the state
that a zero-argument constructor leaves in members without an initializer. -/
structure JsonEnv where
  /-- The function `util::toRgbHexString`. -/
  toRgbHexString : Scalar → String
  /-- The function `util::fromRgbHexString`. -/
  fromRgbHexString : String → Scalar
  /-- The call `::from_json(j, color)` for a `cv::Scalar`. -/
  readColor : Json → Load Scalar
  /-- The default-seeded `std::mt19937`. -/
  defaultPrng : Prng
  /-- The value of `m_ratio` after the constructor of `ScaledPolygonTree`. -/
  freshRatio : ℚ
  /-- The value of `m_ambidextrous` after the constructor of `ScaledPolygonTree`. -/
  freshAmbidextrous : Bool

/-- The function `to_json(j, polygon)` of `tree.h`: the coordinates in one array. -/
def polygonToJson (polygon : List Point2f) : Json :=
  .arr (polygon.flatMap fun pt => [.num pt.x, .num pt.y])

/-- The loop of `from_json(j, polygon)`: two items per point; an odd number of items makes
the last access run past the end of the array. -/
def pointsFromItems : List Json → Load (List Point2f)
  | [] => .ok []
  | [_] => .undefined
  | a :: b :: rest =>
    (a.getNum).bind fun x => (b.getNum).bind fun y =>
      (pointsFromItems rest).bind fun ps => .ok ({ x := x, y := y } :: ps)

/-- The function `from_json(j, polygon)` of `tree.h`. -/
def polygonFromJson (j : Json) : Load (List Point2f) :=
  match j with
  | .arr items => pointsFromItems items
  | _ => .raised "Not JSON array type"

/-- The function `to_json(j, mat)` of `tree.h` for a `Matx33`: an array of rows. -/
def matx33ToJson (m : Matx33) : Json :=
  .arr [ .arr [.num m.m00, .num m.m01, .num m.m02], .arr [.num m.m10, .num m.m11, .num m.m12],
         .arr [.num m.m20, .num m.m21, .num m.m22] ]

/-- The function `to_json(j, mat)` of `tree.h` for a `Matx44`. -/
def matx44ToJson (m : Matx44) : Json :=
  .arr ((List.finRange 4).map fun r => .arr ((List.finRange 4).map fun c => .num (m r c)))

/-- The entry `mat(r, c) = j[r][c]` of `from_json(j, mat)`. -/
def Json.entry (j : Json) (r c : Nat) : Load ℚ :=
  (j.item r).bind fun row => (row.item c).bind fun v => v.getNum

/-- The function `from_json(j, mat)` of `tree.h` for a `Matx33`. -/
def matx33FromJson (j : Json) : Load Matx33 :=
  (j.entry 0 0).bind fun a00 => (j.entry 0 1).bind fun a01 => (j.entry 0 2).bind fun a02 =>
  (j.entry 1 0).bind fun a10 => (j.entry 1 1).bind fun a11 => (j.entry 1 2).bind fun a12 =>
  (j.entry 2 0).bind fun a20 => (j.entry 2 1).bind fun a21 => (j.entry 2 2).bind fun a22 =>
    .ok { m00 := a00, m01 := a01, m02 := a02, m10 := a10, m11 := a11, m12 := a12,
          m20 := a20, m21 := a21, m22 := a22 }

/-- The entries of one row for `from_json(j, mat)` with four columns. -/
def rowFromJson (j : Json) (r : Nat) : Load (Fin 4 → ℚ) :=
  (j.entry r 0).bind fun a0 => (j.entry r 1).bind fun a1 => (j.entry r 2).bind fun a2 =>
  (j.entry r 3).bind fun a3 => .ok fun c => if c = 0 then a0 else if c = 1 then a1
    else if c = 2 then a2 else a3

/-- The function `from_json(j, mat)` of `tree.h` for a `Matx44`. -/
def matx44FromJson (j : Json) : Load Matx44 :=
  (rowFromJson j 0).bind fun r0 => (rowFromJson j 1).bind fun r1 =>
  (rowFromJson j 2).bind fun r2 => (rowFromJson j 3).bind fun r3 =>
    .ok fun r => if r = 0 then r0 else if r = 1 then r1 else if r = 2 then r2 else r3

/-- The function `to_json(j, t)` of `tree.h` for a `qtransform`. -/
def transformToJson (t : QTransform) : Json :=
  let j := Json.obj [("gestation", .num t.gestation)]
  let j := j.set "color" (matx44ToJson t.colorTransform)
  if t.transformMatrixKey.isEmpty then j.set "transform" (matx33ToJson t.transformMatrix)
  else j.set "transform" (.str t.transformMatrixKey)

/-- The function `from_json(j, t)` of `tree.h` for a `qtransform`. -/
def transformFromJson (j : Json) (t : QTransform) : Load QTransform :=
  (j.at "gestation").bind fun g => g.getNum.bind fun gestation =>
  (j.at "color").bind fun c => (matx44FromJson c).bind fun color =>
  (j.at "transform").bind fun m => (matx33FromJson m).bind fun matrix =>
    .ok { t with gestation := gestation, colorTransform := color, transformMatrix := matrix }

/-- The loop of `from_json(j, transforms)`: element `i` is read from `j[i]`. -/
def transformsFromItems (j : Json) : Nat → List QTransform → Load (List QTransform)
  | _, [] => .ok []
  | i, t :: rest =>
    (j.item i).bind fun ji => (transformFromJson ji t).bind fun t1 =>
      (transformsFromItems j (i + 1) rest).bind fun ts => .ok (t1 :: ts)

/-- The function `from_json(j, transforms)` of `tree.h`: the list is resized to `j.size()`
(new elements are default-constructed) and every element is read. -/
def transformsFromJson (j : Json) (transforms : List QTransform) : Load (List QTransform) :=
  let resized :=
    transforms.take j.size ++
      List.replicate (j.size - transforms.length) (QTransform.ctor Matx33.eye Matx44.eye 1)
  transformsFromItems j 0 resized

/-- The member `qtree::to_json(j)` on a fresh value: the key `transforms` is created by the
first `push_back` of the loop over the transforms. -/
def qtreeToJson (E : JsonEnv) (t : SelfLimitingPolygonTree) : Json :=
  let j := Json.null.set "_class" (.str "qtree")
  let j := j.set "randomSeed" (.int t.randomSeed)
  let j := j.set "maxRadius" (.num t.maxRadius)
  let j := j.set "polygon" (polygonToJson t.polygon)
  let j :=
    t.transforms.foldl
      (fun j tr =>
        let old := match j with
          | .obj members => (members.lookup "transforms").getD .null
          | _ => .null
        j.set "transforms" (old.pushBack (transformToJson tr)))
      j
  let j := j.set "gestationRandomness" (.num t.gestationRandomness)
  j.set "drawSettings"
    (.obj [("lineColor", .str (E.toRgbHexString t.lineColor)),
           ("lineThickness", .int t.lineThickness)])

/-- The member `qtree::from_json(j)`. -/
def qtreeFromJson (E : JsonEnv) (t : SelfLimitingPolygonTree) (j : Json) :
    Load SelfLimitingPolygonTree :=
  (j.at "randomSeed").bind fun a => a.getInt.bind fun randomSeed =>
  (j.at "maxRadius").bind fun b => b.getNum.bind fun maxRadius =>
  (j.at "polygon").bind fun c => (polygonFromJson c).bind fun polygon =>
  (j.at "transforms").bind fun d => (transformsFromJson d t.transforms).bind fun transforms =>
  (if j.contains "gestationRandomness" then
      (j.at "gestationRandomness").bind fun e => e.getNum
    else .ok 0).bind fun gestationRandomness =>
  (j.at "drawSettings").bind fun f => (f.at "lineColor").bind fun g =>
  g.getString.bind fun lineColor =>
  (j.at "drawSettings").bind fun h => (h.at "lineThickness").bind fun k =>
  k.getInt.bind fun lineThickness =>
    .ok { t with
      randomSeed := randomSeed, maxRadius := maxRadius, polygon := polygon,
      transforms := transforms, gestationRandomness := gestationRandomness,
      lineColor := E.fromRgbHexString lineColor, lineThickness := lineThickness }

/-- The member `SelfLimitingPolygonTree::to_json(j)`. -/
def SelfLimitingPolygonTree.toJson (E : JsonEnv) (t : SelfLimitingPolygonTree) : Json :=
  let j := qtreeToJson E t
  let j := j.set "_class" (.str "SelfLimitingPolygonTree")
  let j := j.set "fieldResolution" (.int t.fieldResolution)
  let j := j.set "polygonSides" (.int t.polygonSides)
  let j := j.set "starAngle" (.int t.starAngle)
  j.set "rootNode" (.obj [("color", .str (E.toRgbHexString t.rootNodeColor))])

/-- The member `SelfLimitingPolygonTree::from_json(j)`. -/
def SelfLimitingPolygonTree.fromJson (E : JsonEnv) (t : SelfLimitingPolygonTree) (j : Json) :
    Load SelfLimitingPolygonTree :=
  (qtreeFromJson E t j).bind fun t =>
  (j.at "fieldResolution").bind fun a => a.getInt.bind fun fieldResolution =>
  (if j.contains "polygonSides" then (j.at "polygonSides").bind fun b => b.getInt
    else .ok 5).bind fun polygonSides =>
  (if j.contains "starAngle" then (j.at "starAngle").bind fun c => c.getInt
    else .ok 0).bind fun starAngle =>
  (if j.contains "rootNode" then
      (j.at "rootNode").bind fun d => (d.at "color").bind fun e => E.readColor e
    else .ok t.rootNodeColor).bind fun rootNodeColor =>
    .ok { t with
      fieldResolution := fieldResolution, polygonSides := polygonSides,
      starAngle := starAngle, rootNodeColor := rootNodeColor }

/-- The member `ScaledPolygonTree::to_json(j)`. -/
def ScaledPolygonTree.toJson (E : JsonEnv) (t : ScaledPolygonTree) : Json :=
  let j := SelfLimitingPolygonTree.toJson E t.toSelfLimitingPolygonTree
  let j := j.set "_class" (.str "ScaledPolygonTree")
  let j := j.set "ratio" (.num t.m_ratio)
  j.set "ambidextrous" (.bool t.m_ambidextrous)

/-- The member `ScaledPolygonTree::from_json(j)`: `ratio` and `ambidextrous` are read with
the const `operator[]`, not with `at`. -/
def ScaledPolygonTree.fromJson (E : JsonEnv) (t : ScaledPolygonTree) (j : Json) :
    Load ScaledPolygonTree :=
  (SelfLimitingPolygonTree.fromJson E t.toSelfLimitingPolygonTree j).bind fun b =>
  (j.index "ratio").bind fun r => r.getNum.bind fun ratio =>
  (j.index "ambidextrous").bind fun a => a.getBool.bind fun ambidextrous =>
    .ok { toSelfLimitingPolygonTree := b, m_ratio := ratio, m_ambidextrous := ambidextrous }

/-- The member `ThornTree::to_json(j)`. -/
def ThornTree.toJson (E : JsonEnv) (t : SelfLimitingPolygonTree) : Json :=
  (SelfLimitingPolygonTree.toJson E t).set "_class" (.str "ThornTree")

/-- A tree of one of the four registered classes. -/
inductive AnyTree where
  | selfLimiting (t : SelfLimitingPolygonTree)
  | scaled (t : ScaledPolygonTree)
  | trapezoid (t : SelfLimitingPolygonTree)
  | thorn (t : SelfLimitingPolygonTree)

/-- The virtual member `to_json`; `TrapezoidTree` has no override and uses that of
`SelfLimitingPolygonTree`. -/
def AnyTree.toJson (E : JsonEnv) : AnyTree → Json
  | .selfLimiting t => SelfLimitingPolygonTree.toJson E t
  | .scaled t => ScaledPolygonTree.toJson E t
  | .trapezoid t => SelfLimitingPolygonTree.toJson E t
  | .thorn t => ThornTree.toJson E t

/-- The virtual member `from_json`; `TrapezoidTree` has no override, and that of `ThornTree`
calls that of `SelfLimitingPolygonTree`. -/
def AnyTree.fromJson (E : JsonEnv) : AnyTree → Json → Load AnyTree
  | .selfLimiting t, j => (SelfLimitingPolygonTree.fromJson E t j).bind fun t => .ok (.selfLimiting t)
  | .scaled t, j => (ScaledPolygonTree.fromJson E t j).bind fun t => .ok (.scaled t)
  | .trapezoid t, j => (SelfLimitingPolygonTree.fromJson E t j).bind fun t => .ok (.trapezoid t)
  | .thorn t, j => (SelfLimitingPolygonTree.fromJson E t j).bind fun t => .ok (.thorn t)

/-- The zero-argument constructor of `SelfLimitingPolygonTree` (and of `TrapezoidTree` and
`ThornTree`): the default member initializers. -/
def SelfLimitingPolygonTree.ctor (E : JsonEnv) : SelfLimitingPolygonTree :=
  { maxRadius := 100, randomSeed := 0, polygon := [], transforms := [],
    gestationRandomness := 0, lineColor := { v0 := 0, v1 := 0, v2 := 0, v3 := 0 },
    lineThickness := 1, prng := E.defaultPrng, nodeQueue := [],
    polygonSides := 5, starAngle := 0, rootNodeColor := { v0 := 0, v1 := 0, v2 := 1, v3 := 1 },
    fieldResolution := 40, minimumScale := 1 / 100, colorTransformPalette := [],
    m_field := Mat1b.zeros 0 0,
    m_fieldTransform :=
      { m00 := 0, m01 := 0, m02 := 0, m10 := 0, m11 := 0, m12 := 0, m20 := 0, m21 := 0,
        m22 := 0 },
    m_fieldLayer := Mat1b.zeros 0 0, m_fieldLayerBoundingRect := Rect.zero, m_nodeList := [] }

/-- The table `qtree::factoryTable` after the four `REGISTER_QTREE_TYPE` lines: the name of
each class and what its constructor lambda builds. -/
def factoryTable (E : JsonEnv) : List (String × AnyTree) :=
  [ ("SelfLimitingPolygonTree", .selfLimiting (SelfLimitingPolygonTree.ctor E)),
    ("ScaledPolygonTree",
      .scaled { toSelfLimitingPolygonTree := SelfLimitingPolygonTree.ctor E,
                m_ratio := E.freshRatio, m_ambidextrous := E.freshAmbidextrous }),
    ("TrapezoidTree", .trapezoid (SelfLimitingPolygonTree.ctor E)),
    ("ThornTree", .thorn (SelfLimitingPolygonTree.ctor E)) ]

/-- The static member `qtree::createTreeFromJson(j)`. -/
def createTreeFromJson (E : JsonEnv) (j : Json) : Load AnyTree :=
  if !j.contains "_class" then .raised "Invalid JSON or missing \"_class\" key."
  else
    (j.index "_class").bind fun c => c.getString.bind fun className =>
      match (factoryTable E).lookup className with
      | none => .raised ("Class not registered: '" ++ className ++ "'")
      | some prototype => prototype.fromJson E j

/-- A `ScaledPolygonTree` record with every key that the base classes read, and with
`ambidextrous`, but without `ratio`. -/
def recordWithoutRatio : Json :=
  .obj [ ("_class", .str "ScaledPolygonTree"), ("randomSeed", .int 0), ("maxRadius", .int 4),
         ("polygon", .arr []), ("transforms", .arr []),
         ("drawSettings", .obj [("lineColor", .str "#000000"), ("lineThickness", .int 1)]),
         ("fieldResolution", .int 100), ("ambidextrous", .bool false) ]

/-- The same record with `ratio` and without `ambidextrous`. -/
def recordWithoutAmbidextrous : Json :=
  .obj [ ("_class", .str "ScaledPolygonTree"), ("randomSeed", .int 0), ("maxRadius", .int 4),
         ("polygon", .arr []), ("transforms", .arr []),
         ("drawSettings", .obj [("lineColor", .str "#000000"), ("lineThickness", .int 1)]),
         ("fieldResolution", .int 100), ("ratio", .int 1) ]

/-- The record `recordWithoutRatio` with `ratio` added. -/
def recordComplete : Json :=
  .obj [ ("_class", .str "ScaledPolygonTree"), ("randomSeed", .int 0), ("maxRadius", .int 4),
         ("polygon", .arr []), ("transforms", .arr []),
         ("drawSettings", .obj [("lineColor", .str "#000000"), ("lineThickness", .int 1)]),
         ("fieldResolution", .int 100), ("ratio", .int 1), ("ambidextrous", .bool false) ]

/-! # Theorems -/

/-! ## The binary heap -/

theorem keyAt_set {α : Type} (key : α → ℚ) (l : List α) (k i : Nat) (x : α) :
    keyAt key (l.set k x) i = if i = k ∧ k < l.length then key x else keyAt key l i := by
  unfold keyAt
  rw [List.getElem?_set]
  by_cases h : k = i
  · subst h
    by_cases h2 : k < l.length
    · simp [h2]
    · simp [h2, List.getElem?_eq_none (Nat.le_of_not_lt h2)]
  · have : ¬ (i = k) := fun e => h e.symm
    simp [h, this]

theorem key_getD {α : Type} (key : α → ℚ) (l : List α) (i : Nat) (d : α) (h : i < l.length) :
    key (l.getD i d) = keyAt key l i := by
  simp [keyAt, List.getD_eq_getElem?_getD, List.getElem?_eq_getElem h]

theorem perm_set_swap {α : Type} (l : List α) (p k : Nat) (v d : α) (hp : p < l.length)
    (hk : k < l.length) (hpk : p ≠ k) :
    ((l.set k (l.getD p d)).set p v).Perm (l.set k v) := by
  classical
  rw [List.perm_iff_count]
  intro x
  have e2 : l.getD p d = l[p] := by simp [List.getD_eq_getElem?_getD, List.getElem?_eq_getElem hp]
  rw [e2]
  have hp2 : p < (l.set k l[p]).length := by simpa using hp
  have h1 := List.count_set v x (l.set k l[p]) p hp2
  have h2 := List.count_set l[p] x l k hk
  have h3 := List.count_set v x l k hk
  have e1 : (l.set k l[p])[p] = l[p] := by
    simp [List.getElem_set, Ne.symm hpk]
  rw [e1] at h1
  have b1 := List.boole_getElem_le_countP (fun y => y == x) l k hk
  have b2 := List.boole_getElem_le_countP (fun y => y == x) (l.set k l[p]) p hp2
  rw [e1] at b2
  simp only [← List.count_eq_countP] at b1 b2
  rw [h1, h2, h3]
  rw [h2] at b2
  omega

theorem pushHeapLoop_spec {α : Type} (key : α → ℚ) (comp : α → α → Bool)
    (hc : ∀ a b, comp a b = decide (key a > key b)) (v : α) (n : Nat) :
    ∀ (fuel : Nat) (l : List α) (k : Nat), k ≤ fuel → k < n → n ≤ l.length →
      HoleInv key l n k →
      (∀ i, 0 < i → i < n → (i - 1) / 2 = k → key v ≤ keyAt key l i) →
      IsHeapUpTo key (pushHeapLoop comp v 0 fuel l k) n ∧
      (pushHeapLoop comp v 0 fuel l k).length = l.length ∧
      (∀ i, n ≤ i → (pushHeapLoop comp v 0 fuel l k)[i]? = l[i]?) ∧
      (pushHeapLoop comp v 0 fuel l k).Perm (l.set k v) := by
  have stop : ∀ (l : List α) (k : Nat), k < n → n ≤ l.length → HoleInv key l n k →
      (∀ i, 0 < i → i < n → (i - 1) / 2 = k → key v ≤ keyAt key l i) →
      (0 < k → keyAt key l ((k - 1) / 2) ≤ key v) →
      IsHeapUpTo key (l.set k v) n ∧ (l.set k v).length = l.length ∧
      (∀ i, n ≤ i → (l.set k v)[i]? = l[i]?) ∧ (l.set k v).Perm (l.set k v) := by
    intro l k hkn hnl hinv hch hpar
    refine ⟨?_, by simp, ?_, List.Perm.refl _⟩
    · intro i hi hin
      rw [keyAt_set, keyAt_set]
      have hkl : k < l.length := by omega
      by_cases h1 : i = k
      · subst h1
        have : ¬ ((i - 1) / 2 = i) := by omega
        simp [this, hkl]
        exact hpar hi
      · by_cases h2 : (i - 1) / 2 = k
        · simp [h1, h2, hkl]
          exact hch i hi hin h2
        · simp [h1, h2]
          exact hinv.1 i hi hin h1 h2
    · intro i hi
      rw [List.getElem?_set]
      have : ¬ (k = i) := by omega
      simp [this]
  intro fuel
  induction fuel with
  | zero =>
    intro l k hk hkn hnl hinv hch
    have hk0 : k = 0 := by omega
    subst hk0
    simp only [pushHeapLoop]
    exact stop l 0 hkn hnl hinv hch (by intro h; omega)
  | succ fuel ih =>
    intro l k hk hkn hnl hinv hch
    simp only [pushHeapLoop]
    have hkl : k < l.length := by omega
    by_cases hcond : (decide (k > 0) && comp (l.getD ((k - 1) / 2) v) v) = true
    · rw [if_pos hcond]
      simp only [Bool.and_eq_true, decide_eq_true_eq] at hcond
      obtain ⟨hk0, hcmp⟩ := hcond
      rw [hc] at hcmp
      simp only [gt_iff_lt, decide_eq_true_eq] at hcmp
      have hpl : (k - 1) / 2 < l.length := by omega
      have hkw := key_getD key l _ v hpl
      generalize hw : l.getD ((k - 1) / 2) v = w at hcmp hkw ⊢
      rw [hkw] at hcmp
      have hpk : (k - 1) / 2 ≠ k := by omega
      have hinv2 : HoleInv key (l.set k w) n ((k - 1) / 2) := by
        constructor
        · intro i hi hin h1 h2
          rw [keyAt_set, keyAt_set]
          have hik : i ≠ k := by
            intro e; subst e; exact h2 rfl
          by_cases h3 : (i - 1) / 2 = k
          · simp [h3, hkl, hik, hkw]
            have := hinv.2 i hi hin h3 hk0
            exact this
          · simp [h3, hik]
            have h4 : (i - 1) / 2 ≠ k := h3
            exact hinv.1 i hi hin hik h4
        · intro i hi hin h1 h2
          rw [keyAt_set, keyAt_set]
          have hpp : ¬ (((k - 1) / 2 - 1) / 2 = k) := by omega
          have hg : keyAt key l (((k - 1) / 2 - 1) / 2) ≤ keyAt key l ((k - 1) / 2) :=
            hinv.1 ((k - 1) / 2) h2 (by omega) hpk (by omega)
          by_cases h3 : i = k
          · simp [h3, hkl, hpp, hkw]
            exact hg
          · simp [h3, hpp]
            have h5 : keyAt key l ((i - 1) / 2) ≤ keyAt key l i :=
              hinv.1 i hi hin h3 (by omega)
            rw [h1] at h5
            exact le_trans hg h5
      have hch2 : ∀ i, 0 < i → i < n → (i - 1) / 2 = (k - 1) / 2 →
          key v ≤ keyAt key (l.set k w) i := by
        intro i hi hin h1
        rw [keyAt_set]
        by_cases h3 : i = k
        · simp [h3, hkl, hkw]
          exact le_of_lt hcmp
        · simp [h3]
          have h5 : keyAt key l ((i - 1) / 2) ≤ keyAt key l i :=
            hinv.1 i hi hin h3 (by omega)
          rw [h1] at h5
          exact le_trans (le_of_lt hcmp) h5
      have := ih (l.set k w) ((k - 1) / 2) (by omega) (by omega)
        (by simpa using hnl) hinv2 hch2
      obtain ⟨r1, r2, r3, r4⟩ := this
      refine ⟨r1, by simpa using r2, ?_, ?_⟩
      · intro i hi
        rw [r3 i hi, List.getElem?_set]
        have : ¬ (k = i) := by omega
        simp [this]
      · exact r4.trans (hw ▸ perm_set_swap l _ k v v hpl hkl hpk)
    · rw [if_neg hcond]
      apply stop l k hkn hnl hinv hch
      intro hk0
      simp only [Bool.and_eq_true, decide_eq_true_eq, not_and] at hcond
      have := hcond hk0
      rw [hc] at this
      simp only [gt_iff_lt, decide_eq_true_eq, not_lt] at this
      have hpl : (k - 1) / 2 < l.length := by omega
      rw [key_getD key l _ v hpl] at this
      exact this

theorem adjustHeapLoop_spec {α : Type} (key : α → ℚ) (comp : α → α → Bool)
    (hc : ∀ a b, comp a b = decide (key a > key b)) (v : α) (n : Nat) :
    ∀ (fuel : Nat) (l : List α) (k : Nat), (n - 1) / 2 - k ≤ fuel → k < n → n ≤ l.length →
      HoleInv key l n k →
      HoleInv key (adjustHeapLoop comp v n fuel l k).1 n (adjustHeapLoop comp v n fuel l k).2 ∧
      (adjustHeapLoop comp v n fuel l k).2 < n ∧
      ¬ ((adjustHeapLoop comp v n fuel l k).2 < (n - 1) / 2) ∧
      (adjustHeapLoop comp v n fuel l k).1.length = l.length ∧
      (∀ i, n ≤ i → (adjustHeapLoop comp v n fuel l k).1[i]? = l[i]?) ∧
      (∀ x, ((adjustHeapLoop comp v n fuel l k).1.set (adjustHeapLoop comp v n fuel l k).2 x).Perm
        (l.set k x)) := by
  intro fuel
  induction fuel with
  | zero =>
    intro l k hf hkn hnl hinv
    unfold adjustHeapLoop
    exact ⟨hinv, hkn, by omega, rfl, fun _ _ => rfl, fun _ => List.Perm.refl _⟩
  | succ fuel ih =>
    intro l k hf hkn hnl hinv
    unfold adjustHeapLoop
    by_cases hlt : k < (n - 1) / 2
    · simp only [if_pos hlt]
      have hsel : ∃ c, (if comp (l.getD (2 * (k + 1)) v) (l.getD (2 * (k + 1) - 1) v) = true
            then 2 * (k + 1) - 1 else 2 * (k + 1)) = c ∧ (c = 2 * k + 1 ∨ c = 2 * k + 2) ∧
          keyAt key l c ≤ keyAt key l (2 * k + 1) ∧ keyAt key l c ≤ keyAt key l (2 * k + 2) := by
        have h1 : 2 * (k + 1) < l.length := by omega
        have h2 : 2 * (k + 1) - 1 < l.length := by omega
        rw [hc, key_getD key l _ v h1, key_getD key l _ v h2]
        have e1 : 2 * (k + 1) - 1 = 2 * k + 1 := by omega
        have e2 : 2 * (k + 1) = 2 * k + 2 := by omega
        rw [e1, e2]
        by_cases hgt : keyAt key l (2 * k + 2) > keyAt key l (2 * k + 1)
        · refine ⟨2 * k + 1, by simp [hgt], Or.inl rfl, le_refl _, le_of_lt hgt⟩
        · refine ⟨2 * k + 2, by simp [hgt], Or.inr rfl, le_of_not_lt hgt, le_refl _⟩
      obtain ⟨c, hce, hcc, hc1, hc2⟩ := hsel
      simp only [hce]
      have hcl : c < l.length := by omega
      have hkl : k < l.length := by omega
      have hkw := key_getD key l c v hcl
      generalize hw : l.getD c v = w at hkw ⊢
      have hck : c ≠ k := by omega
      have hinv2 : HoleInv key (l.set k w) n c := by
        constructor
        · intro i hi hin h1 h2
          rw [keyAt_set, keyAt_set]
          by_cases h3 : i = k
          · have h4 : ¬ ((i - 1) / 2 = k) := by omega
            simp [h3, hkl, hkw]
            have h5 : ¬ ((k - 1) / 2 = k) := by omega
            simp [h5]
            exact hinv.2 c (by omega) (by omega) (by omega) (by omega)
          · by_cases h4 : (i - 1) / 2 = k
            · simp [h3, h4, hkl, hkw]
              have : i = 2 * k + 1 ∨ i = 2 * k + 2 := by omega
              rcases this with e | e
              · rw [e]; exact hc1
              · rw [e]; exact hc2
            · simp [h3, h4]
              exact hinv.1 i hi hin h3 h4
        · intro i hi hin h1 h2
          rw [keyAt_set, keyAt_set]
          have h3 : ¬ (i = k) := by omega
          have h4 : (c - 1) / 2 = k := by omega
          simp [h3, h4, hkl, hkw]
          have h5 := hinv.1 i hi hin h3 (by omega)
          rw [h1] at h5
          exact h5
      have := ih (l.set k w) c (by omega) (by omega) (by simpa using hnl) hinv2
      obtain ⟨r1, r2, r3, r4, r5, r6⟩ := this
      refine ⟨r1, r2, r3, by simpa using r4, ?_, ?_⟩
      · intro i hi
        rw [r5 i hi, List.getElem?_set]
        have : ¬ (k = i) := by omega
        simp [this]
      · intro x
        exact (r6 x).trans (hw ▸ perm_set_swap l c k x v hcl hkl hck)
    · simp only [if_neg hlt]
      exact ⟨hinv, hkn, hlt, by simp, by simp, fun _ => List.Perm.refl _⟩

theorem adjustHeap_spec {α : Type} (key : α → ℚ) (comp : α → α → Bool)
    (hc : ∀ a b, comp a b = decide (key a > key b)) (v : α) (n : Nat) (l : List α)
    (hn : 0 < n) (hnl : n ≤ l.length) (hinv : HoleInv key l n 0) :
    IsHeapUpTo key (adjustHeap comp l 0 n v) n ∧
    (adjustHeap comp l 0 n v).length = l.length ∧
    (∀ i, n ≤ i → (adjustHeap comp l 0 n v)[i]? = l[i]?) ∧
    (adjustHeap comp l 0 n v).Perm (l.set 0 v) := by
  obtain ⟨s1, s2, s3, s4, s5, s6⟩ :=
    adjustHeapLoop_spec key comp hc v n n l 0 (by omega) hn hnl hinv
  unfold adjustHeap
  simp only []
  generalize adjustHeapLoop comp v n n l 0 = s at s1 s2 s3 s4 s5 s6 ⊢
  obtain ⟨l1, k1⟩ := s
  simp only at s1 s2 s3 s4 s5 s6 ⊢
  by_cases hsp : (decide (n % 2 = 0) && decide (k1 = (n - 2) / 2)) = true
  · rw [if_pos hsp]
    simp only [Bool.and_eq_true, decide_eq_true_eq] at hsp
    obtain ⟨he, hk⟩ := hsp
    have hcl : 2 * (k1 + 1) - 1 < l1.length := by omega
    have hkl : k1 < l1.length := by omega
    have hkw := key_getD key l1 (2 * (k1 + 1) - 1) v hcl
    generalize hw : l1.getD (2 * (k1 + 1) - 1) v = w at hkw ⊢
    have hinv2 : HoleInv key (l1.set k1 w) n (2 * (k1 + 1) - 1) := by
      constructor
      · intro i hi hin h1 h2
        rw [keyAt_set, keyAt_set]
        by_cases h3 : i = k1
        · have h5 : ¬ ((k1 - 1) / 2 = k1) := by omega
          simp [h3, hkl, hkw, h5]
          exact s1.2 (2 * (k1 + 1) - 1) (by omega) (by omega) (by omega) (by omega)
        · have h4 : ¬ ((i - 1) / 2 = k1) := by omega
          simp [h3, h4]
          exact s1.1 i hi hin h3 h4
      · intro i hi hin h1 h2
        omega
    obtain ⟨r1, r2, r3, r4⟩ := pushHeapLoop_spec key comp hc v n (2 * (k1 + 1) - 1)
      (l1.set k1 w) (2 * (k1 + 1) - 1) (le_refl _) (by omega) (by simpa using (by omega : n ≤ l1.length))
      hinv2 (by intro i hi hin h1; omega)
    refine ⟨r1, ?_, ?_, ?_⟩
    · simp only [pushHeapAt]
      rw [r2]; simp; omega
    · intro i hi
      simp only [pushHeapAt]
      rw [r3 i hi, List.getElem?_set]
      have : ¬ (k1 = i) := by omega
      simp [this]
      exact s5 i hi
    · simp only [pushHeapAt]
      refine r4.trans ?_
      refine List.Perm.trans ?_ (s6 v)
      exact hw ▸ perm_set_swap l1 (2 * (k1 + 1) - 1) k1 v v hcl hkl (by omega)
  · rw [if_neg hsp]
    simp only [Bool.and_eq_true, decide_eq_true_eq, not_and] at hsp
    have hnoch : ∀ i, 0 < i → i < n → (i - 1) / 2 = k1 → key v ≤ keyAt key l1 i := by
      intro i hi hin h1
      exfalso
      by_cases he : n % 2 = 0
      · have := hsp he
        omega
      · omega
    obtain ⟨r1, r2, r3, r4⟩ := pushHeapLoop_spec key comp hc v n k1 l1 k1 (le_refl _) s2
      (by omega) s1 hnoch
    refine ⟨r1, ?_, ?_, ?_⟩
    · simp only [pushHeapAt]; rw [r2]; exact s4
    · intro i hi
      simp only [pushHeapAt]
      rw [r3 i hi]; exact s5 i hi
    · simp only [pushHeapAt]
      exact r4.trans (s6 v)

theorem keyAt_append_left {α : Type} (key : α → ℚ) (l m : List α) (i : Nat) (h : i < l.length) :
    keyAt key (l ++ m) i = keyAt key l i := by
  simp [keyAt, List.getElem?_append_left h]

theorem pqPush_spec {α : Type} (key : α → ℚ) (comp : α → α → Bool)
    (hc : ∀ a b, comp a b = decide (key a > key b)) (c : List α) (x : α)
    (h : IsHeap key c) : IsHeap key (pqPush comp c x) ∧ (pqPush comp c x).Perm (x :: c) := by
  unfold pqPush push_heap
  have hl : (c ++ [x]).getLast? = some x := by simp
  rw [hl]
  simp only [pushHeapAt]
  have hlen : (c ++ [x]).length - 1 = c.length := by simp
  rw [hlen]
  have hinv : HoleInv key (c ++ [x]) (c.length + 1) c.length := by
    constructor
    · intro i hi hin h1 h2
      have hic : i < c.length := by omega
      rw [keyAt_append_left key c [x] i hic, keyAt_append_left key c [x] _ (by omega)]
      exact h i hi hic
    · intro i hi hin h1 h2
      omega
  obtain ⟨r1, r2, r3, r4⟩ := pushHeapLoop_spec key comp hc x (c.length + 1) c.length
    (c ++ [x]) c.length (le_refl _) (by omega) (by simp) hinv (by intro i hi hin h1; omega)
  constructor
  · unfold IsHeap
    rw [r2]
    simpa using r1
  · refine r4.trans ?_
    have : (c ++ [x]).set c.length x = c ++ [x] := by
      simp [List.set_append]
    rw [this]
    exact List.perm_append_singleton x c

theorem keyAt_dropLast {α : Type} (key : α → ℚ) (l : List α) (i : Nat)
    (h : i < l.length - 1) : keyAt key l.dropLast i = keyAt key l i := by
  unfold keyAt
  rw [List.getElem?_dropLast, if_pos h]

theorem pqPop_spec {α : Type} (key : α → ℚ) (comp : α → α → Bool)
    (hc : ∀ a b, comp a b = decide (key a > key b)) (q : List α) (top : α)
    (h : IsHeap key q) (ht : pqTop q = some top) :
    IsHeap key (pqPop comp q) ∧ (top :: pqPop comp q).Perm q ∧
      (pqPop comp q).length + 1 = q.length := by
  unfold pqTop at ht
  have hne : q ≠ [] := by
    intro e; subst e; simp at ht
  have hpos : 0 < q.length := List.length_pos.mpr hne
  obtain ⟨value, hv⟩ : ∃ value, q.getLast? = some value := by
    cases hl : q.getLast? with
    | none => simp [List.getLast?_eq_none_iff] at hl; exact absurd hl hne
    | some a => exact ⟨a, rfl⟩
  unfold pqPop pop_heap
  rw [ht, hv]
  simp only []
  by_cases h1 : q.length > 1
  · rw [if_pos h1]
    have ht0 : q[0]? = some top := by rw [← List.head?_eq_getElem?]; exact ht
    have hvn : q[q.length - 1]? = some value := by rw [← List.getLast?_eq_getElem?]; exact hv
    have hinv : HoleInv key (q.set (q.length - 1) top) (q.length - 1) 0 := by
      constructor
      · intro i hi hin _ h3
        rw [keyAt_set, keyAt_set]
        have e1 : ¬ (i = q.length - 1) := by omega
        have e2 : ¬ ((i - 1) / 2 = q.length - 1) := by omega
        simp [e1, e2]
        exact h i hi (by omega)
      · intro i _ _ _ h4
        omega
    obtain ⟨r1, r2, r3, r4⟩ := adjustHeap_spec key comp hc value (q.length - 1)
      (q.set (q.length - 1) top) (by omega) (by simp) hinv
    generalize adjustHeap comp (q.set (q.length - 1) top) 0 (q.length - 1) value = r
      at r1 r2 r3 r4 ⊢
    have hrl : r.length = q.length := by simpa using r2
    have hlast : r.getLast? = some top := by
      rw [List.getLast?_eq_getElem?, hrl, r3 _ (le_refl _), List.getElem?_set]
      simp
      exact hne
    have hr : r.dropLast ++ [top] = r := List.dropLast_append_getLast? top hlast
    refine ⟨?_, ?_, ?_⟩
    · intro i hi hin
      have hin2 : i < q.length - 1 := by simpa [hrl] using hin
      rw [keyAt_dropLast key r i (by omega), keyAt_dropLast key r _ (by omega)]
      exact r1 i hi hin2
    · have p1 : (top :: r.dropLast).Perm r := by
        have := List.perm_append_singleton top r.dropLast
        rw [hr] at this
        exact this.symm
      refine p1.trans (r4.trans ?_)
      have htop : q.getD 0 value = top := by
        simp [List.getD_eq_getElem?_getD, ht0]
      have p2 := perm_set_swap q 0 (q.length - 1) value value hpos (by omega) (by omega)
      rw [htop] at p2
      refine p2.trans ?_
      have : q.set (q.length - 1) value = q := by
        apply List.ext_getElem?
        intro i
        rw [List.getElem?_set]
        by_cases e : q.length - 1 = i
        · subst e
          simp [hvn]
          exact hne
        · simp [e]
      rw [this]
    · simp [hrl]
      omega
  · rw [if_neg h1]
    have hlen : q.length = 1 := by omega
    match q, hlen, ht with
    | [a], _, ht =>
      simp at ht
      subst ht
      refine ⟨?_, by simp, by simp⟩
      intro i hi hin
      simp at hin

theorem heap_top_le {α : Type} (key : α → ℚ) (l : List α) (h : IsHeap key l) :
    ∀ i, i < l.length → keyAt key l 0 ≤ keyAt key l i := by
  intro i
  induction i using Nat.strong_induction_on with
  | _ i ih =>
    intro hi
    by_cases h0 : i = 0
    · subst h0; exact le_refl _
    · have h1 := h i (by omega) hi
      have h2 := ih ((i - 1) / 2) (by omega) (by omega)
      exact le_trans h2 h1

theorem isHeap_nil {α : Type} (key : α → ℚ) : IsHeap key ([] : List α) := by
  intro i _ hin
  simp at hin

theorem pqPop_nil {α : Type} (comp : α → α → Bool) : pqPop comp ([] : List α) = [] := by
  simp [pqPop, pop_heap]

theorem runQueueOps_isHeap {α : Type} (key : α → ℚ) (comp : α → α → Bool)
    (hc : ∀ a b, comp a b = decide (key a > key b)) (ops : List (QueueOp α)) :
    ∀ q : List α, IsHeap key q → IsHeap key (runQueueOps comp q ops) := by
  induction ops with
  | nil => intro q h; exact h
  | cons op ops ih =>
    intro q h
    simp only [runQueueOps, List.foldl_cons]
    apply ih
    cases op with
    | push x => exact (pqPush_spec key comp hc q x h).1
    | pop =>
      simp only [QueueOp.apply]
      cases ht : pqTop q with
      | none =>
        have : q = [] := by
          cases q with
          | nil => rfl
          | cons a l => simp [pqTop] at ht
        subst this
        rw [pqPop_nil]
        exact h
      | some top => exact (pqPop_spec key comp hc q top h ht).1

theorem key_le_of_mem {α : Type} (key : α → ℚ) (q : List α) (h : IsHeap key q) (top x : α)
    (ht : pqTop q = some top) (hx : x ∈ q) : key top ≤ key x := by
  obtain ⟨i, hi, rfl⟩ := List.getElem_of_mem hx
  have h1 := heap_top_le key q h i hi
  have e0 : keyAt key q 0 = key top := by
    unfold pqTop at ht
    rw [List.head?_eq_getElem?] at ht
    simp [keyAt, ht]
  have e1 : keyAt key q i = key q[i] := by
    simp [keyAt, List.getElem?_eq_getElem hi]
  rw [e0, e1] at h1
  exact h1

theorem pqPopAllLoop_spec {α : Type} (key : α → ℚ) (comp : α → α → Bool)
    (hc : ∀ a b, comp a b = decide (key a > key b)) :
    ∀ (fuel : Nat) (q : List α), IsHeap key q → q.length ≤ fuel →
      List.Pairwise (fun a b => key a ≤ key b) (pqPopAllLoop comp fuel q) ∧
      (pqPopAllLoop comp fuel q).Perm q := by
  intro fuel
  induction fuel with
  | zero =>
    intro q _ hl
    have : q = [] := List.length_eq_zero.mp (by omega)
    subst this
    simp [pqPopAllLoop]
  | succ fuel ih =>
    intro q h hl
    unfold pqPopAllLoop
    cases ht : pqTop q with
    | none =>
      have : q = [] := by
        cases q with
        | nil => rfl
        | cons a l => simp [pqTop] at ht
      subst this
      simp
    | some top =>
      simp only []
      obtain ⟨p1, p2, p3⟩ := pqPop_spec key comp hc q top h ht
      obtain ⟨s1, s2⟩ := ih (pqPop comp q) p1 (by omega)
      refine ⟨?_, ?_⟩
      · rw [List.pairwise_cons]
        refine ⟨?_, s1⟩
        intro y hy
        have hy2 : y ∈ q := by
          have : y ∈ top :: pqPop comp q := List.mem_cons_of_mem _ (s2.subset hy)
          exact p2.subset this
        exact key_le_of_mem key q h top y ht hy2
      · exact (List.Perm.cons top s2).trans p2

theorem earliestFirst_key (a b : QNode) :
    EarliestFirst a b = decide (QNode.beginTime a > QNode.beginTime b) := rfl

theorem pqPushAll_spec {α : Type} (key : α → ℚ) (comp : α → α → Bool)
    (hc : ∀ a b, comp a b = decide (key a > key b)) (xs : List α) :
    ∀ q : List α, IsHeap key q →
      IsHeap key (pqPushAll comp q xs) ∧ (pqPushAll comp q xs).Perm (q ++ xs) := by
  induction xs with
  | nil => intro q h; simpa [pqPushAll] using h
  | cons x xs ih =>
    intro q h
    obtain ⟨h1, h2⟩ := pqPush_spec key comp hc q x h
    obtain ⟨h3, h4⟩ := ih (pqPush comp q x) h1
    simp only [pqPushAll, List.foldl_cons] at h3 h4 ⊢
    refine ⟨h3, h4.trans ?_⟩
    have : (pqPush comp q x ++ xs).Perm ((x :: q) ++ xs) := List.Perm.append_right xs h2
    refine this.trans ?_
    simp only [List.cons_append]
    exact List.perm_middle.symm

/-- C6. After the nodes `xs` were pushed on an empty `nodeQueue`, the queue holds exactly
those nodes, the node at the top is one of them and has a `beginTime` at most that of every
one of them, and popping the whole queue hands out exactly those nodes, each once, in
non-decreasing `beginTime` order. The same holds for the queue reached by any sequence of
pushes and pops: a push adds the node to the pending nodes, a pop takes away the top and no
other node, the top is a pending node with the least `beginTime`, and popping the whole
queue hands out the pending nodes, each once, in non-decreasing `beginTime` order. -/
theorem pending_queue_earliest_first (xs : List QNode) (ops : List (QueueOp QNode)) :
    (pqPushAll EarliestFirst [] xs).Perm xs ∧
    (xs ≠ [] → ∃ top, pqTop (pqPushAll EarliestFirst [] xs) = some top) ∧
    (∀ top ∈ pqTop (pqPushAll EarliestFirst [] xs),
      top ∈ xs ∧ ∀ n ∈ xs, top.beginTime ≤ n.beginTime) ∧
    (pqPopAll EarliestFirst (pqPushAll EarliestFirst [] xs)).Perm xs ∧
    List.Pairwise (fun a b : QNode => a.beginTime ≤ b.beginTime)
      (pqPopAll EarliestFirst (pqPushAll EarliestFirst [] xs)) ∧
    (∀ n, (pqPush EarliestFirst (runQueueOps EarliestFirst [] ops) n).Perm
      (n :: runQueueOps EarliestFirst [] ops)) ∧
    (∀ top ∈ pqTop (runQueueOps EarliestFirst [] ops),
      (top :: pqPop EarliestFirst (runQueueOps EarliestFirst [] ops)).Perm
        (runQueueOps EarliestFirst [] ops)) ∧
    (runQueueOps EarliestFirst [] ops ≠ [] →
      ∃ top, pqTop (runQueueOps EarliestFirst [] ops) = some top) ∧
    (∀ top ∈ pqTop (runQueueOps EarliestFirst [] ops),
      top ∈ runQueueOps EarliestFirst [] ops ∧
      ∀ n ∈ runQueueOps EarliestFirst [] ops, top.beginTime ≤ n.beginTime) ∧
    (pqPopAll EarliestFirst (runQueueOps EarliestFirst [] ops)).Perm
      (runQueueOps EarliestFirst [] ops) ∧
    List.Pairwise (fun a b : QNode => a.beginTime ≤ b.beginTime)
      (pqPopAll EarliestFirst (runQueueOps EarliestFirst [] ops)) := by
  have top_mem : ∀ (q : List QNode) (top : QNode), pqTop q = some top → top ∈ q := by
    intro q top ht
    cases q with
    | nil => simp [pqTop] at ht
    | cons a l =>
      simp only [pqTop, List.head?_cons, Option.some.injEq] at ht
      subst ht
      exact List.mem_cons_self _ _
  have top_some : ∀ q : List QNode, q ≠ [] → ∃ top, pqTop q = some top := by
    intro q hq
    cases q with
    | nil => exact absurd rfl hq
    | cons a l => exact ⟨a, rfl⟩
  obtain ⟨h1, h2⟩ := pqPushAll_spec QNode.beginTime EarliestFirst earliestFirst_key xs []
    (isHeap_nil _)
  have h2x : (pqPushAll EarliestFirst [] xs).Perm xs := by simpa using h2
  obtain ⟨s1, s2⟩ := pqPopAllLoop_spec QNode.beginTime EarliestFirst earliestFirst_key
    (pqPushAll EarliestFirst [] xs).length _ h1 (le_refl _)
  have hh := runQueueOps_isHeap QNode.beginTime EarliestFirst earliestFirst_key ops []
    (isHeap_nil _)
  obtain ⟨r1, r2⟩ := pqPopAllLoop_spec QNode.beginTime EarliestFirst earliestFirst_key
    (runQueueOps EarliestFirst [] ops).length _ hh (le_refl _)
  refine ⟨h2x, ?_, ?_, s2.trans h2x, s1, ?_, ?_, top_some _, ?_, r2, r1⟩
  · intro hx
    apply top_some
    intro e
    rw [e] at h2x
    exact hx h2x.symm.eq_nil
  · intro top ht
    refine ⟨h2x.subset (top_mem _ top ht), ?_⟩
    intro n hn
    exact key_le_of_mem QNode.beginTime _ h1 top n ht (h2x.symm.subset hn)
  · intro n
    exact (pqPush_spec QNode.beginTime EarliestFirst earliestFirst_key _ n hh).2
  · intro top ht
    exact (pqPop_spec QNode.beginTime EarliestFirst earliestFirst_key _ top hh ht).2.1
  · intro top ht
    refine ⟨top_mem _ top ht, ?_⟩
    intro n hn
    exact key_le_of_mem QNode.beginTime _ hh top n ht hn

/-- C7, counterexample. Four nodes with the same `beginTime`, pushed with ids 1, 2, 3, 4,
are popped in the order 1, 3, 2, 4, whereas the stable sort by `beginTime` keeps 1, 2, 3, 4. -/
theorem tie_break_not_insertion_order :
    (pqPopAll EarliestFirst (pqPushAll EarliestFirst [] tieNodes)).map QNode.id = [1, 3, 2, 4] ∧
    (List.insertionSort (fun a b : QNode => a.beginTime ≤ b.beginTime) tieNodes).map QNode.id
      = [1, 2, 3, 4] := by
  constructor
  · simp [tieNodes, pqPopAll, pqPushAll, pqPush, push_heap, pushHeapAt, pushHeapLoop,
      pqPopAllLoop, pqTop, pqPop, pop_heap, adjustHeap, adjustHeapLoop, EarliestFirst,
      QNode.ctor]
  · simp [tieNodes, List.insertionSort, List.orderedInsert, QNode.ctor]

/-- C7, amended. Popping the whole queue after pushing the nodes `xs` hands out a
permutation of `xs` in non-decreasing `beginTime` order; when the `beginTime` values are
pairwise distinct this is the stable sort of the push order by `beginTime`. -/
theorem pop_order_sorted_permutation (xs : List QNode) :
    (pqPopAll EarliestFirst (pqPushAll EarliestFirst [] xs)).Perm xs ∧
    List.Pairwise (fun a b : QNode => a.beginTime ≤ b.beginTime)
      (pqPopAll EarliestFirst (pqPushAll EarliestFirst [] xs)) ∧
    (List.Pairwise (fun a b : QNode => a.beginTime ≠ b.beginTime) xs →
      pqPopAll EarliestFirst (pqPushAll EarliestFirst [] xs) =
        List.insertionSort (fun a b : QNode => a.beginTime ≤ b.beginTime) xs) := by
  obtain ⟨h1, h2⟩ := pqPushAll_spec QNode.beginTime EarliestFirst earliestFirst_key xs []
    (isHeap_nil _)
  obtain ⟨s1, s2⟩ := pqPopAllLoop_spec QNode.beginTime EarliestFirst earliestFirst_key
    (pqPushAll EarliestFirst [] xs).length _ h1 (le_refl _)
  have hperm : (pqPopAll EarliestFirst (pqPushAll EarliestFirst [] xs)).Perm xs := by
    have := s2.trans h2
    simpa using this
  refine ⟨hperm, s1, ?_⟩
  intro hd
  have hs : List.Pairwise (fun a b : QNode => a.beginTime ≤ b.beginTime)
      (List.insertionSort (fun a b : QNode => a.beginTime ≤ b.beginTime) xs) := by
    have : IsTotal QNode (fun a b : QNode => a.beginTime ≤ b.beginTime) :=
      ⟨fun a b => le_total _ _⟩
    have : IsTrans QNode (fun a b : QNode => a.beginTime ≤ b.beginTime) :=
      ⟨fun a b c => le_trans⟩
    exact List.sorted_insertionSort _ xs
  have hp2 := List.perm_insertionSort (fun a b : QNode => a.beginTime ≤ b.beginTime) xs
  refine List.Perm.eq_of_sorted ?_ s1 hs (hperm.trans hp2.symm)
  intro a b ha hb hab hba
  have ha2 : a ∈ xs := hperm.subset ha
  have hb2 : b ∈ xs := hp2.subset hb
  by_contra hne
  have hte : a.beginTime = b.beginTime := le_antisymm hab hba
  have := List.Pairwise.forall_of_forall_of_flip (l := xs)
    (R := fun a b : QNode => a ≠ b → a.beginTime ≠ b.beginTime)
    (by intro x _ h; exact absurd rfl h)
    (List.Pairwise.imp (R := fun a b : QNode => a.beginTime ≠ b.beginTime)
      (S := fun a b : QNode => a ≠ b → a.beginTime ≠ b.beginTime) (fun h _ => h) hd)
    (List.Pairwise.imp (R := fun a b : QNode => a.beginTime ≠ b.beginTime)
      (S := flip (fun a b : QNode => a ≠ b → a.beginTime ≠ b.beginTime))
      (fun h _ => fun e => h e.symm) hd)
  exact this ha2 hb2 hne hte

/-! ## The occupancy field -/

theorem any_radius_iff (t : SelfLimitingPolygonTree) (node : QNode) :
    (transform t.polygon node.globalTransform).any
      (fun p => decide (p.dot p > t.maxRadius * t.maxRadius)) = false ↔ radiusOK t node := by
  unfold radiusOK
  rw [← Bool.not_eq_true, List.any_eq_true]
  constructor
  · intro h p hp
    by_contra hc
    exact h ⟨p, hp, by simpa using hc⟩
  · rintro h ⟨p, hp, hgt⟩
    have := h p hp
    simp at hgt
    exact absurd this (not_le.mpr hgt)

theorem inter_eq_iff (m : Mat1b) (r : Rect) : m.rect.inter r = r ↔ insideGrid m r := by
  unfold insideGrid Rect.inter Mat1b.rect Rect.zero
  obtain ⟨x, y, w, h⟩ := r
  simp only []
  constructor
  · intro hh
    split_ifs at hh with hc
    · left; exact hh.symm
    · right
      simp only [Rect.mk.injEq] at hh
      obtain ⟨h1, h2, h3, h4⟩ := hh
      push_neg at hc
      omega
  · rintro (hh | hh)
    · simp only [Rect.mk.injEq] at hh
      obtain ⟨rfl, rfl, rfl, rfl⟩ := hh
      simp
    · have hc : ¬ (min (0 + m.cols) (x + w) - max 0 x ≤ 0 ∨ min (0 + m.rows) (y + h) - max 0 y ≤ 0) := by
        omega
      rw [if_neg hc]
      simp only [Rect.mk.injEq]
      omega

theorem drawField_cases (R : Raster) (t : SelfLimitingPolygonTree) (node : QNode) :
    (¬ radiusOK t node ∧ drawField R t node = (false, t)) ∨
    (radiusOK t node ∧ ¬ insideGrid t.m_field (nodeRect t node) ∧
      drawField R t node = (false, { t with m_fieldLayerBoundingRect := nodeRect t node })) ∨
    (radiusOK t node ∧ insideGrid t.m_field (nodeRect t node) ∧
      drawField R t node = (true,
        { t with m_fieldLayerBoundingRect := nodeRect t node
                 m_fieldLayer :=
                   paint R t.m_fieldLayer (nodeRect t node) (fieldPoints t node) })) := by
  by_cases h : (transform t.polygon node.globalTransform).any
      (fun p => decide (p.dot p > t.maxRadius * t.maxRadius)) = true
  · left
    refine ⟨?_, ?_⟩
    · rw [← any_radius_iff]; simp [h]
    · unfold drawField; rw [if_pos h]
  · right
    have hr : radiusOK t node := by
      rw [← any_radius_iff]; simpa using h
    by_cases h2 : t.m_field.rect.inter (nodeRect t node) = nodeRect t node
    · right
      refine ⟨hr, (inter_eq_iff _ _).mp h2, ?_⟩
      unfold drawField
      rw [if_neg h]
      simp only []
      rw [if_neg (by simpa [nodeRect] using h2)]
      rfl
    · left
      refine ⟨hr, fun hi => h2 ((inter_eq_iff _ _).mpr hi), ?_⟩
      unfold drawField
      rw [if_neg h]
      simp only []
      rw [if_pos (by simpa [nodeRect] using h2)]
      rfl

theorem drawField_fst (R : Raster) (t : SelfLimitingPolygonTree) (node : QNode) :
    (drawField R t node).1 = true ↔ radiusOK t node ∧ insideGrid t.m_field (nodeRect t node) := by
  rcases drawField_cases R t node with ⟨h1, h2⟩ | ⟨h1, h2, h3⟩ | ⟨h1, h2, h3⟩
  · rw [h2]; simp [h1]
  · rw [h3]; simp [h2]
  · rw [h3]; simp [h1, h2]

theorem drawField_ok (R : Raster) (t : SelfLimitingPolygonTree) (node : QNode)
    (h : (drawField R t node).1 = true) :
    (drawField R t node).2 =
      { t with m_fieldLayerBoundingRect := nodeRect t node
               m_fieldLayer := paint R t.m_fieldLayer (nodeRect t node) (fieldPoints t node) } := by
  rcases drawField_cases R t node with ⟨h1, h2⟩ | ⟨h1, h2, h3⟩ | ⟨h1, h2, h3⟩
  · rw [h2] at h; simp at h
  · rw [h3] at h; simp at h
  · rw [h3]

theorem drawField_field (R : Raster) (t : SelfLimitingPolygonTree) (node : QNode) :
    (drawField R t node).2.m_field = t.m_field := by
  rcases drawField_cases R t node with ⟨_, h2⟩ | ⟨_, _, h3⟩ | ⟨_, _, h3⟩
  · rw [h2]
  · rw [h3]
  · rw [h3]

theorem bv_disjoint_of_sub (a f b : BitVec 8) (h1 : a &&& f = a) (h2 : f &&& b = 0) :
    a &&& b = 0 := by
  have e : a &&& b = a &&& (f &&& b) := by
    rw [← BitVec.and_assoc, h1]
  rw [e, h2]
  exact BitVec.and_zero

theorem bv_sub_or (a f b : BitVec 8) (h1 : a &&& f = a) : a &&& (f ||| b) = a := by
  apply BitVec.eq_of_getLsbD_eq
  intro i
  have := congrArg (fun v => v.getLsbD i) h1
  simp only [BitVec.getLsbD_and] at this
  simp only [BitVec.getLsbD_and, BitVec.getLsbD_or]
  revert this
  cases a.getLsbD i <;> cases f.getLsbD i <;> cases b.getLsbD i <;> simp

theorem bv_self_sub_or (f b : BitVec 8) : b &&& (f ||| b) = b := by
  apply BitVec.eq_of_getLsbD_eq
  intro i
  simp only [BitVec.getLsbD_and, BitVec.getLsbD_or]
  cases f.getLsbD i <;> cases b.getLsbD i <;> simp

theorem bv_sub_and_not (a f b : BitVec 8) (h1 : a &&& f = a) (h2 : a &&& b = 0) :
    a &&& (f &&& ~~~ b) = a := by
  apply BitVec.eq_of_getLsbD_eq
  intro i
  have e1 := congrArg (fun v => v.getLsbD i) h1
  have e2 := congrArg (fun v => v.getLsbD i) h2
  simp only [BitVec.getLsbD_and, BitVec.getLsbD_zero] at e1 e2
  simp only [BitVec.getLsbD_and, BitVec.getLsbD_not]
  have hi : decide ((i : Nat) < 8) = true := by simp
  rw [hi]
  revert e1 e2
  cases a.getLsbD i <;> cases f.getLsbD i <;> cases b.getLsbD i <;> simp

theorem bv_or_and_not (f l : BitVec 8) (h : f &&& l = 0) : (f ||| l) &&& ~~~ l = f := by
  apply BitVec.eq_of_getLsbD_eq
  intro i
  have e1 := congrArg (fun v => v.getLsbD i) h
  simp only [BitVec.getLsbD_and, BitVec.getLsbD_zero] at e1
  simp only [BitVec.getLsbD_and, BitVec.getLsbD_not, BitVec.getLsbD_or]
  have hi : decide ((i : Nat) < 8) = true := by simp
  rw [hi]
  revert e1
  cases f.getLsbD i <;> cases l.getLsbD i <;> simp

theorem bv_or_ne_zero (f l : BitVec 8) (h : f ≠ 0) : f ||| l ≠ 0 := by
  intro e
  apply h
  apply BitVec.eq_of_getLsbD_eq
  intro i
  have e1 := congrArg (fun v => v.getLsbD i) e
  simp only [BitVec.getLsbD_or, BitVec.getLsbD_zero] at e1
  revert e1
  cases f.getLsbD i <;> simp

theorem mem_cells (r : Rect) (x y : Int) : (x, y) ∈ r.cells ↔ r.contains x y = true := by
  unfold Rect.cells Rect.contains
  constructor
  · intro h
    rw [List.mem_flatMap] at h
    obtain ⟨dy, hdy, h2⟩ := h
    rw [List.mem_map] at h2
    obtain ⟨dx, hdx, e⟩ := h2
    rw [List.mem_range] at hdy hdx
    simp only [Prod.mk.injEq] at e
    obtain ⟨rfl, rfl⟩ := e
    simp only [decide_eq_true_eq, Int.ofNat_eq_coe]
    omega
  · intro h
    simp only [decide_eq_true_eq] at h
    rw [List.mem_flatMap]
    refine ⟨(y - r.y).toNat, List.mem_range.mpr (by omega), ?_⟩
    rw [List.mem_map]
    refine ⟨(x - r.x).toNat, List.mem_range.mpr (by omega), ?_⟩
    simp only [Prod.mk.injEq, Int.ofNat_eq_coe]
    omega

theorem countNonZeroAnd_eq_zero (a b : Mat1b) (r : Rect) :
    countNonZeroAnd a b r = 0 ↔ ∀ x y, r.contains x y = true → a.px x y &&& b.px x y = 0 := by
  unfold countNonZeroAnd
  rw [List.countP_eq_zero]
  constructor
  · intro h x y hc
    have := h (x, y) ((mem_cells r x y).mpr hc)
    simpa using this
  · intro h c hc
    have := h c.1 c.2 ((mem_cells r c.1 c.2).mp hc)
    simpa using this

theorem isViable_field (R : Raster) (t : SelfLimitingPolygonTree) (node : QNode) :
    (isViable R t node).2.m_field = t.m_field := by
  unfold isViable
  simp only []
  split_ifs
  · rfl
  · rfl
  · exact drawField_field R t node
  · exact drawField_field R t node

theorem isViable_true (R : Raster) (t : SelfLimitingPolygonTree) (node : QNode) :
    (isViable R t node).1 = true ↔
      (node.not = false ∧ ¬ |node.det| < t.minimumScale * t.minimumScale) ∧
      (drawField R t node).1 = true ∧
      ∀ x y, (drawField R t node).2.m_fieldLayerBoundingRect.contains x y = true →
        t.m_field.px x y &&& (drawField R t node).2.m_fieldLayer.px x y = 0 := by
  rw [← drawField_field R t node, ← countNonZeroAnd_eq_zero]
  unfold isViable
  by_cases h1 : node.not = true
  · simp [h1]
  · by_cases h2 : |node.det| < t.minimumScale * t.minimumScale
    · simp [h1, h2]
    · by_cases h3 : (drawField R t node).1 = true
      · simp [h1, h2, h3]
      · simp [h1, h2, h3]

theorem isViable_snd (R : Raster) (t : SelfLimitingPolygonTree) (node : QNode)
    (h : (isViable R t node).1 = true) : (isViable R t node).2 = (drawField R t node).2 := by
  have h' := (isViable_true R t node).mp h
  unfold isViable
  rw [if_neg (by simp [h'.1.1]), if_neg h'.1.2]
  simp [h'.2.1]

/-- C2. A node whose `globalTransform` has `|det| < minimumScale²` is never viable, whatever
the committed field, the scratch layer, the polygon and `maxRadius` are. -/
theorem degenerate_not_viable (R : Raster) (t : SelfLimitingPolygonTree) (node : QNode)
    (h : |node.det| < t.minimumScale * t.minimumScale) : (isViable R t node).1 = false := by
  rw [← Bool.not_eq_true, isViable_true]
  intro hh
  exact hh.1.2 h

/-- C3. `isViable` is true exactly when the node is not degenerate (it passes the non-zero
test of `qnode` and `|det|` is at least `minimumScale²`), `drawField` succeeds, and the
bitwise AND of the committed field and the scratch layer has no non-zero cell in the last
bounding box; and `drawField` succeeds exactly when every transformed vertex is within
`maxRadius` and the integer bounding box lies inside the field. -/
theorem viability_composition (R : Raster) (t : SelfLimitingPolygonTree) (node : QNode) :
    ((isViable R t node).1 = true ↔
      (1 / 100000 < |node.det| ∧ t.minimumScale * t.minimumScale ≤ |node.det|) ∧
      (drawField R t node).1 = true ∧
      ∀ x y, (drawField R t node).2.m_fieldLayerBoundingRect.contains x y = true →
        t.m_field.px x y &&& (drawField R t node).2.m_fieldLayer.px x y = 0) ∧
    ((drawField R t node).1 = true ↔
      (∀ p ∈ transform t.polygon node.globalTransform, p.dot p ≤ t.maxRadius * t.maxRadius) ∧
      insideGrid t.m_field (boundingRect (fieldPoints t node))) := by
  refine ⟨?_, drawField_fst R t node⟩
  rw [isViable_true]
  have e : (node.not = false ∧ ¬ |node.det| < t.minimumScale * t.minimumScale) ↔
      (1 / 100000 < |node.det| ∧ t.minimumScale * t.minimumScale ≤ |node.det|) := by
    unfold QNode.not
    simp
  rw [e]

/-! ## Commit and retract -/

theorem countNonZero_mono (a b : Mat1b) (hr : a.rows = b.rows) (hc : a.cols = b.cols)
    (h : ∀ x y, a.px x y ≠ 0 → b.px x y ≠ 0) : countNonZero a ≤ countNonZero b := by
  unfold countNonZero
  have e : b.rect = a.rect := by simp [Mat1b.rect, hr, hc]
  rw [e]
  apply List.countP_mono_left
  intro c _ hc
  simp only [ne_eq, decide_eq_true_eq, decide_not, Bool.not_eq_true', decide_eq_false_iff_not] at hc ⊢
  exact h c.1 c.2 hc

/-- C4. `isViable`, `drawField` and `regrowAll` leave the committed field as it is, also
when the node is rejected; `addNode` keeps the size of the field and changes it only inside
the last bounding box, to the bitwise OR of its old value and the scratch layer, so every
set cell stays set and the count of set cells does not decrease. -/
theorem committed_field_monotone (U : Util) (R : Raster) (t : SelfLimitingPolygonTree)
    (node : QNode) :
    (isViable R t node).2.m_field = t.m_field ∧
    (drawField R t node).2.m_field = t.m_field ∧
    (regrowAll U t).m_field = t.m_field ∧
    (addNode t node).m_field.rows = t.m_field.rows ∧
    (addNode t node).m_field.cols = t.m_field.cols ∧
    (∀ x y, (addNode t node).m_field.px x y =
      if t.m_fieldLayerBoundingRect.contains x y then t.m_field.px x y ||| t.m_fieldLayer.px x y
      else t.m_field.px x y) ∧
    (∀ x y, t.m_field.px x y ≠ 0 → (addNode t node).m_field.px x y ≠ 0) ∧
    countNonZero t.m_field ≤ countNonZero (addNode t node).m_field := by
  have hpx : ∀ x y, (addNode t node).m_field.px x y =
      if t.m_fieldLayerBoundingRect.contains x y then t.m_field.px x y ||| t.m_fieldLayer.px x y
      else t.m_field.px x y := fun _ _ => rfl
  have hmono : ∀ x y, t.m_field.px x y ≠ 0 → (addNode t node).m_field.px x y ≠ 0 := by
    intro x y h
    rw [hpx]
    split_ifs
    · exact bv_or_ne_zero _ _ h
    · exact h
  exact ⟨isViable_field R t node, drawField_field R t node, rfl, rfl, rfl, hpx, hmono,
    countNonZero_mono _ _ rfl rfl hmono⟩

theorem paint_rows (R : Raster) (L : Mat1b) (rect : Rect) (pts : List Point) :
    (paint R L rect pts).rows = L.rows := rfl

theorem paint_cols (R : Raster) (L : Mat1b) (rect : Rect) (pts : List Point) :
    (paint R L rect pts).cols = L.cols := rfl

theorem paint_px_in (R : Raster) (L M : Mat1b) (rect : Rect) (pts : List Point) (x y : Int)
    (hr : L.rows = M.rows) (hc : L.cols = M.cols) (h : rect.contains x y = true) :
    (paint R L rect pts).px x y = (paint R M rect pts).px x y := by
  simp [paint, polylinesAA, polylines8, fillPoly, Mat1b.setRegion, Mat1b.inImage, h, hr, hc]

theorem sameGeom_refl (t : SelfLimitingPolygonTree) : SameGeom t t :=
  ⟨rfl, rfl, rfl, rfl, rfl, rfl, rfl⟩

theorem sameGeom_trans {t u v : SelfLimitingPolygonTree} (h1 : SameGeom t u)
    (h2 : SameGeom u v) : SameGeom t v := by
  obtain ⟨a1, a2, a3, a4, a5, a6, a7⟩ := h1
  obtain ⟨b1, b2, b3, b4, b5, b6, b7⟩ := h2
  exact ⟨a1.trans b1, a2.trans b2, a3.trans b3, a4.trans b4, a5.trans b5, a6.trans b6,
    a7.trans b7⟩

theorem sameGeom_symm {t u : SelfLimitingPolygonTree} (h : SameGeom t u) : SameGeom u t := by
  obtain ⟨a1, a2, a3, a4, a5, a6, a7⟩ := h
  exact ⟨a1.symm, a2.symm, a3.symm, a4.symm, a5.symm, a6.symm, a7.symm⟩

theorem sameGeom_fieldPoints {t u : SelfLimitingPolygonTree} (h : SameGeom t u)
    (node : QNode) : fieldPoints t node = fieldPoints u node := by
  unfold fieldPoints
  rw [h.1, h.2.2.1]

theorem sameGeom_nodeRect {t u : SelfLimitingPolygonTree} (h : SameGeom t u) (node : QNode) :
    nodeRect t node = nodeRect u node := by
  unfold nodeRect
  rw [sameGeom_fieldPoints h]

theorem sameGeom_drawOK {t u : SelfLimitingPolygonTree} (h : SameGeom t u) (R : Raster)
    (node : QNode) : (drawField R t node).1 = (drawField R u node).1 := by
  have e : ((drawField R t node).1 = true) ↔ ((drawField R u node).1 = true) := by
    rw [drawField_fst, drawField_fst, sameGeom_nodeRect h]
    unfold radiusOK insideGrid
    rw [h.1, h.2.1, h.2.2.2.1, h.2.2.2.2.1]
  cases h1 : (drawField R t node).1 <;> cases h2 : (drawField R u node).1 <;> simp_all

theorem sameGeom_drawField (R : Raster) (t : SelfLimitingPolygonTree) (node : QNode) :
    SameGeom t (drawField R t node).2 := by
  rcases drawField_cases R t node with ⟨_, h2⟩ | ⟨_, _, h3⟩ | ⟨_, _, h3⟩
  · rw [h2]; exact sameGeom_refl t
  · rw [h3]; exact ⟨rfl, rfl, rfl, rfl, rfl, rfl, rfl⟩
  · rw [h3]; exact ⟨rfl, rfl, rfl, rfl, rfl, rfl, rfl⟩

theorem footprint_eq (R : Raster) (t : SelfLimitingPolygonTree) (node : QNode)
    (h : (drawField R t node).1 = true) (x y : Int) :
    footprint R t node x y =
      if (nodeRect t node).contains x y then
        (paint R t.m_fieldLayer (nodeRect t node) (fieldPoints t node)).px x y
      else 0 := by
  unfold footprint
  rw [drawField_ok R t node h, h]
  simp

theorem sameGeom_footprint {t u : SelfLimitingPolygonTree} (h : SameGeom t u) (R : Raster)
    (node : QNode) (x y : Int) : footprint R t node x y = footprint R u node x y := by
  have hd := sameGeom_drawOK h R node
  cases h1 : (drawField R t node).1
  · have h2 : (drawField R u node).1 = false := by rw [← hd, h1]
    simp [footprint, h1, h2]
  · have h2 : (drawField R u node).1 = true := by rw [← hd, h1]
    rw [footprint_eq R t node h1, footprint_eq R u node h2, ← sameGeom_nodeRect h,
      ← sameGeom_fieldPoints h]
    split_ifs with hc
    · exact paint_px_in R _ _ _ _ x y h.2.2.2.2.2.1 h.2.2.2.2.2.2 hc
    · rfl

theorem bv_and_255 (v : BitVec 8) : v &&& 255#8 = v := by
  have e : ∀ i : Fin 8, (255#8 : BitVec 8).getLsbD i = true := by decide
  apply BitVec.eq_of_getLsbD_eq
  intro i
  simp [e i]

theorem undrawNode_px (R : Raster) (t : SelfLimitingPolygonTree) (node : QNode)
    (h : (drawField R t node).1 = true) (x y : Int) :
    (undrawNode R t node).m_field.px x y = t.m_field.px x y &&& ~~~ (footprint R t node x y) := by
  rw [footprint_eq R t node h]
  unfold undrawNode
  rw [drawField_ok R t node h]
  simp only [bitwise_and_into, bitwise_not_into]
  split_ifs with hc
  · rfl
  · simp [bv_and_255]

theorem undrawNode_geom (R : Raster) (t : SelfLimitingPolygonTree) (node : QNode) :
    SameGeom t (undrawNode R t node) ∧ (undrawNode R t node).m_nodeList = t.m_nodeList := by
  have h := sameGeom_drawField R t node
  have hl : (drawField R t node).2.m_nodeList = t.m_nodeList := by
    rcases drawField_cases R t node with ⟨_, h2⟩ | ⟨_, _, h3⟩ | ⟨_, _, h3⟩
    · rw [h2]
    · rw [h3]
    · rw [h3]
  unfold undrawNode
  simp only [bitwise_and_into, bitwise_not_into]
  obtain ⟨a1, a2, a3, a4, a5, a6, a7⟩ := h
  exact ⟨⟨a1, a2, a3, a4, a5, a6, a7⟩, hl⟩

theorem viable_drawOK (R : Raster) (t : SelfLimitingPolygonTree) (node : QNode)
    (h : (isViable R t node).1 = true) : (drawField R t node).1 = true :=
  ((isViable_true R t node).mp h).2.1

theorem viable_disjoint (R : Raster) (t : SelfLimitingPolygonTree) (node : QNode)
    (h : (isViable R t node).1 = true) (x y : Int) :
    t.m_field.px x y &&& footprint R t node x y = 0 := by
  have hv := (isViable_true R t node).mp h
  have hd := hv.2.1
  rw [footprint_eq R t node hd]
  split_ifs with hc
  · have := hv.2.2 x y
    rw [drawField_ok R t node hd] at this
    exact this hc
  · exact BitVec.and_zero

theorem addNode_viable (R : Raster) (t : SelfLimitingPolygonTree) (node : QNode)
    (h : (isViable R t node).1 = true) :
    SameGeom t (addNode (isViable R t node).2 node) ∧
    (addNode (isViable R t node).2 node).m_nodeList = t.m_nodeList ++ [node] ∧
    ∀ x y, (addNode (isViable R t node).2 node).m_field.px x y =
      t.m_field.px x y ||| footprint R t node x y := by
  have hd := viable_drawOK R t node h
  rw [isViable_snd R t node h, drawField_ok R t node hd]
  refine ⟨⟨rfl, rfl, rfl, rfl, rfl, rfl, rfl⟩, rfl, ?_⟩
  intro x y
  rw [footprint_eq R t node hd]
  simp only [addNode, bitwise_or_into]
  split_ifs with hc
  · rfl
  · simp

/-- C5. After `isViable(n)` was true on the committed field `F` and `addNode(n)` was
applied, `undrawNode(n)` gives back `F`. On every tree with the same polygon, radius bound
and field geometry, `undrawNode(n)` keeps the size of the field, clears in every cell exactly
the bits of the footprint of `n`, and so leaves every bit pattern in place that is in the
field and shares no bit with that footprint (the cells of the other accepted nodes). -/
theorem retract_undoes_commit (R : Raster) (t : SelfLimitingPolygonTree) (node : QNode)
    (h : (isViable R t node).1 = true) :
    (undrawNode R (addNode (isViable R t node).2 node) node).m_field = t.m_field ∧
    (∀ u, SameGeom t u →
      (undrawNode R u node).m_field.rows = u.m_field.rows ∧
      (undrawNode R u node).m_field.cols = u.m_field.cols ∧
      (∀ x y, (undrawNode R u node).m_field.px x y =
        u.m_field.px x y &&& ~~~ (footprint R t node x y)) ∧
      (∀ (g : BitVec 8) x y, g &&& footprint R t node x y = 0 → g &&& u.m_field.px x y = g →
        g &&& (undrawNode R u node).m_field.px x y = g)) := by
  have hd := viable_drawOK R t node h
  have hgen : ∀ u, SameGeom t u →
      (undrawNode R u node).m_field.rows = u.m_field.rows ∧
      (undrawNode R u node).m_field.cols = u.m_field.cols ∧
      (∀ x y, (undrawNode R u node).m_field.px x y =
        u.m_field.px x y &&& ~~~ (footprint R t node x y)) := by
    intro u hg
    have hdu : (drawField R u node).1 = true := by rw [← sameGeom_drawOK hg]; exact hd
    have hu := (undrawNode_geom R u node).1
    refine ⟨hu.2.2.2.1.symm, hu.2.2.2.2.1.symm, ?_⟩
    intro x y
    rw [undrawNode_px R u node hdu, sameGeom_footprint hg]
  refine ⟨?_, ?_⟩
  · obtain ⟨g1, _, g3⟩ := addNode_viable R t node h
    obtain ⟨r1, r2, r3⟩ := hgen _ g1
    have hpx : (undrawNode R (addNode (isViable R t node).2 node) node).m_field.px =
        t.m_field.px := by
      funext x y
      rw [r3, g3]
      exact bv_or_and_not _ _ (viable_disjoint R t node h x y)
    have hr : (undrawNode R (addNode (isViable R t node).2 node) node).m_field.rows =
        t.m_field.rows := r1.trans g1.2.2.2.1.symm
    have hc : (undrawNode R (addNode (isViable R t node).2 node) node).m_field.cols =
        t.m_field.cols := r2.trans g1.2.2.2.2.1.symm
    generalize (undrawNode R (addNode (isViable R t node).2 node) node).m_field = a
      at hpx hr hc
    obtain ⟨ar, ac, ap⟩ := a
    generalize t.m_field = b at hpx hr hc
    obtain ⟨br, bc, bp⟩ := b
    simp only at hpx hr hc
    subst hpx hr hc
    rfl
  · intro u hg
    obtain ⟨r1, r2, r3⟩ := hgen u hg
    refine ⟨r1, r2, r3, ?_⟩
    intro g x y h1 h2
    rw [r3]
    exact bv_sub_and_not _ _ _ h2 h1

/-! ## Removal -/

theorem findIn_spec (id : Int) (pre post : List QNode) (node : QNode) (hn : node.id = id)
    (hpre : ∀ m ∈ pre, m.id ≠ id) : findIn id (pre ++ node :: post) = pre.length := by
  induction pre with
  | nil => simp [findIn, hn]
  | cons a pre ih =>
    have ha : a.id ≠ id := hpre a (List.mem_cons_self _ _)
    have e : findIn id (a :: (pre ++ node :: post)) = findIn id (pre ++ node :: post) + 1 := by
      simp only [findIn, if_neg ha]
    rw [List.cons_append, e, ih (fun m hm => hpre m (List.mem_cons_of_mem _ hm))]
    rfl

theorem findIn_none (id : Int) (l : List QNode) (h : ∀ m ∈ l, m.id ≠ id) :
    findIn id l = l.length := by
  induction l with
  | nil => rfl
  | cons a l ih =>
    have ha : a.id ≠ id := h a (List.mem_cons_self _ _)
    simp only [findIn, if_neg ha, List.length_cons]
    rw [ih (fun m hm => h m (List.mem_cons_of_mem _ hm))]

theorem removeNode_at (R : Raster) (t : SelfLimitingPolygonTree) (id : Int)
    (pre post : List QNode) (node : QNode) (hl : t.m_nodeList = pre ++ node :: post)
    (hit : (if id ≥ 0 then findNode t id else 0) = pre.length) :
    removeNode R t id =
      if post.isEmpty then .undefined
      else .ok (1, { undrawNode R t node with m_nodeList := pre ++ post }) := by
  unfold removeNode
  simp only []
  rw [hit]
  have hne : ¬ (pre.length = t.m_nodeList.length) := by
    rw [hl]; simp
  rw [if_neg hne]
  have hget : t.m_nodeList[pre.length]? = some node := by
    rw [hl, List.getElem?_append_right (le_refl _)]; simp
  rw [hget]
  simp only []
  rw [(undrawNode_geom R t node).2, hl]
  have he : (pre ++ node :: post).eraseIdx pre.length = pre ++ post := by
    simp [List.eraseIdx_append_of_length_le]
  rw [he]
  cases post with
  | nil => simp
  | cons next rest =>
    have hg : (pre ++ next :: rest)[pre.length]? = some next := by
      rw [List.getElem?_append_right (le_refl _)]; simp
    rw [hg]
    rfl

theorem removeNode_first_of_id (R : Raster) (t : SelfLimitingPolygonTree) (id : Int)
    (hid : 0 ≤ id) (pre post : List QNode) (node : QNode)
    (hl : t.m_nodeList = pre ++ node :: post) (hn : node.id = id)
    (hpre : ∀ m ∈ pre, m.id ≠ id) :
    removeNode R t id =
      if post.isEmpty then .undefined
      else .ok (1, { undrawNode R t node with m_nodeList := pre ++ post }) := by
  apply removeNode_at R t id pre post node hl
  rw [if_pos hid, findNode, hl]
  exact findIn_spec id pre post node hn hpre

theorem removeNode_oldest (R : Raster) (t : SelfLimitingPolygonTree) (id : Int)
    (hid : id < 0) (post : List QNode) (node : QNode) (hl : t.m_nodeList = node :: post) :
    removeNode R t id =
      if post.isEmpty then .undefined
      else .ok (1, { undrawNode R t node with m_nodeList := post }) := by
  have := removeNode_at R t id [] post node (by simpa using hl)
    (by rw [if_neg (by omega)]; rfl)
  simpa using this

theorem removeNode_absent (R : Raster) (t : SelfLimitingPolygonTree) (id : Int)
    (h : (0 ≤ id ∧ ∀ m ∈ t.m_nodeList, m.id ≠ id) ∨ t.m_nodeList = []) :
    removeNode R t id = .ok (0, t) := by
  have hit : (if id ≥ 0 then findNode t id else 0) = t.m_nodeList.length := by
    rcases h with ⟨hid, hno⟩ | hl
    · rw [if_pos hid, findNode, findIn_none id _ hno]
    · rw [findNode, hl]
      simp [findIn]
  unfold removeNode
  simp only []
  rw [hit]
  simp

/-- C10. The call `removeNode(id)` reads `it->id` after `it = m_nodeList.erase(it)`; when the
node it erases is the last of the accepted list (for `id >= 0`: the first node with that id
is the last node; for `id < 0`: the list has one node) that read goes through `end()` and
the call has undefined behaviour, it does not return 1. When another node follows the erased
one, the call returns 1, erases that node alone and keeps every other node in its order; the
committed field is the one `undrawNode` leaves, which for a node that `drawField` can draw
has the size of the old field and, in every cell, the old value with exactly the bits of the
footprint of that node cleared. With no accepted node of that id, or an empty list, the call
returns 0 and leaves the tree as it is. -/
theorem removeNode_last_undefined (R : Raster) (t : SelfLimitingPolygonTree) (id : Int) :
    (0 ≤ id → ∀ pre node, t.m_nodeList = pre ++ [node] → node.id = id →
      (∀ m ∈ pre, m.id ≠ id) → removeNode R t id = .undefined) ∧
    (id < 0 → ∀ node, t.m_nodeList = [node] → removeNode R t id = .undefined) ∧
    (0 ≤ id → ∀ pre node next post, t.m_nodeList = pre ++ node :: next :: post →
      node.id = id → (∀ m ∈ pre, m.id ≠ id) →
      removeNode R t id =
        .ok (1, { undrawNode R t node with m_nodeList := pre ++ next :: post })) ∧
    (id < 0 → ∀ node next rest, t.m_nodeList = node :: next :: rest →
      removeNode R t id =
        .ok (1, { undrawNode R t node with m_nodeList := next :: rest })) ∧
    (∀ node, (drawField R t node).1 = true →
      (undrawNode R t node).m_field.rows = t.m_field.rows ∧
      (undrawNode R t node).m_field.cols = t.m_field.cols ∧
      ∀ x y, (undrawNode R t node).m_field.px x y =
        t.m_field.px x y &&& ~~~ (footprint R t node x y)) ∧
    (0 ≤ id → (∀ m ∈ t.m_nodeList, m.id ≠ id) → removeNode R t id = .ok (0, t)) ∧
    (t.m_nodeList = [] → removeNode R t id = .ok (0, t)) := by
  refine ⟨?_, ?_, ?_, ?_, ?_, ?_, ?_⟩
  · intro hid pre node hl hn hpre
    exact removeNode_first_of_id R t id hid pre [] node hl hn hpre
  · intro hid node hl
    exact removeNode_oldest R t id hid [] node hl
  · intro hid pre node next post hl hn hpre
    exact removeNode_first_of_id R t id hid pre (next :: post) node hl hn hpre
  · intro hid node next rest hl
    exact removeNode_oldest R t id hid (next :: rest) node hl
  · intro node hd
    have hg := (undrawNode_geom R t node).1
    exact ⟨hg.2.2.2.1.symm, hg.2.2.2.2.1.symm, undrawNode_px R t node hd⟩
  · intro hid hno
    exact removeNode_absent R t id (Or.inl ⟨hid, hno⟩)
  · intro hl
    exact removeNode_absent R t id (Or.inr hl)

/-! ## Non-overlap of accepted footprints -/

theorem isViable_geom (R : Raster) (t : SelfLimitingPolygonTree) (node : QNode) :
    SameGeom t (isViable R t node).2 ∧ (isViable R t node).2.m_nodeList = t.m_nodeList := by
  have hl : (drawField R t node).2.m_nodeList = t.m_nodeList := by
    rcases drawField_cases R t node with ⟨_, h2⟩ | ⟨_, _, h3⟩ | ⟨_, _, h3⟩
    · rw [h2]
    · rw [h3]
    · rw [h3]
  unfold isViable
  simp only []
  split_ifs
  · exact ⟨sameGeom_refl t, rfl⟩
  · exact ⟨sameGeom_refl t, rfl⟩
  · exact ⟨sameGeom_drawField R t node, hl⟩
  · exact ⟨sameGeom_drawField R t node, hl⟩

theorem fieldInv_test (R : Raster) (t0 t : SelfLimitingPolygonTree) (node : QNode)
    (h : FieldInv R t0 t) : FieldInv R t0 (isViable R t node).2 := by
  obtain ⟨h1, h2, h3, h4⟩ := h
  obtain ⟨g1, g2⟩ := isViable_geom R t node
  refine ⟨sameGeom_trans h1 g1, ?_, ?_, ?_⟩
  · rw [g2]; exact h2
  · rw [g2, isViable_field]; exact h3
  · rw [g2]; exact h4

theorem fieldInv_accept (R : Raster) (t0 t : SelfLimitingPolygonTree) (node : QNode)
    (h : FieldInv R t0 t) : FieldInv R t0 (processNode R t node) := by
  unfold processNode
  split_ifs with hv
  · obtain ⟨h1, h2, h3, h4⟩ := h
    obtain ⟨g1, g2, g3⟩ := addNode_viable R t node hv
    have hfp : ∀ x y, footprint R t node x y = footprint R t0 node x y :=
      fun x y => (sameGeom_footprint h1 R node x y).symm
    refine ⟨sameGeom_trans h1 g1, ?_, ?_, ?_⟩
    · intro n hn
      rw [g2, List.mem_append, List.mem_singleton] at hn
      rcases hn with hn | rfl
      · exact h2 n hn
      · rw [sameGeom_drawOK h1]; exact viable_drawOK R t n hv
    · intro n hn x y
      rw [g2, List.mem_append, List.mem_singleton] at hn
      rw [g3, hfp]
      rcases hn with hn | rfl
      · exact bv_sub_or _ _ _ (h3 n hn x y)
      · exact bv_self_sub_or _ _
    · rw [g2, List.pairwise_append]
      refine ⟨h4, List.pairwise_singleton _ _, ?_⟩
      intro a ha b hb x y
      rw [List.mem_singleton] at hb
      subst hb
      have := viable_disjoint R t b hv x y
      rw [hfp] at this
      exact bv_disjoint_of_sub _ _ _ (h3 a ha x y) this
  · exact fieldInv_test R t0 t node h

theorem removeNode_cases (R : Raster) (t : SelfLimitingPolygonTree) (id : Int) :
    removeNode R t id = .undefined ∨ removeNode R t id = .ok (0, t) ∨
    ∃ pre node post, t.m_nodeList = pre ++ node :: post ∧
      removeNode R t id = .ok (1, { undrawNode R t node with m_nodeList := pre ++ post }) := by
  by_cases hit : (if id ≥ 0 then findNode t id else 0) < t.m_nodeList.length
  · have hl : t.m_nodeList =
        t.m_nodeList.take (if id ≥ 0 then findNode t id else 0) ++
          t.m_nodeList[(if id ≥ 0 then findNode t id else 0)] ::
            t.m_nodeList.drop ((if id ≥ 0 then findNode t id else 0) + 1) := by
      rw [← List.drop_eq_getElem_cons hit, List.take_append_drop]
    have h := removeNode_at R t id _ _ _ hl
      (by rw [List.length_take]; omega)
    cases hp : t.m_nodeList.drop ((if id ≥ 0 then findNode t id else 0) + 1) with
    | nil =>
      left
      rw [h, hp]
      rfl
    | cons next rest =>
      right; right
      refine ⟨_, _, _, hl, ?_⟩
      rw [h, hp]
      rfl
  · right; left
    unfold removeNode
    simp only []
    generalize (if id ≥ 0 then findNode t id else 0) = it at hit
    split_ifs with h
    · rfl
    · rw [List.getElem?_eq_none (by omega)]

theorem fieldInv_remove (R : Raster) (t0 t : SelfLimitingPolygonTree) (id : Int)
    (h : FieldInv R t0 t) (r : Int × SelfLimitingPolygonTree)
    (hr : removeNode R t id = .ok r) : FieldInv R t0 r.2 := by
  rcases removeNode_cases R t id with hu | h0 | ⟨pre, node, post, hl, h1⟩
  · rw [hu] at hr
    exact Outcome.noConfusion hr
  · rw [h0] at hr
    cases hr
    exact h
  · rw [h1] at hr
    cases hr
    obtain ⟨i1, i2, i3, i4⟩ := h
    have hmem : node ∈ t.m_nodeList := by rw [hl]; simp
    have hd : (drawField R t node).1 = true := by
      rw [← sameGeom_drawOK i1]; exact i2 node hmem
    obtain ⟨u1, _⟩ := undrawNode_geom R t node
    rw [hl, List.pairwise_append, List.pairwise_cons] at i4
    obtain ⟨p1, ⟨p2, p3⟩, p4⟩ := i4
    have hsub : ∀ m ∈ pre ++ post, m ∈ t.m_nodeList := by
      intro m hm
      rw [hl]
      rw [List.mem_append] at hm ⊢
      rcases hm with hm | hm
      · left; exact hm
      · right; exact List.mem_cons_of_mem _ hm
    have hdis : ∀ m ∈ pre ++ post, ∀ x y,
        footprint R t0 m x y &&& footprint R t0 node x y = 0 := by
      intro m hm x y
      rw [List.mem_append] at hm
      rcases hm with hm | hm
      · exact p4 m hm node (List.mem_cons_self _ _) x y
      · rw [BitVec.and_comm]; exact p2 m hm x y
    refine ⟨?_, ?_, ?_, ?_⟩
    · obtain ⟨a1, a2, a3, a4, a5, a6, a7⟩ := sameGeom_trans i1 u1
      exact ⟨a1, a2, a3, a4, a5, a6, a7⟩
    · intro n hn
      exact i2 n (hsub n hn)
    · intro n hn x y
      show footprint R t0 n x y &&& (undrawNode R t node).m_field.px x y = footprint R t0 n x y
      rw [undrawNode_px R t node hd, ← sameGeom_footprint i1]
      exact bv_sub_and_not _ _ _ (i3 n (hsub n hn) x y) (hdis n hn x y)
    · show List.Pairwise _ (pre ++ post)
      rw [List.pairwise_append]
      exact ⟨p1, p3, fun a ha b hb => p4 a ha b (List.mem_cons_of_mem _ hb)⟩

theorem fieldInv_run (R : Raster) (t0 : SelfLimitingPolygonTree) (steps : List Step) :
    ∀ t, FieldInv R t0 t → ∀ u, runSteps R t steps = .ok u → FieldInv R t0 u := by
  induction steps with
  | nil =>
    intro t h u hu
    simp only [runSteps, Outcome.ok.injEq] at hu
    subst hu
    exact h
  | cons s steps ih =>
    intro t h u hu
    cases s with
    | test node => exact ih _ (fieldInv_test R t0 t node h) u hu
    | accept node => exact ih _ (fieldInv_accept R t0 t node h) u hu
    | remove id =>
      simp only [runSteps, Step.apply] at hu
      cases hr : removeNode R t id with
      | ok r =>
        rw [hr] at hu
        exact ih _ (fieldInv_remove R t0 t id h r hr) u hu
      | raised w =>
        rw [hr] at hu
        exact Outcome.noConfusion hu
      | undefined =>
        rw [hr] at hu
        exact Outcome.noConfusion hu

/-- In every run of viability tests, accepted candidates (`addNode` right after `isViable`
was true for that node) and removals that starts from `create()` and in which every call
returns, the footprints of two distinct accepted nodes have no bit in common in any cell:
their bitwise AND is 0 everywhere, for every raster. Every accepted footprint is also
contained, bit by bit, in the committed field. -/
theorem accepted_footprints_bit_disjoint (U : Util) (R : Raster) (t u : SelfLimitingPolygonTree)
    (steps : List Step) (hu : runSteps R (create U t) steps = .ok u) :
    List.Pairwise
      (fun a b => ∀ x y, footprint R u a x y &&& footprint R u b x y = 0) u.m_nodeList ∧
    ∀ n ∈ u.m_nodeList, ∀ x y,
      footprint R u n x y &&& u.m_field.px x y = footprint R u n x y := by
  have h0 : FieldInv R (create U t) (create U t) :=
    ⟨sameGeom_refl _, by intro n hn; simp [create] at hn, by intro n hn; simp [create] at hn,
      by simp [create]⟩
  obtain ⟨h1, _, h3, h4⟩ := fieldInv_run R (create U t) steps _ h0 u hu
  have e : ∀ n x y, footprint R (create U t) n x y = footprint R u n x y :=
    fun n x y => sameGeom_footprint h1 R n x y
  constructor
  · refine h4.imp ?_
    intro a b hab x y
    rw [← e, ← e]
    exact hab x y
  · intro n hn x y
    rw [← e]
    exact h3 n hn x y

/-- Where one of two accepted footprints holds 0 or 255 in a cell, that cell is not non-zero
in both: a cell that `fillPoly` set and no outline touched belongs to one accepted node
only. Whether a cell that the anti-aliased outline left grey can be non-zero in two accepted
footprints depends on the values `cv::polylines` writes. -/
theorem accepted_footprints_binary_disjoint (U : Util) (R : Raster)
    (t u : SelfLimitingPolygonTree) (steps : List Step)
    (hu : runSteps R (create U t) steps = .ok u) :
    List.Pairwise
      (fun a b => ∀ x y,
        (footprint R u a x y = 0 ∨ footprint R u a x y = 255 ∨
          footprint R u b x y = 0 ∨ footprint R u b x y = 255) →
        footprint R u a x y = 0 ∨ footprint R u b x y = 0) u.m_nodeList := by
  refine (accepted_footprints_bit_disjoint U R t u steps hu).1.imp ?_
  intro a b hab x y hbin
  have h := hab x y
  rcases hbin with h0 | h1 | h0 | h1
  · left; exact h0
  · right
    rw [h1, BitVec.and_comm] at h
    exact (bv_and_255 _).symm.trans h
  · right; exact h0
  · left
    rw [h1] at h
    exact (bv_and_255 _).symm.trans h

/-! ## Two squares -/

theorem cvRound_intCast (z : Int) : cvRound (z : ℚ) = z := by
  simp [cvRound]

theorem viable_iff_disjoint (R : Raster) (t : SelfLimitingPolygonTree) (node : QNode) :
    (isViable R t node).1 = true ↔
      (1 / 100000 < |node.det| ∧ t.minimumScale * t.minimumScale ≤ |node.det|) ∧
      (drawField R t node).1 = true ∧
      ∀ x y, t.m_field.px x y &&& footprint R t node x y = 0 := by
  have e : (node.not = false ∧ ¬ |node.det| < t.minimumScale * t.minimumScale) ↔
      (1 / 100000 < |node.det| ∧ t.minimumScale * t.minimumScale ≤ |node.det|) := by
    unfold QNode.not
    simp
  constructor
  · intro h
    have h2 := (isViable_true R t node).mp h
    exact ⟨e.mp h2.1, h2.2.1, viable_disjoint R t node h⟩
  · rintro ⟨h1, h2, h3⟩
    refine (isViable_true R t node).mpr ⟨e.mpr h1, h2, ?_⟩
    intro x y hc
    have := h3 x y
    rw [footprint_eq R t node h2] at this
    rw [drawField_ok R t node h2] at hc ⊢
    simp only at hc ⊢
    rw [if_pos hc] at this
    exact this

theorem squareA_points :
    fieldPoints squareTree squareA = [⟨1, 2⟩, ⟨5, 2⟩, ⟨5, 6⟩, ⟨1, 6⟩] := by
  simp [fieldPoints, squareTree, squareA, create, plainTree, squarePolygon, shiftedNode,
    transform, transformPoint, Matx33.mul, getScaleTranslate, Point2f.toPoint, QNode.ctor]
  norm_num
  simp [cvRound]

theorem squareB_points :
    fieldPoints squareTree squareB = [⟨3, 2⟩, ⟨7, 2⟩, ⟨7, 6⟩, ⟨3, 6⟩] := by
  simp [fieldPoints, squareTree, squareB, create, plainTree, squarePolygon, shiftedNode,
    transform, transformPoint, Matx33.mul, getScaleTranslate, Point2f.toPoint, QNode.ctor]
  norm_num
  simp [cvRound]

theorem squareA_rect : nodeRect squareTree squareA = ⟨1, 2, 5, 5⟩ := by
  rw [nodeRect, squareA_points]
  decide

theorem squareB_rect : nodeRect squareTree squareB = ⟨3, 2, 5, 5⟩ := by
  rw [nodeRect, squareB_points]
  decide

theorem squareTree_field : squareTree.m_field = Mat1b.zeros 8 8 ∧
    squareTree.m_fieldLayer = Mat1b.zeros 8 8 := by
  have e : truncToInt (1 / 2 + (4 : ℚ) * 2 * ((1 : Int) : ℚ)) = 8 := by
    unfold truncToInt
    rw [if_pos (by norm_num)]
    rw [Int.floor_eq_iff]
    norm_num
  simp only [squareTree, create, plainTree, e, and_self]

theorem squareA_drawOK : (drawField boxRaster squareTree squareA).1 = true := by
  rw [drawField_fst, squareA_rect, squareTree_field.1]
  constructor
  · intro p hp
    simp [squareTree, squareA, create, plainTree, squarePolygon, shiftedNode, transform,
      transformPoint, getScaleTranslate, QNode.ctor] at hp
    rcases hp with rfl | rfl | rfl | rfl <;>
      (simp [Point2f.dot, squareTree, create, plainTree]; norm_num)
  · right
    simp [Mat1b.zeros]

theorem squareB_drawOK : (drawField boxRaster squareTree squareB).1 = true := by
  rw [drawField_fst, squareB_rect, squareTree_field.1]
  constructor
  · intro p hp
    simp [squareTree, squareB, create, plainTree, squarePolygon, shiftedNode, transform,
      transformPoint, getScaleTranslate, QNode.ctor] at hp
    rcases hp with rfl | rfl | rfl | rfl <;>
      (simp [Point2f.dot, squareTree, create, plainTree]; norm_num)
  · right
    simp [Mat1b.zeros]

theorem squareA_footprint (x y : Int) :
    footprint boxRaster squareTree squareA x y =
      if 1 < x ∧ x < 5 ∧ 2 < y ∧ y < 6 then 255 else 0 := by
  rw [footprint_eq _ _ _ squareA_drawOK, squareA_rect, squareA_points, squareTree_field.2]
  have hb : boundingRect [⟨1, 2⟩, ⟨5, 2⟩, ⟨5, 6⟩, ⟨1, 6⟩] = ⟨1, 2, 5, 5⟩ := by decide
  simp only [paint, polylinesAA, polylines8, fillPoly, Mat1b.setRegion, Mat1b.inImage,
    boxRaster, Mat1b.zeros, hb, Rect.contains]
  by_cases h : (1 ≤ x ∧ x < 1 + 5 ∧ 2 ≤ y ∧ y < 2 + 5)
  · obtain ⟨h1, h2, h3, h4⟩ := h
    interval_cases x <;> interval_cases y <;> decide
  · have h2 : ¬ (1 < x ∧ x < 5 ∧ 2 < y ∧ y < 6) := by omega
    rw [if_neg (by simp only [decide_eq_true_eq]; exact h), if_neg h2]

theorem square_det (id : Int) (dx : ℚ) :
    (1 : ℚ) / 100000 < |(shiftedNode id dx).det| ∧
      squareTree.minimumScale * squareTree.minimumScale ≤ |(shiftedNode id dx).det| := by
  simp [QNode.det, shiftedNode, getScaleTranslate, QNode.ctor, squareTree, create, plainTree]
  norm_num

theorem squareA_viable : (isViable boxRaster squareTree squareA).1 = true := by
  rw [viable_iff_disjoint]
  refine ⟨square_det 1 (-1), squareA_drawOK, ?_⟩
  intro x y
  rw [squareTree_field.1]
  exact BitVec.zero_and

theorem addNode_viable_minimumScale (R : Raster) (t : SelfLimitingPolygonTree) (node : QNode)
    (h : (isViable R t node).1 = true) :
    (addNode (isViable R t node).2 node).minimumScale = t.minimumScale := by
  rw [isViable_snd R t node h, drawField_ok R t node (viable_drawOK R t node h)]
  rfl

theorem processNode_viable (R : Raster) (t : SelfLimitingPolygonTree) (node : QNode)
    (h : (isViable R t node).1 = true) :
    processNode R t node = addNode (isViable R t node).2 node := by
  unfold processNode
  rw [if_pos h]

theorem removeNode_two_squares :
    removeNode boxRaster { squareTree with m_nodeList := [squareA, squareB] } 2 = .undefined ∧
    removeNode boxRaster { squareTree with m_nodeList := [squareA] } (-1) = .undefined ∧
    removeNode boxRaster { squareTree with m_nodeList := [squareA, squareB] } 1 =
      .ok (1, { undrawNode boxRaster { squareTree with m_nodeList := [squareA, squareB] }
                  squareA with m_nodeList := [squareB] }) := by
  refine ⟨?_, ?_, ?_⟩
  · exact removeNode_first_of_id boxRaster _ 2 (by decide) [squareA] [] squareB rfl rfl
      (by simp [squareA, shiftedNode])
  · exact removeNode_oldest boxRaster _ (-1) (by decide) [] squareA rfl
  · exact removeNode_first_of_id boxRaster _ 1 (by decide) [] [squareB] squareA rfl rfl
      (by simp)

/-! ## Initial state, root and witnesses -/

theorem pqPush_nil (x : QNode) : pqPush EarliestFirst [] x = [x] := by
  simp [pqPush, push_heap, pushHeapAt, pushHeapLoop]

theorem truncToInt_nonneg (q : ℚ) (h : 0 ≤ q) : truncToInt q = ⌊q⌋ := by
  unfold truncToInt
  rw [if_pos h]

theorem createCall_returns (U : Util) (t : SelfLimitingPolygonTree)
    (h0 : 0 ≤ truncToInt (1 / 2 + t.maxRadius * 2 * t.fieldResolution))
    (h1 : truncToInt (1 / 2 + t.maxRadius * 2 * t.fieldResolution) ≤ 2147483647) :
    createCall U t = .ok (create U t) := by
  have hc : castInt (1 / 2 + t.maxRadius * 2 * t.fieldResolution) =
      .ok (truncToInt (1 / 2 + t.maxRadius * 2 * t.fieldResolution)) := by
    unfold castInt
    rw [if_pos ⟨by omega, h1⟩]
  have hm : Mat1b.create (truncToInt (1 / 2 + t.maxRadius * 2 * t.fieldResolution))
      (truncToInt (1 / 2 + t.maxRadius * 2 * t.fieldResolution)) =
      .ok (Mat1b.zeros (truncToInt (1 / 2 + t.maxRadius * 2 * t.fieldResolution))
        (truncToInt (1 / 2 + t.maxRadius * 2 * t.fieldResolution))) := by
    unfold Mat1b.create
    rw [if_pos ⟨h0, h0⟩]
  unfold createCall
  rw [hc]
  simp only [Outcome.bind]
  rw [hm]
  rfl

/-- Outside the sizes that `create()` can make, the call does not return: a side beyond the
range of `int` is undefined behaviour at the cast, and a negative side makes `m_field.create`
throw. -/
theorem createCall_fails (U : Util) (t : SelfLimitingPolygonTree) :
    (2147483647 < truncToInt (1 / 2 + t.maxRadius * 2 * t.fieldResolution) →
      createCall U t = .undefined) ∧
    (truncToInt (1 / 2 + t.maxRadius * 2 * t.fieldResolution) < -2147483648 →
      createCall U t = .undefined) ∧
    (-2147483648 ≤ truncToInt (1 / 2 + t.maxRadius * 2 * t.fieldResolution) →
      truncToInt (1 / 2 + t.maxRadius * 2 * t.fieldResolution) < 0 →
      createCall U t = .raised "cv::Exception") := by
  refine ⟨?_, ?_, ?_⟩
  · intro h
    unfold createCall castInt
    rw [if_neg (by omega)]
    rfl
  · intro h
    unfold createCall castInt
    rw [if_neg (by omega)]
    rfl
  · intro h1 h2
    unfold createCall castInt
    rw [if_pos ⟨h1, by omega⟩]
    simp only [Outcome.bind, Mat1b.create]
    rw [if_neg (by omega)]

/-- C8. Whenever the side `0.5 + 2 * maxRadius * fieldResolution` is not negative and below
`2^31` (the sides that an `int` holds), the call `create()` returns, from any prior state
(`t` is any tree), and then: the pending queue holds exactly one node, the root, with id 0,
`beginTime` 0, generation 0 and colour `rootNodeColor`; the accepted list is empty; the
committed field and the scratch layer are square grids of side
`floor(0.5 + 2 * maxRadius * fieldResolution)` with every cell 0. -/
theorem create_initial_state (U : Util) (t : SelfLimitingPolygonTree)
    (h0 : 0 ≤ 1 / 2 + 2 * t.maxRadius * t.fieldResolution)
    (h1 : 1 / 2 + 2 * t.maxRadius * t.fieldResolution < 2147483648) :
    ∃ u, createCall U t = .ok u ∧
      (∃ root, u.nodeQueue = [root] ∧ root.id = 0 ∧ root.beginTime = 0 ∧
        root.generation = 0 ∧ root.color = t.rootNodeColor) ∧
      u.m_nodeList = [] ∧
      u.m_field.rows = ⌊1 / 2 + 2 * t.maxRadius * t.fieldResolution⌋ ∧
      u.m_field.cols = ⌊1 / 2 + 2 * t.maxRadius * t.fieldResolution⌋ ∧
      u.m_fieldLayer.rows = ⌊1 / 2 + 2 * t.maxRadius * t.fieldResolution⌋ ∧
      u.m_fieldLayer.cols = ⌊1 / 2 + 2 * t.maxRadius * t.fieldResolution⌋ ∧
      (∀ x y, u.m_field.px x y = 0 ∧ u.m_fieldLayer.px x y = 0) ∧
      u = create U t := by
  have e : 1 / 2 + t.maxRadius * 2 * t.fieldResolution =
      1 / 2 + 2 * t.maxRadius * t.fieldResolution := by ring
  have hs : truncToInt (1 / 2 + t.maxRadius * 2 * t.fieldResolution) =
      ⌊1 / 2 + 2 * t.maxRadius * t.fieldResolution⌋ := by
    rw [e, truncToInt_nonneg _ h0]
  have hlo : 0 ≤ ⌊1 / 2 + 2 * t.maxRadius * t.fieldResolution⌋ := Int.floor_nonneg.mpr h0
  have hhi : ⌊1 / 2 + 2 * t.maxRadius * t.fieldResolution⌋ ≤ 2147483647 := by
    have : ⌊1 / 2 + 2 * t.maxRadius * t.fieldResolution⌋ < 2147483648 := by
      rw [Int.floor_lt]
      exact_mod_cast h1
    omega
  refine ⟨create U t, createCall_returns U t (by rw [hs]; exact hlo) (by rw [hs]; exact hhi),
    ⟨createRootNode U t (QNode.ctor 0), pqPush_nil _, rfl, rfl, rfl, rfl⟩, rfl, ?_, ?_, ?_, ?_,
    fun _ _ => ⟨rfl, rfl⟩, rfl⟩
  · exact hs
  · exact hs
  · exact hs
  · exact hs

/-- The root of a base-class tree is centred on the polygon the tree holds: after
`SelfLimitingPolygonTree::create()` (also that of `ScaledPolygonTree` and of `ThornTree`) the
root in the queue has the unit-scale translation by minus the centroid of the polygon. -/
theorem base_root_centred (U : Util) (t : SelfLimitingPolygonTree) :
    (create U t).nodeQueue.map QNode.globalTransform =
      [getScaleTranslate 1 (-(U.centroid (create U t).polygon).x)
        (-(U.centroid (create U t).polygon).y)] ∧
    (ThornTree.create U t).nodeQueue.map QNode.globalTransform =
      [getScaleTranslate 1 (-(U.centroid (ThornTree.create U t).polygon).x)
        (-(U.centroid (ThornTree.create U t).polygon).y)] := by
  have h : (create U t).nodeQueue = [createRootNode U t (QNode.ctor 0)] := pqPush_nil _
  constructor
  · rw [h]; rfl
  · unfold ThornTree.create
    rw [h]; rfl

/-- C9, the code at a failing input. A `TrapezoidTree` that holds the square centred on the
origin when `create()` is called ends with a root whose transform is the translation by
`(0, 0)` (minus the centroid of the square), while the polygon it then holds has its
centroid at `x > 3/4`: the root is not the translation by minus the centroid of the polygon
held, and the world-space polygon of the root is not centred on the origin. -/
theorem trapezoid_root_off_centre :
    (TrapezoidTree.create plainUtil trapezoidLibm (plainTree squarePolygon 10 200)).nodeQueue.map
        QNode.globalTransform = [getScaleTranslate 1 0 0] ∧
    3 / 4 < (plainUtil.centroid
      (TrapezoidTree.create plainUtil trapezoidLibm (plainTree squarePolygon 10 200)).polygon).x ∧
    (TrapezoidTree.create plainUtil trapezoidLibm (plainTree squarePolygon 10 200)).nodeQueue.map
        QNode.globalTransform ≠
      [getScaleTranslate 1
        (-(plainUtil.centroid (TrapezoidTree.create plainUtil trapezoidLibm
          (plainTree squarePolygon 10 200)).polygon).x)
        (-(plainUtil.centroid (TrapezoidTree.create plainUtil trapezoidLibm
          (plainTree squarePolygon 10 200)).polygon).y)] ∧
    3 / 4 < (plainUtil.centroid (transform
      (TrapezoidTree.create plainUtil trapezoidLibm (plainTree squarePolygon 10 200)).polygon
      (getScaleTranslate 1 0 0))).x := by
  have hq : (TrapezoidTree.create plainUtil trapezoidLibm
      (plainTree squarePolygon 10 200)).nodeQueue.map QNode.globalTransform =
      [getScaleTranslate 1 0 0] := by
    have h : (create plainUtil (plainTree squarePolygon 10 200)).nodeQueue =
        [createRootNode plainUtil (plainTree squarePolygon 10 200) (QNode.ctor 0)] :=
      pqPush_nil _
    have e : (TrapezoidTree.create plainUtil trapezoidLibm
        (plainTree squarePolygon 10 200)).nodeQueue =
        (create plainUtil (plainTree squarePolygon 10 200)).nodeQueue := rfl
    rw [e, h]
    simp [createRootNode, plainUtil, meanCentroid, plainTree, squarePolygon]
  have hp : (TrapezoidTree.create plainUtil trapezoidLibm
      (plainTree squarePolygon 10 200)).polygon = TrapezoidTree.polygon trapezoidLibm := rfl
  have hc : (3 : ℚ) / 4 < (plainUtil.centroid (TrapezoidTree.polygon trapezoidLibm)).x := by
    simp [plainUtil, meanCentroid, TrapezoidTree.polygon, trapezoidLibm]
    norm_num
  refine ⟨hq, ?_, ?_, ?_⟩
  · rw [hp]; exact hc
  · rw [hq, hp]
    intro h
    have h2 := congrArg (fun l => l.map Matx33.m02) h
    simp only [List.map, getScaleTranslate] at h2
    have h3 : (0 : ℚ) = -(plainUtil.centroid (TrapezoidTree.polygon trapezoidLibm)).x :=
      List.head_eq_of_cons_eq h2
    linarith
  · rw [hp]
    simp [plainUtil, meanCentroid, TrapezoidTree.polygon, trapezoidLibm, transform,
      transformPoint, getScaleTranslate]
    norm_num

/-- C2, witness: the node scaled by 1/200 in the tree of the squares. -/
theorem degenerate_not_viable_witness :
    |tinyNode.det| < squareTree.minimumScale * squareTree.minimumScale ∧
    (1 : ℚ) / 100000 < |tinyNode.det| ∧
    (isViable boxRaster squareTree tinyNode).1 = false :=
  have h : |tinyNode.det| < squareTree.minimumScale * squareTree.minimumScale := by
    simp [tinyNode, QNode.det, getScaleTranslate, QNode.ctor, squareTree, create, plainTree]
    norm_num [abs_of_pos]
  ⟨h, by
      simp [tinyNode, QNode.det, getScaleTranslate, QNode.ctor]
      norm_num [abs_of_pos],
    degenerate_not_viable boxRaster squareTree tinyNode h⟩

/-- C5, witness: the first square, accepted on the empty field and then retracted. -/
theorem retract_undoes_commit_witness :
    (isViable boxRaster squareTree squareA).1 = true ∧
    (undrawNode boxRaster (addNode (isViable boxRaster squareTree squareA).2 squareA)
      squareA).m_field = squareTree.m_field :=
  ⟨squareA_viable, (retract_undoes_commit boxRaster squareTree squareA squareA_viable).1⟩

/-- C7, witness of the amended claim: two nodes with distinct `beginTime` values, the later
one pushed first, are popped in the order of the stable sort. -/
theorem pop_order_sorted_permutation_witness :
    pqPopAll EarliestFirst (pqPushAll EarliestFirst [] [QNode.ctor 2, QNode.ctor 1]) =
      List.insertionSort (fun a b : QNode => a.beginTime ≤ b.beginTime)
        [QNode.ctor 2, QNode.ctor 1] :=
  (pop_order_sorted_permutation [QNode.ctor 2, QNode.ctor 1]).2.2 (by simp [QNode.ctor])

/-- C8, witness: radius bound 4 and one cell per unit; `create()` returns with grids of
side 8. -/
theorem create_initial_state_witness :
    (0 : ℚ) ≤ 1 / 2 + 2 * (plainTree squarePolygon 4 1).maxRadius
      * (plainTree squarePolygon 4 1).fieldResolution ∧
    ∃ u, createCall plainUtil (plainTree squarePolygon 4 1) = .ok u ∧
      u.m_field.rows = 8 ∧ u.m_nodeList = [] := by
  have h0 : (0 : ℚ) ≤ 1 / 2 + 2 * (plainTree squarePolygon 4 1).maxRadius
      * (plainTree squarePolygon 4 1).fieldResolution := by
    simp [plainTree]; norm_num
  have h1 : 1 / 2 + 2 * (plainTree squarePolygon 4 1).maxRadius
      * (plainTree squarePolygon 4 1).fieldResolution < (2147483648 : ℚ) := by
    simp [plainTree]; norm_num
  obtain ⟨u, hu, _, hl, hr, _⟩ := create_initial_state plainUtil (plainTree squarePolygon 4 1)
    h0 h1
  refine ⟨h0, u, hu, ?_, hl⟩
  rw [hr, Int.floor_eq_iff]
  simp [plainTree]
  norm_num

/-! ## Re-grow and the scratch bounding box -/

theorem pushHeapLoop_perm {α : Type} (comp : α → α → Bool) (v : α) (top : Nat) :
    ∀ (fuel : Nat) (l : List α) (k : Nat), k < l.length →
      (pushHeapLoop comp v top fuel l k).Perm (l.set k v) := by
  intro fuel
  induction fuel with
  | zero => intro l k _; exact List.Perm.refl _
  | succ fuel ih =>
    intro l k hk
    unfold pushHeapLoop
    simp only []
    split_ifs with hc
    · simp only [Bool.and_eq_true, decide_eq_true_eq] at hc
      have hp : (k - 1) / 2 < l.length := by omega
      have hpk : (k - 1) / 2 ≠ k := by omega
      refine (ih _ _ (by simpa using hp)).trans ?_
      exact perm_set_swap l _ k v v hp hk hpk
    · exact List.Perm.refl _

theorem pqPush_perm {α : Type} (comp : α → α → Bool) (q : List α) (x : α) :
    (pqPush comp q x).Perm (q ++ [x]) := by
  unfold pqPush push_heap
  have hl : (q ++ [x]).getLast? = some x := by simp
  rw [hl]
  simp only [pushHeapAt]
  refine (pushHeapLoop_perm comp x 0 _ _ _ (by simp)).trans ?_
  have : (q ++ [x]).set ((q ++ [x]).length - 1) x = q ++ [x] := by
    simp [List.set_append]
  rw [this]

theorem regrowNode_perm (U : Util) (transforms : List QTransform) (node : QNode) :
    ∀ queue : List QNode, (regrowNode U transforms queue node).Perm
      (queue ++ transforms.map fun tr => beget U node tr (QNode.ctor 0)) := by
  unfold regrowNode
  induction transforms with
  | nil => intro queue; simp
  | cons tr rest ih =>
    intro queue
    simp only [List.foldl_cons, List.map_cons]
    refine (ih _).trans ?_
    have := pqPush_perm EarliestFirst queue (beget U node tr (QNode.ctor 0))
    refine (List.Perm.append_right _ this).trans ?_
    simp

theorem regrowFold_perm (U : Util) (transforms : List QTransform) (nodes : List QNode) :
    ∀ queue : List QNode, (nodes.foldl (regrowNode U transforms) queue).Perm
      (queue ++ nodes.flatMap fun n => transforms.map fun tr => beget U n tr (QNode.ctor 0)) := by
  induction nodes with
  | nil => intro queue; simp
  | cons n rest ih =>
    intro queue
    simp only [List.foldl_cons, List.flatMap_cons]
    refine (ih _).trans ?_
    refine (List.Perm.append_right _ (regrowNode_perm U transforms n queue)).trans ?_
    simp

/-- C11. `regrowAll` leaves in the pending queue the nodes that were pending and, once each,
the child `beget(n, t)` of every pair of an accepted node `n` and a transform `t`
(`|accepted list| * |transforms|` more nodes); it leaves the accepted list, the committed
field, the scratch layer and the last bounding box as they were (no viability test runs). -/
theorem regrowAll_pushes_all_children (U : Util) (t : SelfLimitingPolygonTree) :
    (regrowAll U t).nodeQueue.Perm (t.nodeQueue ++ regrowChildren U t) ∧
    (regrowAll U t).nodeQueue.length =
      t.nodeQueue.length + t.m_nodeList.length * t.transforms.length ∧
    (regrowAll U t).m_nodeList = t.m_nodeList ∧
    (regrowAll U t).m_field = t.m_field ∧
    (regrowAll U t).m_fieldLayer = t.m_fieldLayer ∧
    (regrowAll U t).m_fieldLayerBoundingRect = t.m_fieldLayerBoundingRect := by
  have hp : (regrowAll U t).nodeQueue.Perm (t.nodeQueue ++ regrowChildren U t) :=
    regrowFold_perm U t.transforms t.m_nodeList t.nodeQueue
  refine ⟨hp, ?_, rfl, rfl, rfl, rfl⟩
  rw [hp.length_eq, List.length_append]
  congr 1
  unfold regrowChildren
  generalize t.m_nodeList = nodes
  induction nodes with
  | nil => simp
  | cons n rest ih =>
    simp only [List.flatMap_cons, List.length_append, List.length_map, List.length_cons, ih]
    ring

/-- C15. When `drawField` returns true, every cell of the last bounding box is a cell of
the committed field, and of the scratch layer when the two grids have the same size; when
`drawField` fails at the radius test, the tree (scratch layer and last bounding box
included) is as before the call. -/
theorem scratch_rect_inside_field (R : Raster) (t : SelfLimitingPolygonTree) (node : QNode) :
    ((drawField R t node).1 = true →
      insideGrid t.m_field (drawField R t node).2.m_fieldLayerBoundingRect ∧
      (∀ x y, (drawField R t node).2.m_fieldLayerBoundingRect.contains x y = true →
        t.m_field.inImage x y = true) ∧
      (t.m_fieldLayer.rows = t.m_field.rows → t.m_fieldLayer.cols = t.m_field.cols →
        ∀ x y, (drawField R t node).2.m_fieldLayerBoundingRect.contains x y = true →
          (drawField R t node).2.m_fieldLayer.inImage x y = true)) ∧
    (¬ radiusOK t node → drawField R t node = (false, t)) := by
  constructor
  · intro h
    have hr : (drawField R t node).2.m_fieldLayerBoundingRect = nodeRect t node := by
      rw [drawField_ok R t node h]
    have hi := ((drawField_fst R t node).mp h).2
    have hl : (drawField R t node).2.m_fieldLayer.rows = t.m_fieldLayer.rows ∧
        (drawField R t node).2.m_fieldLayer.cols = t.m_fieldLayer.cols := by
      rw [drawField_ok R t node h]
      exact ⟨rfl, rfl⟩
    rw [hr]
    have hin : ∀ x y, (nodeRect t node).contains x y = true → t.m_field.inImage x y = true := by
      intro x y hc
      simp only [Rect.contains, decide_eq_true_eq] at hc
      simp only [Mat1b.inImage, decide_eq_true_eq]
      rcases hi with hz | hz
      · rw [hz] at hc
        simp only [Rect.zero] at hc
        omega
      · omega
    refine ⟨hi, hin, ?_⟩
    intro e1 e2 x y hc
    have := hin x y hc
    simp only [Mat1b.inImage, decide_eq_true_eq] at this ⊢
    rw [hl.1, hl.2, e1, e2]
    exact this
  · intro h
    rcases drawField_cases R t node with ⟨_, h2⟩ | ⟨h1, _, _⟩ | ⟨h1, _, _⟩
    · exact h2
    · exact absurd h1 h
    · exact absurd h1 h

/-- C15, witness: `drawField` succeeds on the first square, whose bounding box lies in the
8 by 8 field. -/
theorem scratch_rect_inside_field_witness :
    (drawField boxRaster squareTree squareA).1 = true ∧
    insideGrid squareTree.m_field
      (drawField boxRaster squareTree squareA).2.m_fieldLayerBoundingRect :=
  ⟨squareA_drawOK,
    ((scratch_rect_inside_field boxRaster squareTree squareA).1 squareA_drawOK).1⟩

/-! ## Seeds, gestations and polygon settings -/

theorem allDraws_next {P : ℚ → Prop} {p : Prng} (h : AllDraws P p) : AllDraws P p.next :=
  fun i => h (i + 1)

theorem allDraws_r {P : ℚ → Prop} {p : Prng} (h : AllDraws P p) (m : ℚ) :
    AllDraws P (p.r m).2 := allDraws_next h

theorem allDraws_rInt {P : ℚ → Prop} {p : Prng} (h : AllDraws P p) (m : Int) :
    AllDraws P (p.rInt m).2 := allDraws_next h

theorem allDraws_paletteEntry {P : ℚ → Prop} {p : Prng} (S : Shapes) (h : AllDraws P p) :
    AllDraws P (paletteEntry S p).2 :=
  allDraws_next (allDraws_next (allDraws_next h))

theorem randomizeLoop_spec {P : ℚ → Prop} (palette : List Matx44) :
    ∀ (l : List QTransform) (p : Prng), AllDraws P p →
      AllDraws P (randomizeLoop 3 palette p l).2 ∧
      ∀ tr ∈ (randomizeLoop 3 palette p l).1, ∃ u, P u ∧ tr.gestation = 1 + 10 * u := by
  intro l
  induction l with
  | nil =>
    intro p h
    exact ⟨h, by intro tr htr; simp [randomizeLoop] at htr⟩
  | cons t rest ih =>
    intro p h
    have h0 : Nat.testBit 3 0 = true := by decide
    have h1 : Nat.testBit 3 1 = true := by decide
    unfold randomizeLoop
    simp only [h0, h1, if_true]
    have hp2 : AllDraws P ((p.rInt palette.length).2.r 10).2 :=
      allDraws_r (allDraws_rInt h _) _
    obtain ⟨i1, i2⟩ := ih _ hp2
    refine ⟨i1, ?_⟩
    intro tr htr
    rw [List.mem_cons] at htr
    rcases htr with rfl | htr
    · exact ⟨(p.rInt palette.length).2.draws 0, allDraws_rInt h _ 0, rfl⟩
    · exact i2 tr htr

theorem randomizeTransforms_spec {P : ℚ → Prop} (S : Shapes) (t : SelfLimitingPolygonTree)
    (h : AllDraws P t.prng) :
    AllDraws P (randomizeTransforms S t 3).prng ∧
    ∀ tr ∈ (randomizeTransforms S t 3).transforms, ∃ u, P u ∧ tr.gestation = 1 + 10 * u := by
  have h0 : Nat.testBit 3 0 = true := by decide
  unfold randomizeTransforms
  simp only [h0, if_true]
  exact randomizeLoop_spec _ _ _
    (allDraws_paletteEntry S (allDraws_paletteEntry S (allDraws_paletteEntry S h)))

theorem setRandomSeedCore_draws {P : ℚ → Prop} (S : Shapes) (t : SelfLimitingPolygonTree)
    (seed : Int) (h : AllDraws P (S.seed seed)) :
    AllDraws P (setRandomSeedCore S t seed).prng := by
  have e : (setRandomSeedCore S t seed).prng =
      if seed ≠ 0 then (S.seed seed).next else S.seed seed := by
    unfold setRandomSeedCore
    by_cases hs : seed ≠ 0
    · simp only [hs, if_true, ne_eq, not_false_eq_true, Prng.r]
    · simp only [hs, if_false]
  rw [e]
  split_ifs
  · exact allDraws_next h
  · exact h

theorem setRandomSeed_spec {P : ℚ → Prop} (S : Shapes) (t : SelfLimitingPolygonTree)
    (seed : Int) (h : AllDraws P (S.seed seed)) :
    AllDraws P (setRandomSeed S t seed).prng ∧
    ∀ tr ∈ (setRandomSeed S t seed).transforms, ∃ u, P u ∧ tr.gestation = 1 + 10 * u :=
  randomizeTransforms_spec S _ (setRandomSeedCore_draws S t seed h)

theorem scaled_setRandomSeed_spec {P : ℚ → Prop} (S : Shapes) (t : ScaledPolygonTree)
    (seed : Int) (h : AllDraws P (S.seed seed)) :
    ∀ tr ∈ (ScaledPolygonTree.setRandomSeed S t seed).transforms,
      ∃ u, P u ∧ tr.gestation = 1 + 10 * u := by
  have hb := (setRandomSeed_spec S t.toSelfLimitingPolygonTree seed h).1
  unfold ScaledPolygonTree.setRandomSeed
  simp only []
  exact (randomizeTransforms_spec S _ (allDraws_rInt hb 2)).2

theorem thornFold_draws {P : ℚ → Prop} (S : Shapes) (polygon : List Point2f)
    (pairs : List (Nat × Nat)) :
    ∀ acc : List QTransform × Prng, AllDraws P acc.2 →
      AllDraws P (pairs.foldl (thornStep S polygon) acc).2 := by
  induction pairs with
  | nil => intro acc h; exact h
  | cons ij rest ih =>
    intro acc h
    simp only [List.foldl_cons]
    apply ih
    unfold thornStep
    exact allDraws_rInt (allDraws_rInt h 20) 20

theorem thorn_setRandomSeed_spec {P : ℚ → Prop} (S : Shapes) (t : SelfLimitingPolygonTree)
    (seed : Int) (h : AllDraws P (S.seed seed)) :
    ∀ tr ∈ (ThornTree.setRandomSeed S t seed).transforms,
      ∃ u, P u ∧ tr.gestation = 1 + 10 * u := by
  have hb := (setRandomSeed_spec S t seed h).1
  unfold ThornTree.setRandomSeed
  simp only []
  refine (randomizeTransforms_spec S _ ?_).2
  apply thornFold_draws
  exact hb

theorem trapezoid_gestations (U : Util) (L : Libm) (t : SelfLimitingPolygonTree) :
    (TrapezoidTree.create U L t).transforms.map QTransform.gestation =
      [10 * t.prng.draws 3, 10 * t.prng.draws 4, 10 * t.prng.draws 5] := by
  simp [TrapezoidTree.create, SelfLimitingPolygonTree.randomColor, Prng.r, Prng.next,
    SelfLimitingPolygonTree.create, QTransform.ctor]

theorem trapezoid_setRandomSeed_draws {P : ℚ → Prop} (S : Shapes)
    (t : SelfLimitingPolygonTree) (seed : Int) (h : AllDraws P (S.seed seed)) :
    AllDraws P (TrapezoidTree.setRandomSeed S t seed).prng :=
  (setRandomSeed_spec S t seed h).1

theorem create_transforms (U : Util) (t : SelfLimitingPolygonTree) :
    (create U t).transforms = t.transforms := rfl

/-- C14, counterexample. With a generator that hands out the variate 0, which is in the
range `[0, 1)`, the three transforms of a `TrapezoidTree` after `setRandomSeed(0)` and
`create()` have gestation `r(10.0) = 0`. -/
theorem trapezoid_gestation_zero :
    (TrapezoidTree.create plainUtil trapezoidLibm
      (TrapezoidTree.setRandomSeed (plainShapes fun _ => 0) (plainTree squarePolygon 10 200)
        0)).transforms.map QTransform.gestation = [0, 0, 0] := by
  have h : AllDraws (fun u => u = 0)
      (TrapezoidTree.setRandomSeed (plainShapes fun _ => 0) (plainTree squarePolygon 10 200)
        0).prng :=
    trapezoid_setRandomSeed_draws _ _ _ (fun _ => rfl)
  rw [trapezoid_gestations, h 3, h 4, h 5]
  norm_num

/-- C14, amended. When every variate of the seeded generator is in `[0, 1)`, after
`setRandomSeed` and `create()` every transform of a `SelfLimitingPolygonTree`, a
`ScaledPolygonTree` and a `ThornTree` has a gestation in `[1, 11)`, so strictly greater than
0, and every transform of a `TrapezoidTree` has a gestation in `[0, 10)`, which is not
negative and can be 0. -/
theorem gestation_ranges (S : Shapes) (U : Util) (L : Libm) (t : SelfLimitingPolygonTree)
    (ts : ScaledPolygonTree) (seed : Int)
    (h : ∀ i, 0 ≤ (S.seed seed).draws i ∧ (S.seed seed).draws i < 1) :
    (∀ tr ∈ (create U (setRandomSeed S t seed)).transforms,
      1 ≤ tr.gestation ∧ tr.gestation < 11) ∧
    (∀ tr ∈ (ScaledPolygonTree.create U (ScaledPolygonTree.setRandomSeed S ts seed)).transforms,
      1 ≤ tr.gestation ∧ tr.gestation < 11) ∧
    (∀ tr ∈ (ThornTree.create U (ThornTree.setRandomSeed S t seed)).transforms,
      1 ≤ tr.gestation ∧ tr.gestation < 11) ∧
    (∀ tr ∈ (TrapezoidTree.create U L (TrapezoidTree.setRandomSeed S t seed)).transforms,
      0 ≤ tr.gestation ∧ tr.gestation < 10) := by
  have hP : AllDraws (fun u => 0 ≤ u ∧ u < 1) (S.seed seed) := h
  have hb : ∀ tr : QTransform, (∃ u, (0 ≤ u ∧ u < 1) ∧ tr.gestation = 1 + 10 * u) →
      1 ≤ tr.gestation ∧ tr.gestation < 11 := by
    rintro tr ⟨u, ⟨h1, h2⟩, e⟩
    rw [e]
    constructor <;> linarith
  refine ⟨?_, ?_, ?_, ?_⟩
  · intro tr htr
    exact hb tr ((setRandomSeed_spec S t seed hP).2 tr htr)
  · intro tr htr
    exact hb tr (scaled_setRandomSeed_spec S ts seed hP tr htr)
  · intro tr htr
    exact hb tr (thorn_setRandomSeed_spec S t seed hP tr htr)
  · intro tr htr
    have hd := trapezoid_setRandomSeed_draws S t seed hP
    have hm : tr.gestation ∈ (TrapezoidTree.create U L
        (TrapezoidTree.setRandomSeed S t seed)).transforms.map QTransform.gestation :=
      List.mem_map_of_mem _ htr
    rw [trapezoid_gestations] at hm
    simp only [List.mem_cons, List.mem_singleton, List.not_mem_nil, or_false] at hm
    rcases hm with e | e | e <;> rw [e]
    · exact ⟨by linarith [(hd 3).1], by linarith [(hd 3).2]⟩
    · exact ⟨by linarith [(hd 4).1], by linarith [(hd 4).2]⟩
    · exact ⟨by linarith [(hd 5).1], by linarith [(hd 5).2]⟩

/-- C14, witness of the amended claim: the generator that hands out the variate 1/2. -/
theorem gestation_ranges_witness :
    (∀ i : Nat, 0 ≤ ((plainShapes fun _ => 1 / 2).seed 7).draws i ∧
      ((plainShapes fun _ => 1 / 2).seed 7).draws i < 1) ∧
    (∀ tr ∈ (create plainUtil
        (setRandomSeed (plainShapes fun _ => 1 / 2) (plainTree squarePolygon 10 40) 7)).transforms,
      1 ≤ tr.gestation ∧ tr.gestation < 11) :=
  have h : ∀ i : Nat, 0 ≤ ((plainShapes fun _ => 1 / 2).seed 7).draws i ∧
      ((plainShapes fun _ => 1 / 2).seed 7).draws i < 1 := by
    intro i
    simp [plainShapes]
    norm_num
  ⟨h, (gestation_ranges (plainShapes fun _ => 1 / 2) plainUtil trapezoidLibm
    (plainTree squarePolygon 10 40)
    { toSelfLimitingPolygonTree := plainTree squarePolygon 10 40, m_ratio := 0,
      m_ambidextrous := false } 7 h).1⟩

theorem randomizeTransforms_settings (S : Shapes) (t : SelfLimitingPolygonTree) (flags : Nat) :
    (randomizeTransforms S t flags).polygonSides = t.polygonSides ∧
    (randomizeTransforms S t flags).starAngle = t.starAngle := by
  unfold randomizeTransforms
  simp only []
  split_ifs <;> exact ⟨rfl, rfl⟩

theorem setRandomSeed_settings (S : Shapes) (t : SelfLimitingPolygonTree) (seed : Int) :
    (setRandomSeed S t seed).polygonSides = (if seed ≠ 0 then Int.tmod seed 6 + 3 else 5) ∧
    (setRandomSeed S t seed).starAngle =
      (if seed ≠ 0 then (if Int.tmod seed 12 < 6 then 36 else 0) else 36) := by
  unfold setRandomSeed
  rw [(randomizeTransforms_settings S _ 3).1, (randomizeTransforms_settings S _ 3).2]
  unfold setRandomSeedCore
  by_cases hs : seed ≠ 0
  · simp only [hs, if_true, ne_eq, not_false_eq_true, and_self]
  · simp only [hs, if_false, and_self]

/-- The seed-derived settings that are in range for every seed: `starAngle` is 0 or 36, the
position read in `ratioPresets` is below 5 and seed 0 gives 5 sides; and `polygonSides` is
between 3 and 8 for a seed that is not negative, between -2 and 3 for a negative seed. -/
theorem seed_settings_ranges (S : Shapes) (t : SelfLimitingPolygonTree) (seed : Int) :
    ((setRandomSeed S t seed).starAngle = 0 ∨ (setRandomSeed S t seed).starAngle = 36) ∧
    ratioIndex seed < 5 ∧
    (setRandomSeed S t 0).polygonSides = 5 ∧
    (0 ≤ seed → 3 ≤ (setRandomSeed S t seed).polygonSides ∧
      (setRandomSeed S t seed).polygonSides ≤ 8) ∧
    (seed < 0 → -2 ≤ (setRandomSeed S t seed).polygonSides ∧
      (setRandomSeed S t seed).polygonSides ≤ 3) := by
  obtain ⟨h1, h2⟩ := setRandomSeed_settings S t seed
  refine ⟨?_, ?_, ?_, ?_, ?_⟩
  · rw [h2]
    split_ifs <;> simp
  · exact Nat.mod_lt _ (by decide)
  · rw [(setRandomSeed_settings S t 0).1]
    simp
  · intro h
    rw [h1]
    split_ifs
    · have := Int.tmod_nonneg 6 h
      have := Int.tmod_lt_of_pos seed (by decide : (0 : Int) < 6)
      omega
    · omega
  · intro h
    rw [h1]
    have hs : seed ≠ 0 := by omega
    rw [if_pos hs]
    obtain ⟨n, rfl⟩ := Int.eq_negSucc_of_lt_zero h
    have e : Int.tmod (Int.negSucc n) 6 = -(((n + 1) % 6 : Nat) : Int) := rfl
    rw [e]
    omega

/-- C16, the code at failing inputs. For the seed -1, `setRandomSeed` leaves
`polygonSides = (-1 % 6) + 3 = 2`, and for the seed -5 it leaves `(-5 % 6) + 3 = -2`, below
the 3 sides of the claim; `starAngle` is 36 for both. -/
theorem negative_seed_polygon_sides (S : Shapes) (t : SelfLimitingPolygonTree) :
    (setRandomSeed S t (-1)).polygonSides = 2 ∧
    (setRandomSeed S t (-5)).polygonSides = -2 ∧
    (setRandomSeed S t (-1)).starAngle = 36 ∧
    (setRandomSeed S t (-5)).starAngle = 36 := by
  refine ⟨?_, ?_, ?_, ?_⟩
  · rw [(setRandomSeed_settings S t (-1)).1]; decide
  · rw [(setRandomSeed_settings S t (-5)).1]; decide
  · rw [(setRandomSeed_settings S t (-1)).2]; decide
  · rw [(setRandomSeed_settings S t (-5)).2]; decide

/-! ## Serialization -/

theorem pointsFromItems_roundtrip (polygon : List Point2f) :
    pointsFromItems (polygon.flatMap fun pt => [Json.num pt.x, Json.num pt.y]) = .ok polygon := by
  induction polygon with
  | nil => rfl
  | cons p ps ih =>
    have h : pointsFromItems
        (Json.num p.x :: Json.num p.y ::
          (ps.flatMap fun pt => [Json.num pt.x, Json.num pt.y])) = .ok (p :: ps) := by
      simp only [pointsFromItems, Json.getNum, Load.bind, ih]
    exact h

theorem polygon_roundtrip (polygon : List Point2f) :
    polygonFromJson (polygonToJson polygon) = .ok polygon := by
  simp only [polygonFromJson, polygonToJson, pointsFromItems_roundtrip]

theorem qtreeToJson_no_transforms (E : JsonEnv) (t : SelfLimitingPolygonTree) :
    qtreeToJson E { t with transforms := [] } =
      .obj [ ("_class", .str "qtree"), ("randomSeed", .int t.randomSeed),
             ("maxRadius", .num t.maxRadius), ("polygon", polygonToJson t.polygon),
             ("gestationRandomness", .num t.gestationRandomness),
             ("drawSettings",
               .obj [("lineColor", .str (E.toRgbHexString t.lineColor)),
                     ("lineThickness", .int t.lineThickness)]) ] := by
  rfl

theorem createTreeFromJson_no_class (E : JsonEnv) (j : Json) (h : j.contains "_class" = false) :
    createTreeFromJson E j = .raised "Invalid JSON or missing \"_class\" key." := by
  simp [createTreeFromJson, h]

theorem createTreeFromJson_registered (E : JsonEnv) (j : Json) (name : String)
    (prototype : AnyTree) (h : j.index "_class" = .ok (.str name))
    (hp : (factoryTable E).lookup name = some prototype) :
    createTreeFromJson E j = prototype.fromJson E j := by
  have hc : j.contains "_class" = true := by
    cases j <;> simp only [Json.index] at h <;> try exact absurd h (by simp)
    rename_i members
    simp only [Json.contains]
    cases hl : members.lookup "_class" with
    | none => rw [hl] at h; exact absurd h (by simp)
    | some v => rfl
  simp only [createTreeFromJson, hc, h, Load.bind, Json.getString, hp]
  simp

theorem createTreeFromJson_unregistered (E : JsonEnv) :
    createTreeFromJson E (.obj [("_class", .str "qtree")]) =
      .raised "Class not registered: \x27qtree\x27" := by
  rfl

theorem selfLimiting_toJson_no_transforms (E : JsonEnv) (t : SelfLimitingPolygonTree) :
    (SelfLimitingPolygonTree.toJson E { t with transforms := [] }).contains "transforms"
      = false := by
  rfl

theorem qtreeFromJson_no_transforms (E : JsonEnv) (t0 t : SelfLimitingPolygonTree) (j : Json)
    (ratio : ℚ) (ambidextrous : Bool)
    (hj : j = SelfLimitingPolygonTree.toJson E { t with transforms := [] } ∨
          j = ThornTree.toJson E { t with transforms := [] } ∨
          j = ScaledPolygonTree.toJson E
                { toSelfLimitingPolygonTree := { t with transforms := [] },
                  m_ratio := ratio, m_ambidextrous := ambidextrous }) :
    qtreeFromJson E t0 j = .raised "out_of_range" := by
  rcases hj with rfl | rfl | rfl <;>
  · simp only [qtreeFromJson, SelfLimitingPolygonTree.toJson, ThornTree.toJson,
      ScaledPolygonTree.toJson, qtreeToJson_no_transforms]
    simp [Json.set, Json.at, List.lookup, Load.bind, Json.getInt, Json.getNum, polygon_roundtrip]

/-- C12. A tree of any registered variant whose transform list is empty does not survive the
round trip: its serialized record has no `transforms` key, and `createTreeFromJson` on that
record throws `out_of_range` instead of returning a tree. -/
theorem roundtrip_fails_without_transforms (E : JsonEnv) (t : SelfLimitingPolygonTree)
    (s : ScaledPolygonTree) :
    createTreeFromJson E (AnyTree.toJson E (.selfLimiting { t with transforms := [] }))
        = .raised "out_of_range" ∧
      createTreeFromJson E (AnyTree.toJson E (.trapezoid { t with transforms := [] }))
        = .raised "out_of_range" ∧
      createTreeFromJson E (AnyTree.toJson E (.thorn { t with transforms := [] }))
        = .raised "out_of_range" ∧
      createTreeFromJson E (AnyTree.toJson E (.scaled { s with transforms := [] }))
        = .raised "out_of_range" := by
  have h1 := qtreeFromJson_no_transforms E (SelfLimitingPolygonTree.ctor E) t _ 0 false
    (Or.inl rfl)
  have h2 := qtreeFromJson_no_transforms E (SelfLimitingPolygonTree.ctor E) t _ 0 false
    (Or.inr (Or.inl rfl))
  have h3 := qtreeFromJson_no_transforms E (SelfLimitingPolygonTree.ctor E)
    s.toSelfLimitingPolygonTree _ s.m_ratio s.m_ambidextrous (Or.inr (Or.inr rfl))
  refine ⟨?_, ?_, ?_, ?_⟩
  · have e : createTreeFromJson E
          (AnyTree.toJson E (.selfLimiting { t with transforms := [] })) =
        AnyTree.fromJson E (.selfLimiting (SelfLimitingPolygonTree.ctor E))
          (SelfLimitingPolygonTree.toJson E { t with transforms := [] }) := by
      apply createTreeFromJson_registered E _ "SelfLimitingPolygonTree" <;> rfl
    rw [e]
    simp only [AnyTree.fromJson, SelfLimitingPolygonTree.fromJson, h1, Load.bind]
  · have e : createTreeFromJson E
          (AnyTree.toJson E (.trapezoid { t with transforms := [] })) =
        AnyTree.fromJson E (.selfLimiting (SelfLimitingPolygonTree.ctor E))
          (SelfLimitingPolygonTree.toJson E { t with transforms := [] }) := by
      apply createTreeFromJson_registered E _ "SelfLimitingPolygonTree" <;> rfl
    rw [e]
    simp only [AnyTree.fromJson, SelfLimitingPolygonTree.fromJson, h1, Load.bind]
  · have e : createTreeFromJson E
          (AnyTree.toJson E (.thorn { t with transforms := [] })) =
        AnyTree.fromJson E (.thorn (SelfLimitingPolygonTree.ctor E))
          (ThornTree.toJson E { t with transforms := [] }) := by
      apply createTreeFromJson_registered E _ "ThornTree" <;> rfl
    rw [e]
    simp only [AnyTree.fromJson, SelfLimitingPolygonTree.fromJson, h2, Load.bind]
  · have e : createTreeFromJson E
          (AnyTree.toJson E (.scaled { s with transforms := [] })) =
        AnyTree.fromJson E
          (.scaled { toSelfLimitingPolygonTree := SelfLimitingPolygonTree.ctor E,
                     m_ratio := E.freshRatio, m_ambidextrous := E.freshAmbidextrous })
          (ScaledPolygonTree.toJson E { s with transforms := [] }) := by
      apply createTreeFromJson_registered E _ "ScaledPolygonTree" <;> rfl
    rw [e]
    simp only [AnyTree.fromJson, ScaledPolygonTree.fromJson, SelfLimitingPolygonTree.fromJson,
      h3, Load.bind]

/-- C13. A `ScaledPolygonTree` record that lacks `ratio` (or lacks `ambidextrous`) and has
every other required key is not answered by a raised error: the load runs into the unchecked
`operator[]` of the library, which is undefined behaviour. -/
theorem scaled_missing_key_not_raised (E : JsonEnv) :
    createTreeFromJson E recordWithoutRatio = .undefined ∧
      createTreeFromJson E recordWithoutAmbidextrous = .undefined := by
  constructor <;> rfl

theorem createTreeFromJson_complete (E : JsonEnv) :
    createTreeFromJson E recordComplete =
      .ok (.scaled
        { toSelfLimitingPolygonTree :=
            { SelfLimitingPolygonTree.ctor E with
              maxRadius := 4, lineColor := E.fromRgbHexString "#000000",
              fieldResolution := 100 },
          m_ratio := 1, m_ambidextrous := false }) := by
  simp [createTreeFromJson, recordComplete, Json.contains, Json.index, Json.at, List.lookup,
    Load.bind, Json.getString, factoryTable, AnyTree.fromJson, ScaledPolygonTree.fromJson,
    SelfLimitingPolygonTree.fromJson, qtreeFromJson, Json.getInt, Json.getNum, Json.getBool,
    polygonFromJson, pointsFromItems, transformsFromJson, transformsFromItems, Json.size,
    SelfLimitingPolygonTree.ctor]

theorem matx33_roundtrip (m : Matx33) : matx33FromJson (matx33ToJson m) = .ok m := by
  rfl

theorem matx44_roundtrip (m : Matx44) : matx44FromJson (matx44ToJson m) = .ok m := by
  have h : matx44FromJson (matx44ToJson m) = .ok fun r =>
      if r = 0 then fun c => if c = 0 then m 0 0 else if c = 1 then m 0 1
        else if c = 2 then m 0 2 else m 0 3
      else if r = 1 then fun c => if c = 0 then m 1 0 else if c = 1 then m 1 1
        else if c = 2 then m 1 2 else m 1 3
      else if r = 2 then fun c => if c = 0 then m 2 0 else if c = 1 then m 2 1
        else if c = 2 then m 2 2 else m 2 3
      else fun c => if c = 0 then m 3 0 else if c = 1 then m 3 1
        else if c = 2 then m 3 2 else m 3 3 := by
    rfl
  rw [h]
  congr 1
  funext r c
  fin_cases r <;> fin_cases c <;> rfl

theorem transform_roundtrip (t t0 : QTransform) (h : t.transformMatrixKey.isEmpty = true) :
    transformFromJson (transformToJson t) t0 =
      .ok { t0 with gestation := t.gestation, colorTransform := t.colorTransform,
                    transformMatrix := t.transformMatrix } := by
  have h1 : (transformToJson t).at "gestation" = .ok (.num t.gestation) := by
    simp only [transformToJson, h]; rfl
  have h2 : (transformToJson t).at "color" = .ok (matx44ToJson t.colorTransform) := by
    simp only [transformToJson, h]; rfl
  have h3 : (transformToJson t).at "transform" = .ok (matx33ToJson t.transformMatrix) := by
    simp only [transformToJson, h]; rfl
  simp only [transformFromJson, h1, h2, h3, Load.bind, Json.getNum, matx44_roundtrip,
    matx33_roundtrip]

theorem transform_key_not_read (t t0 : QTransform) (h : t.transformMatrixKey.isEmpty = false) :
    transformFromJson (transformToJson t) t0 = .raised "type_error" := by
  have h1 : (transformToJson t).at "gestation" = .ok (.num t.gestation) := by
    simp only [transformToJson, h]; rfl
  have h2 : (transformToJson t).at "color" = .ok (matx44ToJson t.colorTransform) := by
    simp only [transformToJson, h]; rfl
  have h3 : (transformToJson t).at "transform" = .ok (.str t.transformMatrixKey) := by
    simp only [transformToJson, h]; rfl
  simp only [transformFromJson, h1, h2, h3, Load.bind, Json.getNum, matx44_roundtrip]
  rfl

end QTree
